import Mathlib

/-!
# VidMax7219: frame buffer, buffer roles and image compositing

A shallow embedding of `vidmax7219.cpp` (a driver for a 32x8 LED panel made of
four chained Max7219 chips) and theorems about its drawing operations.

Conventions of the embedding

* `byte` values are natural numbers; every store into a `byte` cell or a `byte`
  variable keeps the low eight bits (`% 256`).
* `int` values are integers; the target's `int` is 16 bits wide and signed
  overflow is undefined in C, so the embedding covers the executions in which
  no `int` expression overflows.
* `vid_buffer` is a function from the index to the byte stored there.  The
  array has 256 cells; every index written through a `byte` variable is below
  256 by construction.
* A bitmap plane (`const byte*`) is a function from the offset added to the
  pointer to the byte read there.
* The locals `curPosA..D` and `oldPosAVal..D` of `vidDrawImage` are declared
  without an initial value; their indeterminate starting values are an explicit
  argument of the embedding.
-/

namespace VidMax7219

/-! ## Constants -/

/-- Number of bytes of one plane (`VID_BUFSIZE`). -/
def VID_BUFSIZE : Nat := 32

/-- Width of the display in pixels (`VID_DISPLAY_W`). -/
def VID_DISPLAY_W : Int := 32

/-- Height of the display in pixels (`VID_DISPLAY_H`). -/
def VID_DISPLAY_H : Int := 8

/-- Start of plane A of the first buffer. -/
def VID_BUF_0a : Nat := 0
/-- Start of plane B of the first buffer. -/
def VID_BUF_0b : Nat := 32
/-- Start of plane C of the first buffer. -/
def VID_BUF_0c : Nat := 64
/-- Start of plane D of the first buffer. -/
def VID_BUF_0d : Nat := 96
/-- Start of plane A of the second buffer. -/
def VID_BUF_1a : Nat := 128
/-- Start of plane B of the second buffer. -/
def VID_BUF_1b : Nat := 128 + 32
/-- Start of plane C of the second buffer. -/
def VID_BUF_1c : Nat := 128 + 64
/-- Start of plane D of the second buffer. -/
def VID_BUF_1d : Nat := 128 + 96

/-! ## Machine arithmetic -/

/-- Conversion of an `int` to `byte`: the low eight bits. -/
def byteOfInt (z : Int) : Nat := (z % 256).toNat

/-- The `byte` obtained from `~n` for a non-negative `int` `n`: the low eight
bits of the complement. -/
def byteOfNot (n : Nat) : Nat := byteOfInt (-(n : Int) - 1)

/-- Assignment `buf[i] = v` to a cell of a `byte` array. -/
def store (buf : Nat → Nat) (i v : Nat) : Nat → Nat :=
  fun j => if j = i then v % 256 else buf j

/-- Read of one byte of a bitmap plane at offset `off` (`pgm_read_byte_near`). -/
def pgm_read_byte_near (img : Nat → Nat) (off : Nat) : Nat := img off % 256

/-! ## Driver state -/

/-- The global state of the driver that the drawing operations and the buffer
swap read or write: the frame memory, the eight plane references and the
running flag of the refresh timer (`MsTimer2`). -/
structure Driver where
  /-- Frame memory: 2 buffers of 4 planes of 32 bytes. -/
  vid_buffer : Nat → Nat
  /-- Displayed plane A. -/
  vid_blit_buffer_ref_a : Nat
  /-- Displayed plane B. -/
  vid_blit_buffer_ref_b : Nat
  /-- Displayed plane C. -/
  vid_blit_buffer_ref_c : Nat
  /-- Displayed plane D. -/
  vid_blit_buffer_ref_d : Nat
  /-- Drawable plane A. -/
  vid_draw_buffer_ref_a : Nat
  /-- Drawable plane B. -/
  vid_draw_buffer_ref_b : Nat
  /-- Drawable plane C. -/
  vid_draw_buffer_ref_c : Nat
  /-- Drawable plane D. -/
  vid_draw_buffer_ref_d : Nat
  /-- Whether the periodic refresh timer is running. -/
  timer_running : Bool

/-- The state left by the static initialisers and the constructor: the plane
references hold their initialisers, the constructor has zeroed all 256 bytes
and the timer has been set but not started. -/
def construct : Driver where
  vid_buffer := fun _ => 0
  vid_blit_buffer_ref_a := VID_BUF_0a
  vid_blit_buffer_ref_b := VID_BUF_0b
  vid_blit_buffer_ref_c := VID_BUF_0c
  vid_blit_buffer_ref_d := VID_BUF_0d
  vid_draw_buffer_ref_a := VID_BUF_1a
  vid_draw_buffer_ref_b := VID_BUF_1b
  vid_draw_buffer_ref_c := VID_BUF_1c
  vid_draw_buffer_ref_d := VID_BUF_1d
  timer_running := false

/-! ## vidClear -/

/-- The loop `for (byte i = 0 ; i < 128 ; i++) vid_buffer[ref+i] = 0;`, with the
number of remaining iterations as fuel. -/
def vidClearLoop (ref : Nat) : Nat → Nat → (Nat → Nat) → (Nat → Nat)
  | 0, _, buf => buf
  | n + 1, i, buf =>
    if i < 128 then vidClearLoop ref n (i + 1) (store buf (ref + i) 0) else buf

/-- Embedding of `VidMax7219::vidClear`. -/
def vidClear (s : Driver) : Driver :=
  { s with vid_buffer := vidClearLoop s.vid_draw_buffer_ref_a 128 0 s.vid_buffer }

/-! ## vidSwitchBuffers -/

/-- Embedding of `VidMax7219::vidSwitchBuffers`, statement by statement. -/
def vidSwitchBuffers (s : Driver) : Driver :=
  let s := { s with timer_running := false }
  let tmp_a := s.vid_blit_buffer_ref_a
  let tmp_b := s.vid_blit_buffer_ref_b
  let _tmp_c := s.vid_blit_buffer_ref_c
  let tmp_d := s.vid_blit_buffer_ref_d
  let s := { s with vid_blit_buffer_ref_a := s.vid_draw_buffer_ref_a }
  let s := { s with vid_draw_buffer_ref_a := tmp_a }
  let s := { s with vid_blit_buffer_ref_b := s.vid_draw_buffer_ref_b }
  let s := { s with vid_draw_buffer_ref_b := tmp_b }
  let s := { s with vid_blit_buffer_ref_c := s.vid_draw_buffer_ref_d }
  let s := { s with vid_draw_buffer_ref_c := tmp_d }
  let s := { s with vid_blit_buffer_ref_d := s.vid_draw_buffer_ref_d }
  let s := { s with vid_draw_buffer_ref_d := tmp_d }
  { s with timer_running := true }

/-! ## vidPutPixel and vidGetPixel -/

/-- Embedding of `VidMax7219::vidPutPixel`. -/
def vidPutPixel (s : Driver) (pos_x pos_y : Int) (pixel : Nat) : Driver :=
  let shift := byteOfInt (7 - Int.tmod pos_x 8)
  let mask := byteOfNot (1 <<< shift)
  let off := (pos_y * VID_DISPLAY_W + pos_x) / 8
  let buf := s.vid_buffer
  let curPos := byteOfInt (s.vid_draw_buffer_ref_a + off)
  let buf := store buf curPos (buf curPos &&& mask)
  let buf := store buf curPos (buf curPos + ((pixel >>> 3) <<< shift))
  let curPos := byteOfInt (s.vid_draw_buffer_ref_b + off)
  let buf := store buf curPos (buf curPos &&& mask)
  let buf := store buf curPos (buf curPos + (((0x04 &&& pixel) >>> 2) <<< shift))
  let curPos := byteOfInt (s.vid_draw_buffer_ref_c + off)
  let buf := store buf curPos (buf curPos &&& mask)
  let buf := store buf curPos (buf curPos + (((0x02 &&& pixel) >>> 1) <<< shift))
  let curPos := byteOfInt (s.vid_draw_buffer_ref_d + off)
  let buf := store buf curPos (buf curPos &&& mask)
  let buf := store buf curPos (buf curPos + ((1 &&& pixel) <<< shift))
  { s with vid_buffer := buf }

/-- Number of bytes of one bitmap row: `(img_w >> 3) + (img_w % 8 ? 1 : 0)`,
stored in a `byte`. -/
def img_wbyte (img_w : Nat) : Nat :=
  ((img_w >>> 3) + (if img_w % 8 ≠ 0 then 1 else 0)) % 256

/-- Embedding of `VidMax7219::vidGetPixel`.  The offset added to the plane
pointers is `(x>>3)+(y*img_wbyte)`; the caller guarantees that it is inside the
plane, so it is read as a natural number. -/
def vidGetPixel (x y : Int) (img_w _img_h : Nat) (img_a img_b img_c img_d : Nat → Nat) : Nat :=
  let wb := img_wbyte img_w
  let shift := byteOfInt (7 - Int.tmod x 8)
  let off := (x / 8 + y * (wb : Int)).toNat
  ((0x08 &&& ((pgm_read_byte_near img_a off >>> shift) <<< 3))
    + (0x04 &&& ((pgm_read_byte_near img_b off >>> shift) <<< 2))
    + (0x02 &&& ((pgm_read_byte_near img_c off >>> shift) <<< 1))
    + (1 &&& (pgm_read_byte_near img_d off >>> shift))) % 256

/-! ## vidDrawImage -/

/-- The locals of `vidDrawImage` that are declared without an initial value,
together with the frame memory they index. -/
structure Draw where
  /-- Frame memory. -/
  vid_buffer : Nat → Nat
  /-- Local `oldPosAVal`. -/
  oldPosAVal : Nat
  /-- Local `oldPosBVal`. -/
  oldPosBVal : Nat
  /-- Local `oldPosCVal`. -/
  oldPosCVal : Nat
  /-- Local `oldPosDVal`. -/
  oldPosDVal : Nat
  /-- Local `curPosA`. -/
  curPosA : Nat
  /-- Local `curPosB`. -/
  curPosB : Nat
  /-- Local `curPosC`. -/
  curPosC : Nat
  /-- Local `curPosD`. -/
  curPosD : Nat

/-- Indeterminate starting values of the eight uninitialised locals. -/
structure Locals where
  /-- Starting value of `oldPosAVal`. -/
  oldPosAVal : Nat
  /-- Starting value of `oldPosBVal`. -/
  oldPosBVal : Nat
  /-- Starting value of `oldPosCVal`. -/
  oldPosCVal : Nat
  /-- Starting value of `oldPosDVal`. -/
  oldPosDVal : Nat
  /-- Starting value of `curPosA`. -/
  curPosA : Nat
  /-- Starting value of `curPosB`. -/
  curPosB : Nat
  /-- Starting value of `curPosC`. -/
  curPosC : Nat
  /-- Starting value of `curPosD`. -/
  curPosD : Nat

/-- The value `shift_x = (pos_x >= 0 ? pos_x % 8 : 8- (-pos_x) % 8)`, stored in
a `byte`. -/
def shift_x (pos_x : Int) : Nat :=
  byteOfInt (if pos_x ≥ 0 then Int.tmod pos_x 8 else 8 - Int.tmod (-pos_x) 8)

/-- The value `shift_enter_mask = 0xFF << (8 - shift_x)`, stored in a `byte`. -/
def shift_enter_mask (pos_x : Int) : Nat :=
  (0xFF <<< (8 - shift_x pos_x)) % 256

/-- The value `shift_leave_mask = 0xFF >> ((pos_x + img_w) % 8)`, stored in a
`byte`.  A negative shift count (possible only when `pos_x + img_w < 0`) is
undefined in C; the embedding then shifts by zero. -/
def shift_leave_mask (pos_x : Int) (img_w : Nat) : Nat :=
  (0xFF >>> (Int.tmod (pos_x + (img_w : Int)) 8).toNat) % 256

/-- Upper bound of the column loop:
`(img_w%8 ? ((img_w+8)>>3) : img_w>>3)<<3`. -/
def colBound (img_w : Nat) : Nat :=
  (if img_w % 8 ≠ 0 then (img_w + 8) >>> 3 else img_w >>> 3) <<< 3

/-- Right-hand side of the `|=` of the column loop for one plane:
`(x<img_w ? read(img + (x>>3)+(y*img_wbyte)) >> shift_x : 0)
 + (x==0 ? 0 : read(img + ((x-8)>>3)+(y*img_wbyte)) << (8-shift_x))`. -/
def mergeValue (img : Nat → Nat) (pos_x : Int) (img_w x y : Nat) : Nat :=
  (if x < img_w then pgm_read_byte_near img ((x >>> 3) + y * img_wbyte img_w) >>> shift_x pos_x else 0)
    + (if x = 0 then 0
       else pgm_read_byte_near img (((x - 8) >>> 3) + y * img_wbyte img_w) <<< (8 - shift_x pos_x))

/-- The entry-mask block of one row (`if (pos_x >= 0) {...}` is tested by the
caller).  `ra rb rc rd` are the values of `vid_draw_buffer_ref_a..d`, which no
statement of `vidDrawImage` changes. -/
def enterRow (ra rb rc rd : Nat) (pos_x pos_y : Int) (y : Nat) (d : Draw) : Draw :=
  let off := ((pos_y + (y : Int)) * VID_DISPLAY_W + pos_x) / 8
  let d := { d with curPosA := byteOfInt ((ra : Int) + off) }
  let d := { d with curPosB := byteOfInt ((rb : Int) + off) }
  let d := { d with curPosC := byteOfInt ((rc : Int) + off) }
  let d := { d with curPosD := byteOfInt ((rd : Int) + off) }
  let d := { d with vid_buffer := store d.vid_buffer d.curPosA (d.vid_buffer d.curPosA &&& shift_enter_mask pos_x) }
  let d := { d with vid_buffer := store d.vid_buffer d.curPosB (d.vid_buffer d.curPosB &&& shift_enter_mask pos_x) }
  let d := { d with vid_buffer := store d.vid_buffer d.curPosC (d.vid_buffer d.curPosC &&& shift_enter_mask pos_x) }
  { d with vid_buffer := store d.vid_buffer d.curPosD (d.vid_buffer d.curPosD &&& shift_enter_mask pos_x) }

/-- One executed body of the column loop (the part after the `continue` and
`break` tests). -/
def colBody (ra rb rc rd : Nat) (pos_x pos_y : Int) (img_w : Nat)
    (img_a img_b img_c img_d : Nat → Nat) (y x : Nat) (d : Draw) : Draw :=
  let off := ((pos_y + (y : Int)) * VID_DISPLAY_W + pos_x + (x : Int)) / 8
  let d := { d with curPosA := byteOfInt ((ra : Int) + off) }
  let d := { d with curPosB := byteOfInt ((rb : Int) + off) }
  let d := { d with curPosC := byteOfInt ((rc : Int) + off) }
  let d := { d with curPosD := byteOfInt ((rd : Int) + off) }
  let d := { d with oldPosAVal := d.vid_buffer d.curPosA }
  let d := { d with oldPosBVal := d.vid_buffer d.curPosB }
  let d := { d with oldPosCVal := d.vid_buffer d.curPosC }
  let d := { d with oldPosDVal := d.vid_buffer d.curPosD }
  let d := { d with vid_buffer := store d.vid_buffer d.curPosA (d.vid_buffer d.curPosA ||| mergeValue img_a pos_x img_w x y) }
  let d := { d with vid_buffer := store d.vid_buffer d.curPosB (d.vid_buffer d.curPosB ||| mergeValue img_b pos_x img_w x y) }
  let d := { d with vid_buffer := store d.vid_buffer d.curPosC (d.vid_buffer d.curPosC ||| mergeValue img_c pos_x img_w x y) }
  { d with vid_buffer := store d.vid_buffer d.curPosD (d.vid_buffer d.curPosD ||| mergeValue img_d pos_x img_w x y) }

/-- The column loop `for ( ; x <= bound ; x += 8)` of one row, with fuel.  The
result is the state together with the value of `x` on exit. -/
def colLoop (ra rb rc rd : Nat) (pos_x pos_y : Int) (img_w : Nat)
    (img_a img_b img_c img_d : Nat → Nat) (y : Nat) : Nat → Nat → Draw → Draw × Nat
  | 0, x, d => (d, x)
  | n + 1, x, d =>
    if x ≤ colBound img_w then
      if pos_x + (x : Int) < 0 then
        colLoop ra rb rc rd pos_x pos_y img_w img_a img_b img_c img_d y n (x + 8) d
      else if pos_x + (x : Int) ≥ VID_DISPLAY_W then (d, x)
      else
        colLoop ra rb rc rd pos_x pos_y img_w img_a img_b img_c img_d y n (x + 8)
          (colBody ra rb rc rd pos_x pos_y img_w img_a img_b img_c img_d y x d)
    else (d, x)

/-- The exit-mask block that follows the column loop. -/
def leaveRow (pos_x : Int) (img_w : Nat) (x : Nat) (d : Draw) : Draw :=
  if pos_x + (x : Int) < VID_DISPLAY_W then
    let d := { d with vid_buffer := store d.vid_buffer d.curPosA (d.vid_buffer d.curPosA ||| (d.oldPosAVal &&& shift_leave_mask pos_x img_w)) }
    let d := { d with vid_buffer := store d.vid_buffer d.curPosB (d.vid_buffer d.curPosB ||| (d.oldPosBVal &&& shift_leave_mask pos_x img_w)) }
    let d := { d with vid_buffer := store d.vid_buffer d.curPosC (d.vid_buffer d.curPosC ||| (d.oldPosCVal &&& shift_leave_mask pos_x img_w)) }
    { d with vid_buffer := store d.vid_buffer d.curPosD (d.vid_buffer d.curPosD ||| (d.oldPosDVal &&& shift_leave_mask pos_x img_w)) }
  else d

/-- The statements of one row that is neither skipped nor past the bottom
edge.  The column loop needs at most `colBound img_w / 8 + 1` iterations, the
fuel given is one more. -/
def rowBody (ra rb rc rd : Nat) (pos_x pos_y : Int) (img_w : Nat)
    (img_a img_b img_c img_d : Nat → Nat) (y : Nat) (d : Draw) : Draw :=
  let d := if pos_x ≥ 0 then enterRow ra rb rc rd pos_x pos_y y d else d
  let r := colLoop ra rb rc rd pos_x pos_y img_w img_a img_b img_c img_d y (colBound img_w / 8 + 2) 0 d
  leaveRow pos_x img_w r.2 r.1

/-- The row loop `for(int y = 0 ; y < img_h ; y++)`, with fuel. -/
def rowLoop (ra rb rc rd : Nat) (pos_x pos_y : Int) (img_w img_h : Nat)
    (img_a img_b img_c img_d : Nat → Nat) : Nat → Nat → Draw → Draw
  | 0, _, d => d
  | n + 1, y, d =>
    if y < img_h then
      if pos_y + (y : Int) ≥ VID_DISPLAY_H then d
      else if pos_y + (y : Int) < 0 then
        rowLoop ra rb rc rd pos_x pos_y img_w img_h img_a img_b img_c img_d n (y + 1) d
      else
        rowLoop ra rb rc rd pos_x pos_y img_w img_h img_a img_b img_c img_d n (y + 1)
          (rowBody ra rb rc rd pos_x pos_y img_w img_a img_b img_c img_d y d)
    else d

/-- Embedding of `VidMax7219::vidDrawImage`.  `g` holds the indeterminate
starting values of the uninitialised locals. -/
def vidDrawImage (s : Driver) (g : Locals) (pos_x pos_y : Int) (img_w img_h : Nat)
    (img_a img_b img_c img_d : Nat → Nat) : Driver :=
  let d : Draw :=
    { vid_buffer := s.vid_buffer
      oldPosAVal := g.oldPosAVal, oldPosBVal := g.oldPosBVal
      oldPosCVal := g.oldPosCVal, oldPosDVal := g.oldPosDVal
      curPosA := g.curPosA, curPosB := g.curPosB
      curPosC := g.curPosC, curPosD := g.curPosD }
  let d := rowLoop s.vid_draw_buffer_ref_a s.vid_draw_buffer_ref_b s.vid_draw_buffer_ref_c
    s.vid_draw_buffer_ref_d pos_x pos_y img_w img_h img_a img_b img_c img_d img_h 0 d
  { s with vid_buffer := d.vid_buffer }


/-! ## Reachable states -/

/-- Read of frame memory as a bitmap plane that starts at index `ref`. -/
def planeAt (buf : Nat → Nat) (ref : Nat) : Nat → Nat := fun off => buf (ref + off)

/-- The driver states reachable from construction by drawing operations and
buffer swaps, each with arbitrary arguments. -/
inductive Reachable : Driver → Prop
  | init : Reachable construct
  | clear {s : Driver} : Reachable s → Reachable (vidClear s)
  | putPixel {s : Driver} (pos_x pos_y : Int) (pixel : Nat) :
      Reachable s → Reachable (vidPutPixel s pos_x pos_y pixel)
  | drawImage {s : Driver} (g : Locals) (pos_x pos_y : Int) (img_w img_h : Nat)
      (img_a img_b img_c img_d : Nat → Nat) :
      Reachable s → Reachable (vidDrawImage s g pos_x pos_y img_w img_h img_a img_b img_c img_d)
  | switchBuffers {s : Driver} : Reachable s → Reachable (vidSwitchBuffers s)

/-- The role assignment set up by the static initialisers: the first buffer is
displayed, the second is drawn on. -/
def InitialRoles (s : Driver) : Prop :=
  s.vid_blit_buffer_ref_a = VID_BUF_0a ∧ s.vid_blit_buffer_ref_b = VID_BUF_0b ∧
  s.vid_blit_buffer_ref_c = VID_BUF_0c ∧ s.vid_blit_buffer_ref_d = VID_BUF_0d ∧
  s.vid_draw_buffer_ref_a = VID_BUF_1a ∧ s.vid_draw_buffer_ref_b = VID_BUF_1b ∧
  s.vid_draw_buffer_ref_c = VID_BUF_1c ∧ s.vid_draw_buffer_ref_d = VID_BUF_1d

/-- The three role assignments that occur: the initial one, the one after an
odd number of swaps and the one after an even, positive number of swaps. -/
def RoleCycle (s : Driver) : Prop :=
  InitialRoles s ∨
  (s.vid_blit_buffer_ref_a = 128 ∧ s.vid_blit_buffer_ref_b = 160 ∧
   s.vid_blit_buffer_ref_c = 224 ∧ s.vid_blit_buffer_ref_d = 224 ∧
   s.vid_draw_buffer_ref_a = 0 ∧ s.vid_draw_buffer_ref_b = 32 ∧
   s.vid_draw_buffer_ref_c = 96 ∧ s.vid_draw_buffer_ref_d = 96) ∨
  (s.vid_blit_buffer_ref_a = 0 ∧ s.vid_blit_buffer_ref_b = 32 ∧
   s.vid_blit_buffer_ref_c = 96 ∧ s.vid_blit_buffer_ref_d = 96 ∧
   s.vid_draw_buffer_ref_a = 128 ∧ s.vid_draw_buffer_ref_b = 160 ∧
   s.vid_draw_buffer_ref_c = 224 ∧ s.vid_draw_buffer_ref_d = 224)


/-- The byte left in one plane by the two statements of `vidPutPixel`
(`buf[curPos] &= mask; buf[curPos] += t << shift`) when the cell held `b`. -/
def putByte (b shift t : Nat) : Nat :=
  ((b &&& byteOfNot (1 <<< shift)) % 256 + (t <<< shift)) % 256


/-! ## Concrete bitmaps used in the evaluations -/

/-- A bitmap plane whose first byte is `b0`, whose second byte is `b1` and whose
other bytes are 0. -/
def plane2 (b0 b1 : Nat) : Nat → Nat :=
  fun off => if off = 0 then b0 else if off = 1 then b1 else 0

/-- A bitmap plane of zeros. -/
def plane0 : Nat → Nat := fun _ => 0

/-- Starting values 0 for the uninitialised locals. -/
def locals0 : Locals := ⟨0, 0, 0, 0, 0, 0, 0, 0⟩

/-! ## Notions used to state and prove properties of vidDrawImage -/

/-- The cell `buf[cur]` holds a byte that contains every bit of the low byte of
`old`: what the column loop guarantees for `oldPosXVal` and `curPosX` after an
executed body. -/
def Kept (buf : Nat → Nat) (cur old : Nat) : Prop :=
  buf cur < 256 ∧ ∀ t, t < 8 → old.testBit t = true → (buf cur).testBit t = true

/-- All four saved values are contained in the cells they were read from. -/
def Saved (d : Draw) : Prop :=
  Kept d.vid_buffer d.curPosA d.oldPosAVal ∧ Kept d.vid_buffer d.curPosB d.oldPosBVal ∧
  Kept d.vid_buffer d.curPosC d.oldPosCVal ∧ Kept d.vid_buffer d.curPosD d.oldPosDVal

/-- A transformation of the frame memory that treats every bit of every cell
on its own: it keeps the bit (`k`) or clears it, and then possibly sets it
(`v`), with `k` and `v` not depending on the memory content. -/
def Bitwise (F : (Nat → Nat) → (Nat → Nat)) : Prop :=
  ∃ k v : Nat → Nat → Bool, ∀ buf i t,
    (F buf i).testBit t = ((k i t && (buf i).testBit t) || v i t)

/-- The bitmap plane that `vidDrawImage` merges into the cell at index `i` of
the frame memory in the initial role assignment (draw planes A, B, C, D at
128, 160, 192, 224). -/
def planeOfCell (img_a img_b img_c img_d : Nat → Nat) (i : Nat) : Nat → Nat :=
  if i < 160 then img_a else if i < 192 then img_b else if i < 224 then img_c else img_d

/-- The byte that row `y` of a bitmap drawn at `pos_x ≥ 0` leaves in the cell at
index `i` that held `old`, in the initial role assignment: a cell of screen row
`pos_y + y` between the first byte column of the bitmap and the last column of
the loop gets the merged bitmap bytes OR-ed in, after the entry mask for the
first byte column; every other cell keeps `old`. -/
def cellAfterRow (img_a img_b img_c img_d : Nat → Nat) (pos_x pos_y : Int) (img_w : Nat)
    (y i old : Nat) : Nat :=
  if 128 ≤ i ∧ i < 256 ∧ ((i % 32 / 4 : Nat) : Int) = pos_y + (y : Int) ∧
      (pos_x / 8).toNat ≤ i % 4 ∧ i % 4 ≤ (pos_x / 8).toNat + colBound img_w / 8 then
    ((if i % 4 = (pos_x / 8).toNat then (old &&& shift_enter_mask pos_x) % 256 else old)
      ||| mergeValue (planeOfCell img_a img_b img_c img_d i) pos_x img_w
            (8 * (i % 4 - (pos_x / 8).toNat)) y) % 256
  else old

/-- Pixel `(u, v)` of a bitmap plane of width `img_w`: the bit that `vidGetPixel`
reads, bit `7 - u % 8` of the byte at offset `(u >> 3) + v * img_wbyte`. -/
def bitmapPixel (img : Nat → Nat) (img_w : Nat) (u v : Nat) : Bool :=
  (pgm_read_byte_near img (u / 8 + v * img_wbyte img_w)).testBit (7 - u % 8)

/-- Pixel `(c, r)` of the plane of the frame memory that starts at `ref`: the
bit that `vidPutPixel` writes, bit `7 - c % 8` of the byte at
`ref + ((r * 32 + c) >> 3)`. -/
def bufferPixel (buf : Nat → Nat) (ref : Nat) (c r : Nat) : Bool :=
  (buf (ref + (r * 32 + c) / 8)).testBit (7 - c % 8)



/-! ## The serial link to the chip chain -/

/-- The output register `PORTB` and the sequence of values written to it,
oldest first.  Bit 0 is the clock line (pin 8), bit 1 the chip-select line
(pin 9) and bit 2 the data line (pin 10). -/
structure Bus where
  /-- Current value of `PORTB`. -/
  portb : Nat
  /-- Values written to `PORTB` so far, oldest first. -/
  log : List Nat

/-- An assignment of `v` to `PORTB`, an 8-bit register. -/
def writePORTB (b : Bus) (v : Nat) : Bus :=
  { portb := v % 256, log := b.log ++ [v % 256] }

/-- The statement macro `vidStartWrite`, `PORTB&=B11111100`. -/
def vidStartWrite (b : Bus) : Bus := writePORTB b (b.portb &&& 0xFC)

/-- The statement macro `vidStopWrite`, `PORTB|=B10`. -/
def vidStopWrite (b : Bus) : Bus := writePORTB b (b.portb ||| 0x02)

/-- The loop `while (i>0) { PORTB &= B11111010;
PORTB |= (byte)(((data >> i--) & 1) << 2); PORTB |= 1; }` of `vidWriteWord`,
with the number of remaining iterations as fuel. -/
def vidWriteWordLoop (data : Nat) : Nat → Nat → Bus → Bus
  | 0, _, b => b
  | n + 1, i, b =>
    if i > 0 then
      let b := writePORTB b (b.portb &&& 0xFA)
      let b := writePORTB b (b.portb ||| ((((data >>> i) &&& 1) <<< 2) % 256))
      let b := writePORTB b (b.portb ||| 1)
      vidWriteWordLoop data n (i - 1) b
    else b

/-- Embedding of `vidWriteWord`; the parameter is an `unsigned int` (16 bits). -/
def vidWriteWord (data : Nat) (b : Bus) : Bus :=
  let data := data % 65536
  let b := vidWriteWordLoop data 15 15 b
  let b := writePORTB b (b.portb &&& 0xFA)
  let b := writePORTB b (b.portb ||| (((data &&& 1) <<< 2) % 256))
  writePORTB b (b.portb ||| 1)

/-- The driver state together with the tick counter of the refresh routine
and the serial link. -/
structure Machine where
  /-- Frame memory, plane references and timer flag. -/
  drv : Driver
  /-- The global `vid_tick` (a `short int`). -/
  vid_tick : Int
  /-- The port. -/
  bus : Bus

/-- The loop `for (int i = 0 ; i < 32 ; i++) { if (i%4 == 0) { vidStopWrite;
vidStartWrite; } vidWriteWord((((i >> 2)+1)<<8) + vid_buffer[curbuf+i]); }` of
`vidBlit`, with the number of remaining iterations as fuel. -/
def vidBlitLoop (buf : Nat → Nat) (curbuf : Nat) : Nat → Nat → Bus → Bus
  | 0, _, b => b
  | n + 1, i, b =>
    if i < 32 then
      let b := if i % 4 = 0 then vidStartWrite (vidStopWrite b) else b
      let b := vidWriteWord ((((i >>> 2) + 1) <<< 8) + (buf (curbuf + i) % 256)) b
      vidBlitLoop buf curbuf n (i + 1) b
    else b

/-- The plane selected by the `switch (vid_tick)` of `vidBlit`; `curbuf0` is
the indeterminate starting value of the local `curbuf`, which stays when no
case matches. -/
def curbuf (m : Machine) (curbuf0 : Nat) : Nat :=
  if m.vid_tick = 0 then m.drv.vid_blit_buffer_ref_a
  else if m.vid_tick = 1 then m.drv.vid_blit_buffer_ref_b
  else if m.vid_tick = 2 then m.drv.vid_blit_buffer_ref_c
  else if m.vid_tick = 3 then m.drv.vid_blit_buffer_ref_d
  else curbuf0

/-- Embedding of `vidBlit`. -/
def vidBlit (m : Machine) (curbuf0 : Nat) : Machine :=
  let cur := curbuf m curbuf0
  let vid_tick := Int.tmod (m.vid_tick + 1) 4
  let b := vidBlitLoop m.drv.vid_buffer cur 32 0 m.bus
  { m with vid_tick := vid_tick, bus := vidStopWrite b }

/-- Embedding of `VidMax7219::vidSetPower`. -/
def vidSetPower (m : Machine) (intensity : Nat) (pausetimer : Bool) : Machine :=
  let drv := if pausetimer then { m.drv with timer_running := false } else m.drv
  let b := vidStartWrite m.bus
  let b := vidWriteWord intensity b
  let b := vidWriteWord intensity b
  let b := vidWriteWord intensity b
  let b := vidWriteWord intensity b
  let b := vidStopWrite b
  let drv := if pausetimer then { drv with timer_running := true } else drv
  { m with drv := drv, bus := b }

/-- The value `VID_PWR_MAX`. -/
def VID_PWR_MAX : Nat := 0x0A08

/-- The loop `for (int i = 0 ; i < VID_BUFSIZE*8 ; i++) vid_buffer[i] = 0;` of
the constructor, with the number of remaining iterations as fuel. -/
def constructLoop : Nat → Nat → (Nat → Nat) → (Nat → Nat)
  | 0, _, buf => buf
  | n + 1, i, buf =>
    if i < VID_BUFSIZE * 8 then constructLoop n (i + 1) (store buf i 0) else buf

/-- Embedding of the constructor `VidMax7219::VidMax7219`, run on the frame
memory content `buf0` and the port value `portb0`; the plane references and
`vid_tick` hold their static initialisers.  `pinMode` sets the direction
register only; `digitalWrite(VID_CS, HIGH)` sets bit 1 of `PORTB`;
`MsTimer2::set` leaves the timer stopped. -/
def constructMachine (buf0 : Nat → Nat) (portb0 : Nat) : Machine :=
  let drv : Driver := { construct with vid_buffer := constructLoop (VID_BUFSIZE * 8) 0 buf0 }
  let b : Bus := { portb := portb0, log := [] }
  let b := writePORTB b (b.portb ||| 0x02)
  let drv := { drv with timer_running := false }
  let b := vidStartWrite b
  let b := vidWriteWord 0x0F00 b
  let b := vidWriteWord 0x0F00 b
  let b := vidWriteWord 0x0F00 b
  let b := vidWriteWord 0x0F00 b
  let b := vidStopWrite b
  let b := vidStartWrite b
  let b := vidWriteWord 0x0900 b
  let b := vidWriteWord 0x0900 b
  let b := vidWriteWord 0x0900 b
  let b := vidWriteWord 0x0900 b
  let b := vidStopWrite b
  let m := vidSetPower { drv := drv, vid_tick := 0, bus := b } VID_PWR_MAX false
  let b := vidStartWrite m.bus
  let b := vidWriteWord 0x0B07 b
  let b := vidWriteWord 0x0B07 b
  let b := vidWriteWord 0x0B07 b
  let b := vidWriteWord 0x0B07 b
  let b := vidStopWrite b
  { m with bus := b }

/-! ## What the chip chain sees on the link -/

/-- An edge seen by the chips: chip-select released (rising) or asserted
(falling), or a rising clock edge together with the level of the data line
that is shifted in at that edge. -/
inductive Ev where
  | csHigh : Ev
  | csLow : Ev
  | clk (din : Bool) : Ev
  deriving DecidableEq

/-- The edges made by one write that changes `PORTB` from `p` to `v`. -/
def edge (p v : Nat) : List Ev :=
  (if !p.testBit 1 && v.testBit 1 then [Ev.csHigh] else []) ++
  (if p.testBit 1 && !v.testBit 1 then [Ev.csLow] else []) ++
  (if !p.testBit 0 && v.testBit 0 then [Ev.clk (v.testBit 2)] else [])

/-- The edges made by a sequence of writes, starting from the value `p`. -/
def busEvents : Nat → List Nat → List Ev
  | _, [] => []
  | p, v :: l => edge p v ++ busEvents v l

/-- The value of `PORTB` after a sequence of writes, starting from `p`. -/
def lastPort : Nat → List Nat → Nat
  | p, [] => p
  | _, v :: l => lastPort v l

/-- Whether the data line changes only in writes that leave the clock low. -/
def dataSetup : Nat → List Nat → Bool
  | _, [] => true
  | p, v :: l => ((p.testBit 2 == v.testBit 2) || !v.testBit 0) && dataSetup v l

/-- The sixteen clock edges of a word sent most significant bit first. -/
def wordEvents (w : Nat) : List Ev :=
  (List.range 16).map (fun k => Ev.clk (w.testBit (15 - k)))

/-- The values that `f` writes to `PORTB` when it starts from the value `p`. -/
def trace (f : Bus → Bus) (p : Nat) : List Nat := (f { portb := p, log := [] }).log

/-- An operation on the port that only appends to the log, writes values that
depend on the current value of `PORTB` alone and leaves in `PORTB` the last
value it wrote. -/
def Local (f : Bus → Bus) : Prop :=
  ∀ b : Bus, (f b).log = b.log ++ trace f b.portb ∧ (f b).portb = lastPort b.portb (trace f b.portb)

/-- The writes `T`, made from the port value `p`, clock in the bits `bits` in
order and do nothing else: no chip-select edge, the data line changes only
while the clock is low, and all bits of `PORTB` other than clock and data keep
the value they have in `p`; `q` is the last value of `PORTB`. -/
def Clocked (p : Nat) (T : List Nat) (bits : List Bool) (q : Nat) : Prop :=
  busEvents p T = bits.map Ev.clk ∧ lastPort p T = q ∧ dataSetup p T = true ∧
  (∀ v ∈ T, v < 256 ∧ v &&& 0xFA = p &&& 0xFA) ∧ q < 256 ∧ q &&& 0xFA = p &&& 0xFA

/-- The three statements of `vidWriteWord` that clock in one bit `t`:
`PORTB &= B11111010; PORTB |= t << 2; PORTB |= 1;`. -/
def clockBit (t : Nat) (b : Bus) : Bus :=
  let b := writePORTB b (b.portb &&& 0xFA)
  let b := writePORTB b (b.portb ||| ((t <<< 2) % 256))
  writePORTB b (b.portb ||| 1)

/-- The writes `T`, made from the port value `p`, are seen by the chips as the
edges `evs` and leave the byte `q` in `PORTB`. -/
def Sent (p : Nat) (T : List Nat) (evs : List Ev) (q : Nat) : Prop :=
  busEvents p T = evs ∧ lastPort p T = q ∧ q < 256

/-- The body of the loop of `vidBlit` for index `i`. -/
def blitStep (buf : Nat → Nat) (cur i : Nat) (b : Bus) : Bus :=
  let b := if i % 4 = 0 then vidStartWrite (vidStopWrite b) else b
  vidWriteWord ((((i >>> 2) + 1) <<< 8) + (buf (cur + i) % 256)) b

/-- The edges of word `i` of a refresh of the plane at `cur`: before the
words 0, 4, .., 28 chip-select is released and asserted again (released only
if it is not already high, which can be the case before word 0 alone, when
`cs0` tells that chip-select is high at the start), then the 16 clock edges of
the word whose high byte is `i / 4 + 1` and whose low byte is byte `i` of the
plane. -/
def blitFrame (buf : Nat → Nat) (cur : Nat) (cs0 : Bool) (i : Nat) : List Ev :=
  (if i % 4 = 0 then (if i = 0 ∧ cs0 = true then [] else [Ev.csHigh]) ++ [Ev.csLow] else []) ++
    wordEvents ((i / 4 + 1) * 256 + buf (cur + i) % 256)

/-- A machine used in the evaluations: the constructed driver with bit 7 of
byte 0 of display plane A set, `vid_tick` 0 and the port at `0x02`
(chip-select high, clock and data low), nothing written yet. -/
def machine0 : Machine :=
  { drv := { construct with vid_buffer := store construct.vid_buffer 0 0x80 },
    vid_tick := 0, bus := { portb := 0x02, log := [] } }

/-- A burst of four equal words to the four chips:
`vidStartWrite; vidWriteWord(w); vidWriteWord(w); vidWriteWord(w);
vidWriteWord(w); vidStopWrite;`. -/
def burst (w : Nat) (b : Bus) : Bus :=
  let b := vidStartWrite b
  let b := vidWriteWord w b
  let b := vidWriteWord w b
  let b := vidWriteWord w b
  let b := vidWriteWord w b
  vidStopWrite b

/-- What the chips see of a burst of four words `w` that starts with
chip-select high: chip-select asserted, the word four times, chip-select
released. -/
def burstEvents (w : Nat) : List Ev :=
  [Ev.csLow] ++ wordEvents w ++ wordEvents w ++ wordEvents w ++ wordEvents w ++ [Ev.csHigh]

/-- The machine states reachable from construction by drawing operations,
buffer swaps, intensity changes and invocations of the refresh routine
`vidBlit`, together with the number of invocations of `vidBlit` so far. -/
inductive Runs : Nat → Machine → Prop
  | init (buf0 : Nat → Nat) (portb0 : Nat) : Runs 0 (constructMachine buf0 portb0)
  | clear {n : Nat} {m : Machine} : Runs n m → Runs n { m with drv := vidClear m.drv }
  | putPixel {n : Nat} {m : Machine} (pos_x pos_y : Int) (pixel : Nat) :
      Runs n m → Runs n { m with drv := vidPutPixel m.drv pos_x pos_y pixel }
  | drawImage {n : Nat} {m : Machine} (g : Locals) (pos_x pos_y : Int) (img_w img_h : Nat)
      (img_a img_b img_c img_d : Nat → Nat) :
      Runs n m →
      Runs n { m with drv := vidDrawImage m.drv g pos_x pos_y img_w img_h img_a img_b img_c img_d }
  | switchBuffers {n : Nat} {m : Machine} :
      Runs n m → Runs n { m with drv := vidSwitchBuffers m.drv }
  | setPower {n : Nat} {m : Machine} (intensity : Nat) (pausetimer : Bool) :
      Runs n m → Runs n (vidSetPower m intensity pausetimer)
  | blit {n : Nat} {m : Machine} (curbuf0 : Nat) : Runs n m → Runs (n + 1) (vidBlit m curbuf0)

/-- The four display plane references in the order A, B, C, D. -/
def blitPlanes (s : Driver) : List Nat :=
  [s.vid_blit_buffer_ref_a, s.vid_blit_buffer_ref_b, s.vid_blit_buffer_ref_c,
    s.vid_blit_buffer_ref_d]

/-! ## Text -/

/-- The font of `font.dat`, which is not among the sources at hand: the glyph
width `police_x`, the glyph height `police_y` and, per plane, the table of
glyph bitmaps `police_names_a..d` indexed by glyph number. -/
structure Font where
  /-- Glyph width. -/
  police_x : Nat
  /-- Glyph height. -/
  police_y : Nat
  /-- Glyph bitmaps of plane A. -/
  police_names_a : Nat → Nat → Nat
  /-- Glyph bitmaps of plane B. -/
  police_names_b : Nat → Nat → Nat
  /-- Glyph bitmaps of plane C. -/
  police_names_c : Nat → Nat → Nat
  /-- Glyph bitmaps of plane D. -/
  police_names_d : Nat → Nat → Nat

/-- The glyph number `index` that `vidPrintText` computes for a character:
`A`-`Z` give 0-25, `0`-`9` give 26-35, `!` 36, `?` 37, `-` 38, `/` 39 and any
other character 40 (space). -/
def glyphIndex (ch : Int) : Nat :=
  if ch ≥ 65 ∧ ch ≤ 90 then (ch - 65).toNat
  else if ch ≥ 48 ∧ ch ≤ 57 then ((ch - 48) + 26).toNat
  else if ch = 33 then 36
  else if ch = 63 then 37
  else if ch = 45 then 38
  else if ch = 47 then 39
  else 40

/-- The loop of `vidPrintText` over the characters that remain; the text is
the list of its characters and ends at the first 0 or at the end of the list.
`i` is the loop index, `g i` the indeterminate starting values of the locals
of the `i`-th `vidDrawImage` call.  The arithmetic on `posX` is that of
integers (no overflow). -/
def vidPrintTextLoop (font : Font) (g : Nat → Locals) (posY : Int) :
    List Int → Nat → Int → Driver → Driver
  | [], _, _, s => s
  | ch :: rest, i, posX, s =>
    if ch = 0 then s
    else
      let s := if posX ≥ -7 then
          vidDrawImage s (g i) posX posY (font.police_x % 256) (font.police_y % 256)
            (font.police_names_a (glyphIndex ch)) (font.police_names_b (glyphIndex ch))
            (font.police_names_c (glyphIndex ch)) (font.police_names_d (glyphIndex ch))
        else s
      let posX := posX + (font.police_x : Int)
      if posX > 32 then s else vidPrintTextLoop font g posY rest (i + 1) posX s

/-- Embedding of `VidMax7219::vidPrintText`. -/
def vidPrintText (font : Font) (s : Driver) (g : Nat → Locals) (text : List Int)
    (posX posY : Int) : Driver :=
  vidPrintTextLoop font g posY text 0 posX s

/-- Conversion to `int` (16 bits, two's complement). -/
def int16 (z : Int) : Int := (z + 32768) % 65536 - 32768

/-- The driver state together with the private members of the object that the
scrolling functions use. -/
structure Scroller where
  /-- Frame memory, plane references and timer flag. -/
  drv : Driver
  /-- Member `_vpr_x`: current location of the scrolling text. -/
  _vpr_x : Int
  /-- Member `_vpr_sz`: total length of the text, in pixels. -/
  _vpr_sz : Int
  /-- Member `_vpr_t`: the text that is scrolled. -/
  _vpr_t : List Int

/-- The loop `for (letters=0; text[letters] != 0 ; letters++);`. -/
def letters : List Int → Nat
  | [] => 0
  | ch :: rest => if ch = 0 then 0 else letters rest + 1

/-- Embedding of `VidMax7219::vidPrintRotateInit`. -/
def vidPrintRotateInit (sc : Scroller) (text : List Int) : Scroller :=
  { sc with _vpr_x := 32, _vpr_sz := int16 ((letters text : Int) * 8), _vpr_t := text }

/-- Embedding of `VidMax7219::vidPrintRotate`; `delay(20)` changes no state. -/
def vidPrintRotate (font : Font) (sc : Scroller) (g : Nat → Locals) : Scroller :=
  let drv := vidClear sc.drv
  let drv := vidPrintText font drv g sc._vpr_t sc._vpr_x 0
  let x := int16 (sc._vpr_x - 1)
  let drv := vidSwitchBuffers drv
  let x := if x < int16 (-(sc._vpr_sz)) then 32 else x
  { sc with drv := drv, _vpr_x := x }

/-- The state after `n` consecutive calls of `vidPrintRotate`. -/
def vidPrintRotateTimes (font : Font) (g : Nat → Locals) : Nat → Scroller → Scroller
  | 0, sc => sc
  | n + 1, sc => vidPrintRotateTimes font g n (vidPrintRotate font sc g)

/-- A font of 8x8 glyphs whose plane A bitmaps are all ones and whose other
planes are zero. -/
def fontOnes : Font :=
  { police_x := 8, police_y := 8, police_names_a := fun _ _ => 0xFF,
    police_names_b := fun _ _ => 0, police_names_c := fun _ _ => 0,
    police_names_d := fun _ _ => 0 }

/-- The scroller of the constructed driver before `vidPrintRotateInit`. -/
def scroller0 : Scroller := { drv := construct, _vpr_x := 0, _vpr_sz := 0, _vpr_t := [] }

/-! ## Power operations and sequences of calls -/

/-- Embedding of `VidMax7219::vidOn`: the shutdown register is set to normal
operation on the four chips, then `MsTimer2::start()`. -/
def vidOn (m : Machine) : Machine :=
  let b := vidStartWrite m.bus
  let b := vidWriteWord 0x0C01 b
  let b := vidWriteWord 0x0C01 b
  let b := vidWriteWord 0x0C01 b
  let b := vidWriteWord 0x0C01 b
  let b := vidStopWrite b
  { m with drv := { m.drv with timer_running := true }, bus := b }

/-- Embedding of `VidMax7219::vidOff`: `MsTimer2::stop()`, then the shutdown
register is set to shutdown on the four chips. -/
def vidOff (m : Machine) : Machine :=
  let drv := { m.drv with timer_running := false }
  let b := vidStartWrite m.bus
  let b := vidWriteWord 0x0C00 b
  let b := vidWriteWord 0x0C00 b
  let b := vidWriteWord 0x0C00 b
  let b := vidWriteWord 0x0C00 b
  let b := vidStopWrite b
  { m with drv := drv, bus := b }

/-- The whole state of the program: the machine and the private members of
the object used by the scrolling functions. -/
structure Device where
  /-- Driver state, tick counter and port. -/
  machine : Machine
  /-- Member `_vpr_x`. -/
  _vpr_x : Int
  /-- Member `_vpr_sz`. -/
  _vpr_sz : Int
  /-- Member `_vpr_t`. -/
  _vpr_t : List Int

/-- A call of a public member function, with its arguments and with the
indeterminate starting values of the uninitialised locals it uses. -/
inductive Op where
  | vidSetPower (intensity : Nat) (pausetimer : Bool) : Op
  | vidOn : Op
  | vidOff : Op
  | vidClear : Op
  | vidSwitchBuffers : Op
  | vidDrawImage (g : Locals) (pos_x pos_y : Int) (img_w img_h : Nat)
      (img_a img_b img_c img_d : Nat → Nat) : Op
  | vidPrintText (g : Nat → Locals) (text : List Int) (posX posY : Int) : Op
  | vidPrintRotateInit (text : List Int) : Op
  | vidPrintRotate (g : Nat → Locals) : Op
  | vidPutPixel (pos_x pos_y : Int) (pixel : Nat) : Op

/-- The scroller view of a device. -/
def Device.scroller (d : Device) : Scroller :=
  { drv := d.machine.drv, _vpr_x := d._vpr_x, _vpr_sz := d._vpr_sz, _vpr_t := d._vpr_t }

/-- The device whose driver state and private members are those of `sc`. -/
def Device.withScroller (d : Device) (sc : Scroller) : Device :=
  { machine := { d.machine with drv := sc.drv }, _vpr_x := sc._vpr_x, _vpr_sz := sc._vpr_sz,
    _vpr_t := sc._vpr_t }

/-- The effect of one call on the device. -/
def exec (font : Font) (op : Op) (d : Device) : Device :=
  match op with
  | Op.vidSetPower intensity pausetimer =>
    { d with machine := vidSetPower d.machine intensity pausetimer }
  | Op.vidOn => { d with machine := vidOn d.machine }
  | Op.vidOff => { d with machine := vidOff d.machine }
  | Op.vidClear => { d with machine := { d.machine with drv := vidClear d.machine.drv } }
  | Op.vidSwitchBuffers =>
    { d with machine := { d.machine with drv := vidSwitchBuffers d.machine.drv } }
  | Op.vidDrawImage g pos_x pos_y img_w img_h img_a img_b img_c img_d =>
    { d with machine := { d.machine with
        drv := vidDrawImage d.machine.drv g pos_x pos_y img_w img_h img_a img_b img_c img_d } }
  | Op.vidPrintText g text posX posY =>
    { d with machine := { d.machine with
        drv := vidPrintText font d.machine.drv g text posX posY } }
  | Op.vidPrintRotateInit text => d.withScroller (vidPrintRotateInit d.scroller text)
  | Op.vidPrintRotate g => d.withScroller (vidPrintRotate font d.scroller g)
  | Op.vidPutPixel pos_x pos_y pixel =>
    { d with machine := { d.machine with drv := vidPutPixel d.machine.drv pos_x pos_y pixel } }

/-- The effect of a sequence of calls, first call first. -/
def run (font : Font) : List Op → Device → Device
  | [], d => d
  | op :: ops, d => run font ops (exec font op d)

/-- The calls that contain no `MsTimer2::start()` and no `MsTimer2::stop()`:
`vidClear`, `vidPutPixel`, `vidDrawImage`, `vidPrintText`,
`vidPrintRotateInit` and `vidSetPower` with `pausetimer` false. -/
def Op.quiet : Op → Bool
  | Op.vidSetPower _ pausetimer => !pausetimer
  | Op.vidOn => false
  | Op.vidOff => false
  | Op.vidClear => true
  | Op.vidSwitchBuffers => false
  | Op.vidDrawImage _ _ _ _ _ _ _ _ _ => true
  | Op.vidPrintText _ _ _ _ => true
  | Op.vidPrintRotateInit _ => true
  | Op.vidPrintRotate _ => false
  | Op.vidPutPixel _ _ _ => true

/-- The calls that end with `MsTimer2::start()`: `vidOn`, `vidSwitchBuffers`,
`vidPrintRotate` (which calls `vidSwitchBuffers`) and `vidSetPower` with
`pausetimer` true. -/
def Op.starts : Op → Bool
  | Op.vidSetPower _ pausetimer => pausetimer
  | Op.vidOn => true
  | Op.vidSwitchBuffers => true
  | Op.vidPrintRotate _ => true
  | _ => false

/-- The device right after construction on a zero frame memory with the port
at 0 and the private members at 0. -/
def device0 : Device :=
  { machine := constructMachine (fun _ => 0) 0, _vpr_x := 0, _vpr_sz := 0, _vpr_t := [] }

/-! ## Program memory -/

/-- The program memory seen from the address `addr`: on the target, program
memory and data memory are separate address spaces, and
`pgm_read_byte_near(addr + off)` reads byte `addr + off` of the program memory
`flash`, whatever the data memory holds at that address. -/
def flashAt (flash : Nat → Nat) (addr : Nat) : Nat → Nat := fun off => flash (addr + off)

/-- The call `vidGetPixel(x, y, 32, 8, vid_buffer + vid_draw_buffer_ref_a,
vid_buffer + vid_draw_buffer_ref_b, vid_buffer + vid_draw_buffer_ref_c,
vid_buffer + vid_draw_buffer_ref_d)` on the target: the four pointers are the
data-memory addresses of the draw planes (`vid_buffer_addr` is the address of
the array `vid_buffer`), and `vidGetPixel` reads the program memory `flash` at
these addresses. -/
def vidGetPixelAtDrawPlanes (flash : Nat → Nat) (vid_buffer_addr : Nat) (s : Driver)
    (x y : Int) : Nat :=
  vidGetPixel x y 32 8
    (flashAt flash (vid_buffer_addr + s.vid_draw_buffer_ref_a))
    (flashAt flash (vid_buffer_addr + s.vid_draw_buffer_ref_b))
    (flashAt flash (vid_buffer_addr + s.vid_draw_buffer_ref_c))
    (flashAt flash (vid_buffer_addr + s.vid_draw_buffer_ref_d))

/-- A bitmap plane whose byte at offset `k` is `b` and whose other bytes are
0. -/
def planeByte (k b : Nat) : Nat → Nat := fun off => if off = k then b else 0
/-! ## Auxiliary lemmas -/

theorem store_apply (buf : Nat → Nat) (i v j : Nat) :
    store buf i v j = if j = i then v % 256 else buf j := rfl

theorem vidClearLoop_apply (ref : Nat) (n i : Nat) (buf : Nat → Nat) (j : Nat)
    (hn : i + n = 128) :
    vidClearLoop ref n i buf j = if ref + i ≤ j ∧ j < ref + 128 then 0 else buf j := by
  induction n generalizing i buf with
  | zero =>
    simp only [vidClearLoop]
    have : ¬ (ref + i ≤ j ∧ j < ref + 128) := by omega
    simp [this]
  | succ n ih =>
    have hi : i < 128 := by omega
    simp only [vidClearLoop, hi, if_true]
    rw [ih (i + 1) _ (by omega), store_apply]
    by_cases h1 : j = ref + i
    · have : ref + i ≤ j ∧ j < ref + 128 := by omega
      simp [h1, hi]
    · by_cases h2 : ref + i ≤ j ∧ j < ref + 128
      · have : ref + (i + 1) ≤ j ∧ j < ref + 128 := by omega
        simp [h2, this]
      · have : ¬ (ref + (i + 1) ≤ j ∧ j < ref + 128) := by omega
        simp [h1, h2, this]

theorem vidClear_buffer (s : Driver) (j : Nat) :
    (vidClear s).vid_buffer j =
      if s.vid_draw_buffer_ref_a ≤ j ∧ j < s.vid_draw_buffer_ref_a + 128 then 0
      else s.vid_buffer j := by
  have := vidClearLoop_apply s.vid_draw_buffer_ref_a 128 0 s.vid_buffer j (by omega)
  simpa [vidClear] using this

theorem roleCycle_switch (s : Driver) (h : RoleCycle s) : RoleCycle (vidSwitchBuffers s) := by
  unfold RoleCycle InitialRoles at *
  simp only [vidSwitchBuffers, VID_BUF_0a, VID_BUF_0b, VID_BUF_0c, VID_BUF_0d,
    VID_BUF_1a, VID_BUF_1b, VID_BUF_1c, VID_BUF_1d] at *
  rcases h with ⟨h1, h2, h3, h4, h5, h6, h7, h8⟩ | ⟨h1, h2, h3, h4, h5, h6, h7, h8⟩ |
    ⟨h1, h2, h3, h4, h5, h6, h7, h8⟩
  · right; left; simp [h1, h2, h3, h4, h5, h6, h7, h8]
  · right; right; simp [h1, h2, h3, h4, h5, h6, h7, h8]
  · right; left; simp [h1, h2, h3, h4, h5, h6, h7, h8]

theorem reachable_roleCycle (s : Driver) (h : Reachable s) : RoleCycle s := by
  induction h with
  | init => left; simp [InitialRoles, construct]
  | clear _ ih => exact ih
  | putPixel _ _ _ _ ih => exact ih
  | drawImage _ _ _ _ _ _ _ _ _ _ ih => exact ih
  | switchBuffers _ ih => exact roleCycle_switch _ ih


theorem img_wbyte_32 : img_wbyte 32 = 4 := by decide

theorem vidGetPixel_zero (x y : Int) (w h : Nat) (a b c d : Nat → Nat)
    (ha : a (x / 8 + y * (img_wbyte w : Int)).toNat = 0)
    (hb : b (x / 8 + y * (img_wbyte w : Int)).toNat = 0)
    (hc : c (x / 8 + y * (img_wbyte w : Int)).toNat = 0)
    (hd : d (x / 8 + y * (img_wbyte w : Int)).toNat = 0) :
    vidGetPixel x y w h a b c d = 0 := by
  simp [vidGetPixel, pgm_read_byte_near, ha, hb, hc, hd]

theorem byteOfInt_lt (z : Int) : byteOfInt z < 256 := by
  unfold byteOfInt; omega

theorem and_byte (b m : Nat) (hm : m < 256) : b &&& m = (b % 256) &&& m := by
  apply Nat.eq_of_testBit_eq
  intro i
  have h256 : (256 : Nat) = 2 ^ 8 := by norm_num
  rw [Nat.testBit_and, Nat.testBit_and, h256, Nat.testBit_mod_two_pow]
  by_cases hi : i < 8
  · simp [hi]
  · have hpow : (2 : Nat) ^ 8 ≤ 2 ^ i := Nat.pow_le_pow_right (by norm_num) (by omega)
    have hmi : m.testBit i = false := Nat.testBit_lt_two_pow (by omega)
    simp [hmi]

theorem putByte_mod (b shift t : Nat) : putByte b shift t = putByte (b % 256) shift t := by
  unfold putByte
  rw [and_byte b _ (by unfold byteOfNot; exact byteOfInt_lt _)]

set_option maxRecDepth 1000000 in
theorem putByte_read_small : ∀ sh < 8, ∀ t < 2, ∀ b < 256,
    (0x08 &&& (((putByte b sh t % 256) >>> sh) <<< 3)) = 8 * t ∧
    (0x04 &&& (((putByte b sh t % 256) >>> sh) <<< 2)) = 4 * t ∧
    (0x02 &&& (((putByte b sh t % 256) >>> sh) <<< 1)) = 2 * t ∧
    (1 &&& ((putByte b sh t % 256) >>> sh)) = t ∧
    (putByte b sh t).testBit sh = decide (t = 1) := by
  decide

theorem putByte_read (b sh t : Nat) (hsh : sh < 8) (ht : t < 2) :
    (0x08 &&& (((putByte b sh t % 256) >>> sh) <<< 3)) = 8 * t ∧
    (0x04 &&& (((putByte b sh t % 256) >>> sh) <<< 2)) = 4 * t ∧
    (0x02 &&& (((putByte b sh t % 256) >>> sh) <<< 1)) = 2 * t ∧
    (1 &&& ((putByte b sh t % 256) >>> sh)) = t ∧
    (putByte b sh t).testBit sh = decide (t = 1) := by
  rw [putByte_mod]
  exact putByte_read_small sh hsh t ht (b % 256) (Nat.mod_lt _ (by norm_num))

theorem pixel_bits_small : ∀ v < 16,
    v >>> 3 < 2 ∧ (0x04 &&& v) >>> 2 < 2 ∧ (0x02 &&& v) >>> 1 < 2 ∧ 1 &&& v < 2 ∧
    8 * (v >>> 3) + 4 * ((0x04 &&& v) >>> 2) + 2 * ((0x02 &&& v) >>> 1) + (1 &&& v) = v ∧
    decide (v >>> 3 = 1) = v.testBit 3 ∧ decide ((0x04 &&& v) >>> 2 = 1) = v.testBit 2 ∧
    decide ((0x02 &&& v) >>> 1 = 1) = v.testBit 1 ∧ decide (1 &&& v = 1) = v.testBit 0 := by
  decide

/-- The buffer left by `vidPutPixel`, read at the four cells it addresses, when
the four cells are distinct. -/
theorem vidPutPixel_cells (s : Driver) (x y : Int) (v : Nat) (ka kb kc kd : Nat)
    (ha : byteOfInt (s.vid_draw_buffer_ref_a + (y * VID_DISPLAY_W + x) / 8) = ka)
    (hb : byteOfInt (s.vid_draw_buffer_ref_b + (y * VID_DISPLAY_W + x) / 8) = kb)
    (hc : byteOfInt (s.vid_draw_buffer_ref_c + (y * VID_DISPLAY_W + x) / 8) = kc)
    (hd : byteOfInt (s.vid_draw_buffer_ref_d + (y * VID_DISPLAY_W + x) / 8) = kd)
    (hab : ka ≠ kb) (hac : ka ≠ kc) (had : ka ≠ kd) (hbc : kb ≠ kc) (hbd : kb ≠ kd)
    (hcd : kc ≠ kd) :
    (vidPutPixel s x y v).vid_buffer ka
        = putByte (s.vid_buffer ka) (byteOfInt (7 - Int.tmod x 8)) (v >>> 3) ∧
    (vidPutPixel s x y v).vid_buffer kb
        = putByte (s.vid_buffer kb) (byteOfInt (7 - Int.tmod x 8)) ((0x04 &&& v) >>> 2) ∧
    (vidPutPixel s x y v).vid_buffer kc
        = putByte (s.vid_buffer kc) (byteOfInt (7 - Int.tmod x 8)) ((0x02 &&& v) >>> 1) ∧
    (vidPutPixel s x y v).vid_buffer kd
        = putByte (s.vid_buffer kd) (byteOfInt (7 - Int.tmod x 8)) (1 &&& v) := by
  simp only [vidPutPixel, ha, hb, hc, hd, store_apply, putByte]
  simp [hab, hac, had, hbc, hbd, hcd, hab.symm, hac.symm, had.symm, hbc.symm, hbd.symm, hcd.symm]

/-! ### vidDrawImage as a bitwise transformation -/

theorem testBit_mod_256 (x t : Nat) : (x % 256).testBit t = (decide (t < 8) && x.testBit t) := by
  have h256 : (256 : Nat) = 2 ^ 8 := by norm_num
  rw [h256, Nat.testBit_mod_two_pow]

theorem testBit_of_lt_256 (x t : Nat) (hx : x < 256) (ht : 8 ≤ t) : x.testBit t = false := by
  have hpow : (2 : Nat) ^ 8 ≤ 2 ^ t := Nat.pow_le_pow_right (by norm_num) ht
  exact Nat.testBit_lt_two_pow (by omega)

theorem bitwise_id : Bitwise (fun buf => buf) :=
  ⟨fun _ _ => true, fun _ _ => false, fun buf i t => by simp⟩

theorem bitwise_comp {F G : (Nat → Nat) → (Nat → Nat)} (hF : Bitwise F) (hG : Bitwise G) :
    Bitwise (fun buf => G (F buf)) := by
  obtain ⟨k1, v1, h1⟩ := hF
  obtain ⟨k2, v2, h2⟩ := hG
  refine ⟨fun i t => k1 i t && k2 i t, fun i t => (k2 i t && v1 i t) || v2 i t, ?_⟩
  intro buf i t
  rw [h2, h1]
  dsimp only
  cases k1 i t <;> cases k2 i t <;> cases v1 i t <;> cases v2 i t <;>
    cases (buf i).testBit t <;> rfl

theorem bitwise_store_and (i m : Nat) : Bitwise (fun buf => store buf i (buf i &&& m)) := by
  refine ⟨fun j t => if j = i then (decide (t < 8) && m.testBit t) else true,
    fun _ _ => false, ?_⟩
  intro buf j t
  by_cases h : j = i
  · subst h
    simp only [store_apply, if_true, testBit_mod_256, Nat.testBit_and, Bool.or_false]
    cases decide (t < 8) <;> cases (buf j).testBit t <;> cases m.testBit t <;> rfl
  · simp [store_apply, h]

theorem bitwise_store_or (i m : Nat) : Bitwise (fun buf => store buf i (buf i ||| m)) := by
  refine ⟨fun j t => if j = i then decide (t < 8) else true,
    fun j t => if j = i then (decide (t < 8) && m.testBit t) else false, ?_⟩
  intro buf j t
  by_cases h : j = i
  · subst h
    simp only [store_apply, if_true, testBit_mod_256, Nat.testBit_or]
    cases decide (t < 8) <;> cases (buf j).testBit t <;> cases m.testBit t <;> rfl
  · simp [store_apply, h]

theorem bitwise_idem {F : (Nat → Nat) → (Nat → Nat)} (hF : Bitwise F) (buf : Nat → Nat) :
    F (F buf) = F buf := by
  obtain ⟨k, v, h⟩ := hF
  funext i
  apply Nat.eq_of_testBit_eq
  intro t
  rw [h (F buf), h buf]
  cases k i t <;> cases v i t <;> cases (buf i).testBit t <;> rfl

theorem kept_store_or (buf : Nat → Nat) (cur old j v : Nat) (h : Kept buf cur old) :
    Kept (store buf j (buf j ||| v)) cur old := by
  obtain ⟨hlt, hbits⟩ := h
  by_cases hc : cur = j
  · subst hc
    refine ⟨by simp only [store_apply, if_true]; omega, ?_⟩
    intro t ht ho
    simp only [store_apply, if_true, testBit_mod_256, Nat.testBit_or, hbits t ht ho]
    simp [ht]
  · refine ⟨by simpa [store_apply, hc] using hlt, ?_⟩
    intro t ht ho
    simpa [store_apply, hc] using hbits t ht ho

theorem kept_store_self (buf : Nat → Nat) (cur v : Nat) :
    Kept (store buf cur (buf cur ||| v)) cur (buf cur) := by
  refine ⟨by simp only [store_apply, if_true]; omega, ?_⟩
  intro t ht ho
  simp only [store_apply, if_true, testBit_mod_256, Nat.testBit_or, ho]
  simp [ht]

theorem store_kept_eq (buf : Nat → Nat) (cur old m : Nat) (h : Kept buf cur old) :
    store buf cur (buf cur ||| (old &&& m)) = buf := by
  obtain ⟨hlt, hbits⟩ := h
  funext j
  by_cases hj : j = cur
  · subst hj
    simp only [store_apply, if_true]
    apply Nat.eq_of_testBit_eq
    intro t
    rw [testBit_mod_256, Nat.testBit_or, Nat.testBit_and]
    by_cases ht : t < 8
    · cases ho : old.testBit t
      · simp [ht]
      · simp [ht, hbits t ht ho]
    · simp [ht, testBit_of_lt_256 _ t hlt (by omega)]
  · simp [store_apply, hj]

theorem low_store_same (buf : Nat → Nat) (cur v : Nat) : store buf cur v cur < 256 := by
  simp only [store_apply, if_true]; omega

theorem low_store_other (buf : Nat → Nat) (cur j v : Nat) (h : buf cur < 256) :
    store buf j v cur < 256 := by
  by_cases hc : cur = j
  · subst hc; exact low_store_same _ _ _
  · simpa [store_apply, hc] using h

theorem sub_store_or (buf : Nat → Nat) (cur old j v : Nat)
    (h : ∀ t, t < 8 → old.testBit t = true → (buf cur).testBit t = true) :
    ∀ t, t < 8 → old.testBit t = true → (store buf j (buf j ||| v) cur).testBit t = true := by
  intro t ht ho
  by_cases hc : cur = j
  · subst hc
    simp only [store_apply, if_true, testBit_mod_256, Nat.testBit_or, h t ht ho]
    simp [ht]
  · simpa [store_apply, hc] using h t ht ho

theorem colBody_saved (ra rb rc rd : Nat) (pos_x pos_y : Int) (img_w : Nat)
    (img_a img_b img_c img_d : Nat → Nat) (y x : Nat) (d : Draw) :
    Saved (colBody ra rb rc rd pos_x pos_y img_w img_a img_b img_c img_d y x d) := by
  refine ⟨⟨?_, ?_⟩, ⟨?_, ?_⟩, ⟨?_, ?_⟩, ⟨?_, ?_⟩⟩
  · exact low_store_other _ _ _ _ (low_store_other _ _ _ _ (low_store_other _ _ _ _
      (low_store_same _ _ _)))
  · exact sub_store_or _ _ _ _ _ (sub_store_or _ _ _ _ _ (sub_store_or _ _ _ _ _
      (sub_store_or _ _ _ _ _ (fun _ _ h => h))))
  · exact low_store_other _ _ _ _ (low_store_other _ _ _ _ (low_store_same _ _ _))
  · exact sub_store_or _ _ _ _ _ (sub_store_or _ _ _ _ _ (sub_store_or _ _ _ _ _
      (sub_store_or _ _ _ _ _ (fun _ _ h => h))))
  · exact low_store_other _ _ _ _ (low_store_same _ _ _)
  · exact sub_store_or _ _ _ _ _ (sub_store_or _ _ _ _ _ (sub_store_or _ _ _ _ _
      (sub_store_or _ _ _ _ _ (fun _ _ h => h))))
  · exact low_store_same _ _ _
  · exact sub_store_or _ _ _ _ _ (sub_store_or _ _ _ _ _ (sub_store_or _ _ _ _ _
      (sub_store_or _ _ _ _ _ (fun _ _ h => h))))

theorem leaveRow_buffer (pos_x : Int) (img_w x : Nat) (d : Draw) (h : Saved d) :
    (leaveRow pos_x img_w x d).vid_buffer = d.vid_buffer := by
  obtain ⟨ha, hb, hc, hd⟩ := h
  unfold leaveRow
  split
  · simp only [store_kept_eq _ _ _ _ ha, store_kept_eq _ _ _ _ hb, store_kept_eq _ _ _ _ hc,
      store_kept_eq _ _ _ _ hd]
  · rfl

theorem enterRow_bitwise (ra rb rc rd : Nat) (pos_x pos_y : Int) (y : Nat) :
    ∃ F, Bitwise F ∧ ∀ d, (enterRow ra rb rc rd pos_x pos_y y d).vid_buffer = F d.vid_buffer :=
  ⟨_, bitwise_comp (bitwise_comp (bitwise_comp (bitwise_store_and _ _) (bitwise_store_and _ _))
      (bitwise_store_and _ _)) (bitwise_store_and _ _), fun _ => rfl⟩

theorem colBody_bitwise (ra rb rc rd : Nat) (pos_x pos_y : Int) (img_w : Nat)
    (img_a img_b img_c img_d : Nat → Nat) (y x : Nat) :
    ∃ F, Bitwise F ∧ ∀ d,
      (colBody ra rb rc rd pos_x pos_y img_w img_a img_b img_c img_d y x d).vid_buffer
        = F d.vid_buffer :=
  ⟨_, bitwise_comp (bitwise_comp (bitwise_comp (bitwise_store_or _ _) (bitwise_store_or _ _))
      (bitwise_store_or _ _)) (bitwise_store_or _ _), fun _ => rfl⟩

/-- Once the saved values are contained in their cells, the rest of the column
loop followed by the exit-mask block is a bitwise transformation. -/
theorem colLoop_tail_bitwise (ra rb rc rd : Nat) (pos_x pos_y : Int) (img_w : Nat)
    (img_a img_b img_c img_d : Nat → Nat) (y : Nat) (n : Nat) :
    ∀ x, ∃ F, Bitwise F ∧ ∀ d, Saved d →
      (leaveRow pos_x img_w
        (colLoop ra rb rc rd pos_x pos_y img_w img_a img_b img_c img_d y n x d).2
        (colLoop ra rb rc rd pos_x pos_y img_w img_a img_b img_c img_d y n x d).1).vid_buffer
        = F d.vid_buffer := by
  induction n with
  | zero =>
    intro x
    exact ⟨_, bitwise_id, fun d hd => by simpa [colLoop] using leaveRow_buffer _ _ _ d hd⟩
  | succ n ih =>
    intro x
    by_cases h1 : x ≤ colBound img_w
    · by_cases h2 : pos_x + (x : Int) < 0
      · obtain ⟨F, hF, hEq⟩ := ih (x + 8)
        exact ⟨F, hF, fun d hd => by simpa [colLoop, h1, h2] using hEq d hd⟩
      · by_cases h3 : pos_x + (x : Int) ≥ VID_DISPLAY_W
        · exact ⟨_, bitwise_id, fun d hd => by
            simpa [colLoop, h1, h2, h3] using leaveRow_buffer _ _ _ d hd⟩
        · obtain ⟨F, hF, hEq⟩ := ih (x + 8)
          obtain ⟨B, hB, hBEq⟩ :=
            colBody_bitwise ra rb rc rd pos_x pos_y img_w img_a img_b img_c img_d y x
          refine ⟨_, bitwise_comp hB hF, fun d _ => ?_⟩
          have := hEq _ (colBody_saved ra rb rc rd pos_x pos_y img_w img_a img_b img_c img_d y x d)
          rw [hBEq] at this
          simpa [colLoop, h1, h2, h3] using this
    · exact ⟨_, bitwise_id, fun d hd => by
        simpa [colLoop, h1] using leaveRow_buffer _ _ _ d hd⟩

/-- When a body of the column loop is going to run, the column loop followed by
the exit-mask block is a bitwise transformation, whatever the locals hold. -/
theorem colLoop_head_bitwise (ra rb rc rd : Nat) (pos_x pos_y : Int) (img_w : Nat)
    (img_a img_b img_c img_d : Nat → Nat) (y : Nat) (n : Nat) :
    ∀ x : Nat, pos_x + (x : Int) < 32 → x % 8 = 0 → colBound img_w % 8 = 0 →
      0 ≤ pos_x + (colBound img_w : Int) → x ≤ colBound img_w → 1 ≤ n →
      (pos_x + (x : Int) < 0 → 8 ≤ (n : Int) * 8 + pos_x + (x : Int)) →
      ∃ F, Bitwise F ∧ ∀ d,
      (leaveRow pos_x img_w
        (colLoop ra rb rc rd pos_x pos_y img_w img_a img_b img_c img_d y n x d).2
        (colLoop ra rb rc rd pos_x pos_y img_w img_a img_b img_c img_d y n x d).1).vid_buffer
        = F d.vid_buffer := by
  induction n with
  | zero => intro x _ _ _ _ _ hn; omega
  | succ n ih =>
    intro x hx32 hx8 hb8 hb0 hxb _ hfuel
    by_cases h2 : pos_x + (x : Int) < 0
    · have hf := hfuel h2
      obtain ⟨F, hF, hEq⟩ := ih (x + 8) (by push_cast; omega) (by omega) hb8 hb0
        (by omega) (by omega) (by intro _; push_cast at hf ⊢; omega)
      exact ⟨F, hF, fun d => by simpa [colLoop, hxb, h2] using hEq d⟩
    · have h3 : ¬ pos_x + (x : Int) ≥ VID_DISPLAY_W := by unfold VID_DISPLAY_W; omega
      obtain ⟨F, hF, hEq⟩ :=
        colLoop_tail_bitwise ra rb rc rd pos_x pos_y img_w img_a img_b img_c img_d y n (x + 8)
      obtain ⟨B, hB, hBEq⟩ :=
        colBody_bitwise ra rb rc rd pos_x pos_y img_w img_a img_b img_c img_d y x
      refine ⟨_, bitwise_comp hB hF, fun d => ?_⟩
      have := hEq _ (colBody_saved ra rb rc rd pos_x pos_y img_w img_a img_b img_c img_d y x d)
      rw [hBEq] at this
      simpa [colLoop, hxb, h2, h3] using this

theorem colBound_mod (img_w : Nat) : colBound img_w % 8 = 0 := by
  unfold colBound
  rw [Nat.shiftLeft_eq]
  omega

theorem colBound_ge (img_w : Nat) : img_w ≤ colBound img_w := by
  unfold colBound
  rw [Nat.shiftLeft_eq]
  split <;> simp only [Nat.shiftRight_eq_div_pow] <;> omega

theorem rowBody_bitwise (ra rb rc rd : Nat) (pos_x pos_y : Int) (img_w : Nat)
    (img_a img_b img_c img_d : Nat → Nat) (y : Nat)
    (hx : pos_x < 32) (hw : 0 < pos_x + (img_w : Int)) :
    ∃ F, Bitwise F ∧ ∀ d,
      (rowBody ra rb rc rd pos_x pos_y img_w img_a img_b img_c img_d y d).vid_buffer
        = F d.vid_buffer := by
  have hb8 := colBound_mod img_w
  have hge := colBound_ge img_w
  obtain ⟨F, hF, hEq⟩ := colLoop_head_bitwise ra rb rc rd pos_x pos_y img_w img_a img_b img_c
    img_d y (colBound img_w / 8 + 2) 0 (by simpa using hx) (by omega) hb8 (by omega) (by omega)
    (by omega) (by intro _; push_cast; omega)
  by_cases h0 : pos_x ≥ 0
  · obtain ⟨E, hE, hEEq⟩ := enterRow_bitwise ra rb rc rd pos_x pos_y y
    refine ⟨_, bitwise_comp hE hF, fun d => ?_⟩
    have := hEq (enterRow ra rb rc rd pos_x pos_y y d)
    rw [hEEq] at this
    simpa [rowBody, h0] using this
  · exact ⟨F, hF, fun d => by simpa [rowBody, h0] using hEq d⟩

theorem rowLoop_bitwise (ra rb rc rd : Nat) (pos_x pos_y : Int) (img_w img_h : Nat)
    (img_a img_b img_c img_d : Nat → Nat)
    (hx : pos_x < 32) (hw : 0 < pos_x + (img_w : Int)) (n : Nat) :
    ∀ y, ∃ F, Bitwise F ∧ ∀ d,
      (rowLoop ra rb rc rd pos_x pos_y img_w img_h img_a img_b img_c img_d n y d).vid_buffer
        = F d.vid_buffer := by
  induction n with
  | zero => intro y; exact ⟨_, bitwise_id, fun d => rfl⟩
  | succ n ih =>
    intro y
    by_cases h1 : y < img_h
    · by_cases h2 : pos_y + (y : Int) ≥ VID_DISPLAY_H
      · exact ⟨_, bitwise_id, fun d => by simp [rowLoop, h1, h2]⟩
      · by_cases h3 : pos_y + (y : Int) < 0
        · obtain ⟨F, hF, hEq⟩ := ih (y + 1)
          exact ⟨F, hF, fun d => by simpa [rowLoop, h1, h2, h3] using hEq d⟩
        · obtain ⟨F, hF, hEq⟩ := ih (y + 1)
          obtain ⟨R, hR, hREq⟩ := rowBody_bitwise ra rb rc rd pos_x pos_y img_w img_a img_b
            img_c img_d y hx hw
          refine ⟨_, bitwise_comp hR hF, fun d => ?_⟩
          have := hEq (rowBody ra rb rc rd pos_x pos_y img_w img_a img_b img_c img_d y d)
          rw [hREq] at this
          simpa [rowLoop, h1, h2, h3] using this
    · exact ⟨_, bitwise_id, fun d => by simp [rowLoop, h1]⟩

/-- For a bitmap that is at least partly inside the columns of the screen,
`vidDrawImage` changes the frame memory by a bitwise transformation that does
not depend on the starting values of its uninitialised locals. -/
theorem vidDrawImage_bitwise (s : Driver) (pos_x pos_y : Int) (img_w img_h : Nat)
    (img_a img_b img_c img_d : Nat → Nat)
    (hx : pos_x < 32) (hw : 0 < pos_x + (img_w : Int)) :
    ∃ F, Bitwise F ∧ ∀ (buf : Nat → Nat) (g : Locals),
      vidDrawImage { s with vid_buffer := buf } g pos_x pos_y img_w img_h img_a img_b img_c img_d
        = { s with vid_buffer := F buf } := by
  obtain ⟨F, hF, hEq⟩ := rowLoop_bitwise s.vid_draw_buffer_ref_a s.vid_draw_buffer_ref_b
    s.vid_draw_buffer_ref_c s.vid_draw_buffer_ref_d pos_x pos_y img_w img_h img_a img_b img_c
    img_d hx hw img_h 0
  refine ⟨F, hF, fun buf g => ?_⟩
  simp only [vidDrawImage, hEq]

/-! ### vidDrawImage cell by cell, in the initial role assignment -/

theorem four_store_or (buf : Nat → Nat) (ca cb cc cd va vb vc vd i : Nat)
    (hab : ca ≠ cb) (hac : ca ≠ cc) (had : ca ≠ cd) (hbc : cb ≠ cc) (hbd : cb ≠ cd)
    (hcd : cc ≠ cd) :
    store (store (store (store buf ca (buf ca ||| va)) cb
        (store buf ca (buf ca ||| va) cb ||| vb)) cc
        (store (store buf ca (buf ca ||| va)) cb
          (store buf ca (buf ca ||| va) cb ||| vb) cc ||| vc)) cd
        (store (store (store buf ca (buf ca ||| va)) cb
          (store buf ca (buf ca ||| va) cb ||| vb)) cc
          (store (store buf ca (buf ca ||| va)) cb
            (store buf ca (buf ca ||| va) cb ||| vb) cc ||| vc) cd ||| vd) i
      = if i = ca then (buf ca ||| va) % 256 else if i = cb then (buf cb ||| vb) % 256
        else if i = cc then (buf cc ||| vc) % 256 else if i = cd then (buf cd ||| vd) % 256
        else buf i := by
  simp only [store_apply]
  by_cases h1 : i = ca
  · subst h1; simp [hab, hac, had]
  · by_cases h2 : i = cb
    · subst h2; simp [hab.symm, hbc, hbd]
    · by_cases h3 : i = cc
      · subst h3; simp [hac.symm, hbc.symm, hcd]
      · by_cases h4 : i = cd
        · subst h4; simp [had.symm, hbd.symm, hcd.symm]
        · simp [h1, h2, h3, h4]

theorem colBody_cell (pos_x pos_y : Int) (img_w : Nat) (img_a img_b img_c img_d : Nat → Nat)
    (y x : Nat) (d : Draw) (i : Nat)
    (hy0 : 0 ≤ pos_y + (y : Int)) (hy8 : pos_y + (y : Int) < 8)
    (hx0 : 0 ≤ pos_x + (x : Int)) (hx32 : pos_x + (x : Int) < 32) :
    (colBody 128 160 192 224 pos_x pos_y img_w img_a img_b img_c img_d y x d).vid_buffer i
      = if 128 ≤ i ∧ i < 256 ∧ ((i % 32 / 4 : Nat) : Int) = pos_y + (y : Int) ∧
            ((i % 4 : Nat) : Int) = (pos_x + (x : Int)) / 8 then
          (d.vid_buffer i ||| mergeValue (planeOfCell img_a img_b img_c img_d i) pos_x img_w x y)
            % 256
        else d.vid_buffer i := by
  have ea : byteOfInt (((128 : Nat) : Int) + ((pos_y + (y : Int)) * VID_DISPLAY_W + pos_x + (x : Int)) / 8)
      = 128 + (4 * (pos_y + (y : Int)).toNat + ((pos_x + (x : Int)) / 8).toNat) := by
    unfold byteOfInt VID_DISPLAY_W; omega
  have eb : byteOfInt (((160 : Nat) : Int) + ((pos_y + (y : Int)) * VID_DISPLAY_W + pos_x + (x : Int)) / 8)
      = 160 + (4 * (pos_y + (y : Int)).toNat + ((pos_x + (x : Int)) / 8).toNat) := by
    unfold byteOfInt VID_DISPLAY_W; omega
  have ec : byteOfInt (((192 : Nat) : Int) + ((pos_y + (y : Int)) * VID_DISPLAY_W + pos_x + (x : Int)) / 8)
      = 192 + (4 * (pos_y + (y : Int)).toNat + ((pos_x + (x : Int)) / 8).toNat) := by
    unfold byteOfInt VID_DISPLAY_W; omega
  have ed : byteOfInt (((224 : Nat) : Int) + ((pos_y + (y : Int)) * VID_DISPLAY_W + pos_x + (x : Int)) / 8)
      = 224 + (4 * (pos_y + (y : Int)).toNat + ((pos_x + (x : Int)) / 8).toNat) := by
    unfold byteOfInt VID_DISPLAY_W; omega
  have hk : (4 * (pos_y + (y : Int)).toNat + ((pos_x + (x : Int)) / 8).toNat) < 32 := by omega
  generalize hq : (4 * (pos_y + (y : Int)).toNat + ((pos_x + (x : Int)) / 8).toNat) = q at *
  simp only [colBody, ea, eb, ec, ed]
  rw [four_store_or _ _ _ _ _ _ _ _ _ _ (by omega) (by omega) (by omega) (by omega) (by omega)
    (by omega)]
  by_cases h1 : i = 128 + q
  · rw [if_pos h1, if_pos (by omega)]
    have : planeOfCell img_a img_b img_c img_d i = img_a := by
      unfold planeOfCell; rw [if_pos (by omega)]
    rw [this, h1]
  · rw [if_neg h1]
    by_cases h2 : i = 160 + q
    · rw [if_pos h2, if_pos (by omega)]
      have : planeOfCell img_a img_b img_c img_d i = img_b := by
        unfold planeOfCell; rw [if_neg (by omega), if_pos (by omega)]
      rw [this, h2]
    · rw [if_neg h2]
      by_cases h3 : i = 192 + q
      · rw [if_pos h3, if_pos (by omega)]
        have : planeOfCell img_a img_b img_c img_d i = img_c := by
          unfold planeOfCell; rw [if_neg (by omega), if_neg (by omega), if_pos (by omega)]
        rw [this, h3]
      · rw [if_neg h3]
        by_cases h4 : i = 224 + q
        · rw [if_pos h4, if_pos (by omega)]
          have : planeOfCell img_a img_b img_c img_d i = img_d := by
            unfold planeOfCell; rw [if_neg (by omega), if_neg (by omega), if_neg (by omega)]
          rw [this, h4]
        · rw [if_neg h4, if_neg (by omega)]
theorem colLoop_cell (pos_x pos_y : Int) (img_w : Nat) (img_a img_b img_c img_d : Nat → Nat)
    (y : Nat) (hy0 : 0 ≤ pos_y + (y : Int)) (hy8 : pos_y + (y : Int) < 8) (hx0 : 0 ≤ pos_x)
    (n : Nat) :
    ∀ (x : Nat) (d : Draw) (i : Nat), x % 8 = 0 → colBound img_w < n * 8 + x →
      (colLoop 128 160 192 224 pos_x pos_y img_w img_a img_b img_c img_d y n x d).1.vid_buffer i
        = if 128 ≤ i ∧ i < 256 ∧ ((i % 32 / 4 : Nat) : Int) = pos_y + (y : Int) ∧
              (pos_x / 8).toNat + x / 8 ≤ i % 4 ∧
              i % 4 ≤ (pos_x / 8).toNat + colBound img_w / 8 then
            (d.vid_buffer i ||| mergeValue (planeOfCell img_a img_b img_c img_d i) pos_x img_w
              (8 * (i % 4 - (pos_x / 8).toNat)) y) % 256
          else d.vid_buffer i := by
  have hb8 := colBound_mod img_w
  induction n with
  | zero =>
    intro x d i hx8 hfuel
    rw [if_neg (by omega)]
    rfl
  | succ n ih =>
    intro x d i hx8 hfuel
    by_cases h1 : x ≤ colBound img_w
    · have h2 : ¬ pos_x + (x : Int) < 0 := by omega
      by_cases h3 : pos_x + (x : Int) ≥ VID_DISPLAY_W
      · have h3' : pos_x + (x : Int) ≥ 32 := h3
        rw [if_neg (by omega)]
        simp [colLoop, h1, h2, h3]
      · have h3' : pos_x + (x : Int) < 32 := by unfold VID_DISPLAY_W at h3; omega
        have hstep : colLoop 128 160 192 224 pos_x pos_y img_w img_a img_b img_c img_d y (n + 1) x d
            = colLoop 128 160 192 224 pos_x pos_y img_w img_a img_b img_c img_d y n (x + 8)
                (colBody 128 160 192 224 pos_x pos_y img_w img_a img_b img_c img_d y x d) := by
          simp [colLoop, h1, h2, h3]
        rw [hstep, ih (x + 8) _ i (by omega) (by omega),
          colBody_cell pos_x pos_y img_w img_a img_b img_c img_d y x d i hy0 hy8 (by omega) h3']
        by_cases hc2 : 128 ≤ i ∧ i < 256 ∧ ((i % 32 / 4 : Nat) : Int) = pos_y + (y : Int) ∧
            ((i % 4 : Nat) : Int) = (pos_x + (x : Int)) / 8
        · have hxe : 8 * (i % 4 - (pos_x / 8).toNat) = x := by omega
          rw [if_neg (by omega), if_pos hc2, if_pos (by omega), hxe]
        · rw [if_neg hc2]
          by_cases hc1 : 128 ≤ i ∧ i < 256 ∧ ((i % 32 / 4 : Nat) : Int) = pos_y + (y : Int) ∧
              (pos_x / 8).toNat + (x + 8) / 8 ≤ i % 4 ∧
              i % 4 ≤ (pos_x / 8).toNat + colBound img_w / 8
          · rw [if_pos hc1, if_pos (by omega)]
          · rw [if_neg hc1, if_neg (by omega)]
    · rw [if_neg (by omega)]
      simp [colLoop, h1]
theorem four_store_and (buf : Nat → Nat) (ca cb cc cd m i : Nat)
    (hab : ca ≠ cb) (hac : ca ≠ cc) (had : ca ≠ cd) (hbc : cb ≠ cc) (hbd : cb ≠ cd)
    (hcd : cc ≠ cd) :
    store (store (store (store buf ca (buf ca &&& m)) cb
        (store buf ca (buf ca &&& m) cb &&& m)) cc
        (store (store buf ca (buf ca &&& m)) cb
          (store buf ca (buf ca &&& m) cb &&& m) cc &&& m)) cd
        (store (store (store buf ca (buf ca &&& m)) cb
          (store buf ca (buf ca &&& m) cb &&& m)) cc
          (store (store buf ca (buf ca &&& m)) cb
            (store buf ca (buf ca &&& m) cb &&& m) cc &&& m) cd &&& m) i
      = if i = ca ∨ i = cb ∨ i = cc ∨ i = cd then (buf i &&& m) % 256 else buf i := by
  simp only [store_apply]
  by_cases h1 : i = ca
  · subst h1; simp [hab, hac, had]
  · by_cases h2 : i = cb
    · subst h2; simp [hab.symm, hbc, hbd]
    · by_cases h3 : i = cc
      · subst h3; simp [hac.symm, hbc.symm, hcd]
      · by_cases h4 : i = cd
        · subst h4; simp [had.symm, hbd.symm, hcd.symm]
        · simp [h1, h2, h3, h4]

theorem enterRow_cell (pos_x pos_y : Int) (y : Nat) (d : Draw) (i : Nat)
    (hy0 : 0 ≤ pos_y + (y : Int)) (hy8 : pos_y + (y : Int) < 8)
    (hx0 : 0 ≤ pos_x) (hx32 : pos_x < 32) :
    (enterRow 128 160 192 224 pos_x pos_y y d).vid_buffer i
      = if 128 ≤ i ∧ i < 256 ∧ ((i % 32 / 4 : Nat) : Int) = pos_y + (y : Int) ∧
            i % 4 = (pos_x / 8).toNat then
          (d.vid_buffer i &&& shift_enter_mask pos_x) % 256
        else d.vid_buffer i := by
  have ea : byteOfInt (((128 : Nat) : Int) + ((pos_y + (y : Int)) * VID_DISPLAY_W + pos_x) / 8)
      = 128 + (4 * (pos_y + (y : Int)).toNat + (pos_x / 8).toNat) := by
    unfold byteOfInt VID_DISPLAY_W; omega
  have eb : byteOfInt (((160 : Nat) : Int) + ((pos_y + (y : Int)) * VID_DISPLAY_W + pos_x) / 8)
      = 160 + (4 * (pos_y + (y : Int)).toNat + (pos_x / 8).toNat) := by
    unfold byteOfInt VID_DISPLAY_W; omega
  have ec : byteOfInt (((192 : Nat) : Int) + ((pos_y + (y : Int)) * VID_DISPLAY_W + pos_x) / 8)
      = 192 + (4 * (pos_y + (y : Int)).toNat + (pos_x / 8).toNat) := by
    unfold byteOfInt VID_DISPLAY_W; omega
  have ed : byteOfInt (((224 : Nat) : Int) + ((pos_y + (y : Int)) * VID_DISPLAY_W + pos_x) / 8)
      = 224 + (4 * (pos_y + (y : Int)).toNat + (pos_x / 8).toNat) := by
    unfold byteOfInt VID_DISPLAY_W; omega
  have hk : (pos_x / 8).toNat < 4 := by omega
  have hr : (pos_y + (y : Int)).toNat < 8 := by omega
  have hrow : ((i % 32 / 4 : Nat) : Int) = pos_y + (y : Int) ↔
      i % 32 / 4 = (pos_y + (y : Int)).toNat := by omega
  generalize (pos_x / 8).toNat = k at *
  generalize (pos_y + (y : Int)).toNat = r at *
  simp only [enterRow, ea, eb, ec, ed]
  rw [four_store_and _ _ _ _ _ _ _ (by omega) (by omega) (by omega) (by omega) (by omega)
    (by omega)]
  by_cases h : i = 128 + (4 * r + k) ∨ i = 160 + (4 * r + k) ∨ i = 192 + (4 * r + k) ∨
      i = 224 + (4 * r + k)
  · rw [if_pos h, if_pos (by omega)]
  · rw [if_neg h, if_neg (by omega)]

theorem colLoop_saved (ra rb rc rd : Nat) (pos_x pos_y : Int) (img_w : Nat)
    (img_a img_b img_c img_d : Nat → Nat) (y : Nat) (n : Nat) :
    ∀ (x : Nat) (d : Draw), Saved d →
      Saved (colLoop ra rb rc rd pos_x pos_y img_w img_a img_b img_c img_d y n x d).1 := by
  induction n with
  | zero => intro x d hd; exact hd
  | succ n ih =>
    intro x d hd
    by_cases h1 : x ≤ colBound img_w
    · by_cases h2 : pos_x + (x : Int) < 0
      · simpa [colLoop, h1, h2] using ih (x + 8) d hd
      · by_cases h3 : pos_x + (x : Int) ≥ VID_DISPLAY_W
        · simpa [colLoop, h1, h2, h3] using hd
        · simpa [colLoop, h1, h2, h3] using ih (x + 8) _ (colBody_saved ra rb rc rd pos_x pos_y
            img_w img_a img_b img_c img_d y x d)
    · simpa [colLoop, h1] using hd
theorem rowBody_cell (pos_x pos_y : Int) (img_w : Nat) (img_a img_b img_c img_d : Nat → Nat)
    (y : Nat) (d : Draw) (i : Nat)
    (hy0 : 0 ≤ pos_y + (y : Int)) (hy8 : pos_y + (y : Int) < 8)
    (hx0 : 0 ≤ pos_x) (hx32 : pos_x < 32) :
    (rowBody 128 160 192 224 pos_x pos_y img_w img_a img_b img_c img_d y d).vid_buffer i
      = cellAfterRow img_a img_b img_c img_d pos_x pos_y img_w y i (d.vid_buffer i) := by
  have hb8 := colBound_mod img_w
  have hx0' : pos_x ≥ 0 := hx0
  have hfirst : colLoop 128 160 192 224 pos_x pos_y img_w img_a img_b img_c img_d y
        (colBound img_w / 8 + 2) 0 (enterRow 128 160 192 224 pos_x pos_y y d)
      = colLoop 128 160 192 224 pos_x pos_y img_w img_a img_b img_c img_d y
          (colBound img_w / 8 + 1) (0 + 8)
          (colBody 128 160 192 224 pos_x pos_y img_w img_a img_b img_c img_d y 0
            (enterRow 128 160 192 224 pos_x pos_y y d)) := by
    have h2 : ¬ pos_x + ((0 : Nat) : Int) < 0 := by omega
    have h3 : ¬ pos_x + ((0 : Nat) : Int) ≥ VID_DISPLAY_W := by unfold VID_DISPLAY_W; omega
    rw [show colBound img_w / 8 + 2 = (colBound img_w / 8 + 1) + 1 from rfl]
    simp only [colLoop, Nat.zero_le, if_true, h2, h3, if_false]
  have hsaved : Saved (colLoop 128 160 192 224 pos_x pos_y img_w img_a img_b img_c img_d y
        (colBound img_w / 8 + 2) 0 (enterRow 128 160 192 224 pos_x pos_y y d)).1 := by
    rw [hfirst]
    exact colLoop_saved _ _ _ _ _ _ _ _ _ _ _ _ _ _ _ (colBody_saved _ _ _ _ _ _ _ _ _ _ _ _ _ _)
  have hbody : rowBody 128 160 192 224 pos_x pos_y img_w img_a img_b img_c img_d y d
      = leaveRow pos_x img_w
          (colLoop 128 160 192 224 pos_x pos_y img_w img_a img_b img_c img_d y
            (colBound img_w / 8 + 2) 0 (enterRow 128 160 192 224 pos_x pos_y y d)).2
          (colLoop 128 160 192 224 pos_x pos_y img_w img_a img_b img_c img_d y
            (colBound img_w / 8 + 2) 0 (enterRow 128 160 192 224 pos_x pos_y y d)).1 := by
    simp only [rowBody, hx0', if_true]
  rw [hbody, leaveRow_buffer _ _ _ _ hsaved,
    colLoop_cell pos_x pos_y img_w img_a img_b img_c img_d y hy0 hy8 hx0 _ 0 _ i (by omega)
      (by omega),
    enterRow_cell pos_x pos_y y d i hy0 hy8 hx0 hx32]
  unfold cellAfterRow
  by_cases hc : 128 ≤ i ∧ i < 256 ∧ ((i % 32 / 4 : Nat) : Int) = pos_y + (y : Int) ∧
      (pos_x / 8).toNat ≤ i % 4 ∧ i % 4 ≤ (pos_x / 8).toNat + colBound img_w / 8
  · rw [if_pos (by omega), if_pos hc]
    by_cases hk : i % 4 = (pos_x / 8).toNat
    · rw [if_pos (by omega), if_pos hk]
    · rw [if_neg (by omega), if_neg hk]
  · rw [if_neg (by omega), if_neg hc, if_neg (by omega)]

theorem cellAfterRow_other_row (img_a img_b img_c img_d : Nat → Nat) (pos_x pos_y : Int)
    (img_w y i old : Nat) (h : ((i % 32 / 4 : Nat) : Int) ≠ pos_y + (y : Int)) :
    cellAfterRow img_a img_b img_c img_d pos_x pos_y img_w y i old = old := by
  unfold cellAfterRow
  rw [if_neg (by omega)]

theorem rowLoop_cell (pos_x pos_y : Int) (img_w img_h : Nat)
    (img_a img_b img_c img_d : Nat → Nat) (hx0 : 0 ≤ pos_x) (hx32 : pos_x < 32) (n : Nat) :
    ∀ (y : Nat) (d : Draw) (i : Nat), y + n = img_h →
      (rowLoop 128 160 192 224 pos_x pos_y img_w img_h img_a img_b img_c img_d n y d).vid_buffer i
        = if (y : Int) ≤ ((i % 32 / 4 : Nat) : Int) - pos_y ∧
              ((i % 32 / 4 : Nat) : Int) - pos_y < (img_h : Int) then
            cellAfterRow img_a img_b img_c img_d pos_x pos_y img_w
              (((i % 32 / 4 : Nat) : Int) - pos_y).toNat i (d.vid_buffer i)
          else d.vid_buffer i := by
  induction n with
  | zero =>
    intro y d i hn
    rw [if_neg (by omega)]
    rfl
  | succ n ih =>
    intro y d i hn
    have h1 : y < img_h := by omega
    by_cases h2 : pos_y + (y : Int) ≥ VID_DISPLAY_H
    · have h2' : pos_y + (y : Int) ≥ 8 := h2
      rw [if_neg (by omega)]
      simp [rowLoop, h1, h2]
    · have h2' : pos_y + (y : Int) < 8 := by unfold VID_DISPLAY_H at h2; omega
      by_cases h3 : pos_y + (y : Int) < 0
      · have hstep : rowLoop 128 160 192 224 pos_x pos_y img_w img_h img_a img_b img_c img_d
              (n + 1) y d
            = rowLoop 128 160 192 224 pos_x pos_y img_w img_h img_a img_b img_c img_d n (y + 1)
                d := by
          simp [rowLoop, h1, h2, h3]
        rw [hstep, ih (y + 1) d i (by omega)]
        by_cases hc : ((y + 1 : Nat) : Int) ≤ ((i % 32 / 4 : Nat) : Int) - pos_y ∧
            ((i % 32 / 4 : Nat) : Int) - pos_y < (img_h : Int)
        · rw [if_pos hc, if_pos (by omega)]
        · rw [if_neg hc, if_neg (by omega)]
      · have hstep : rowLoop 128 160 192 224 pos_x pos_y img_w img_h img_a img_b img_c img_d
              (n + 1) y d
            = rowLoop 128 160 192 224 pos_x pos_y img_w img_h img_a img_b img_c img_d n (y + 1)
                (rowBody 128 160 192 224 pos_x pos_y img_w img_a img_b img_c img_d y d) := by
          simp [rowLoop, h1, h2, h3]
        rw [hstep, ih (y + 1) _ i (by omega),
          rowBody_cell pos_x pos_y img_w img_a img_b img_c img_d y d i (by omega) h2' hx0 hx32]
        by_cases hrow : ((i % 32 / 4 : Nat) : Int) = pos_y + (y : Int)
        · have hy : (((i % 32 / 4 : Nat) : Int) - pos_y).toNat = y := by omega
          rw [if_neg (by omega), if_pos (by omega), hy]
        · rw [cellAfterRow_other_row _ _ _ _ _ _ _ _ _ _ hrow]
          by_cases hc : ((y + 1 : Nat) : Int) ≤ ((i % 32 / 4 : Nat) : Int) - pos_y ∧
              ((i % 32 / 4 : Nat) : Int) - pos_y < (img_h : Int)
          · rw [if_pos hc, if_pos (by omega)]
          · rw [if_neg hc, if_neg (by omega)]

/-- The frame memory after `vidDrawImage` at `0 ≤ pos_x < 32` in the initial
role assignment, cell by cell. -/
theorem vidDrawImage_cell (s : Driver) (hs : InitialRoles s) (g : Locals) (pos_x pos_y : Int)
    (img_w img_h : Nat) (img_a img_b img_c img_d : Nat → Nat)
    (hx0 : 0 ≤ pos_x) (hx32 : pos_x < 32) (i : Nat) :
    (vidDrawImage s g pos_x pos_y img_w img_h img_a img_b img_c img_d).vid_buffer i
      = if 0 ≤ ((i % 32 / 4 : Nat) : Int) - pos_y ∧
            ((i % 32 / 4 : Nat) : Int) - pos_y < (img_h : Int) then
          cellAfterRow img_a img_b img_c img_d pos_x pos_y img_w
            (((i % 32 / 4 : Nat) : Int) - pos_y).toNat i (s.vid_buffer i)
        else s.vid_buffer i := by
  obtain ⟨-, -, -, -, ra, rb, rc, rd⟩ := hs
  simp only [VID_BUF_1a, VID_BUF_1b, VID_BUF_1c, VID_BUF_1d] at ra rb rc rd
  simp only [vidDrawImage, ra, rb, rc, rd]
  rw [rowLoop_cell pos_x pos_y img_w img_h img_a img_b img_c img_d hx0 hx32 img_h 0 _ i
    (by omega)]
  simp

theorem shift_x_nonneg (pos_x : Int) (h : 0 ≤ pos_x) : shift_x pos_x = (pos_x % 8).toNat := by
  unfold shift_x byteOfInt
  rw [if_pos (by omega), Int.tmod_eq_emod h (by norm_num)]
  omega

theorem shift_enter_mask_testBit (pos_x : Int) (t : Nat) (ht : t < 8) :
    (shift_enter_mask pos_x).testBit t = decide (8 - shift_x pos_x ≤ t) := by
  unfold shift_enter_mask
  rw [testBit_mod_256, Nat.testBit_shiftLeft]
  have h255 : (0xFF : Nat) = 2 ^ 8 - 1 := by norm_num
  rw [h255, Nat.testBit_two_pow_sub_one]
  by_cases h : 8 - shift_x pos_x ≤ t
  · have : t - (8 - shift_x pos_x) < 8 := by omega
    simp [ht, h, this]
  · simp [ht, h]

theorem merge_testBit (b1 b0 s t : Nat) (hs : s ≤ 8) (hb1 : b1 < 256) :
    ((b1 >>> s) + (b0 <<< (8 - s))).testBit t
      = if t < 8 - s then b1.testBit (s + t) else b0.testBit (t - (8 - s)) := by
  have hlt : b1 >>> s < 2 ^ (8 - s) := by
    rw [Nat.shiftRight_eq_div_pow, Nat.div_lt_iff_lt_mul (Nat.two_pow_pos s), ← Nat.pow_add,
      Nat.sub_add_cancel hs]
    norm_num
    exact hb1
  rw [Nat.shiftLeft_eq, Nat.add_comm, Nat.mul_comm, Nat.testBit_mul_pow_two_add _ hlt,
    Nat.testBit_shiftRight]

theorem pgm_read_lt (img : Nat → Nat) (off : Nat) : pgm_read_byte_near img off < 256 := by
  unfold pgm_read_byte_near; omega

/-- Bit `7 - b` of the value merged into byte column `j` of the bitmap's
destination, in terms of bitmap pixels; `s` is the shift. -/
theorem mergeValue_pixel (img : Nat → Nat) (pos_x : Int) (img_w j y b : Nat)
    (hx : 0 ≤ pos_x) (hb : b < 8) :
    (mergeValue img pos_x img_w (8 * j) y).testBit (7 - b)
      = if (pos_x % 8).toNat ≤ b then
          (decide (8 * j < img_w) && bitmapPixel img img_w (8 * j + b - (pos_x % 8).toNat) y)
        else
          (decide (j ≠ 0) && bitmapPixel img img_w (8 * j + b - (pos_x % 8).toNat) y) := by
  have hs8 : (pos_x % 8).toNat < 8 := by omega
  unfold mergeValue bitmapPixel
  rw [shift_x_nonneg pos_x hx]
  generalize (pos_x % 8).toNat = s at *
  have e1 : (8 * j) >>> 3 = j := by rw [Nat.shiftRight_eq_div_pow]; omega
  have e0 : (8 * j - 8) >>> 3 = j - 1 := by rw [Nat.shiftRight_eq_div_pow]; omega
  rw [e1, e0]
  by_cases hsb : s ≤ b
  · rw [if_pos hsb]
    have eu : (8 * j + b - s) / 8 = j := by omega
    have et : 7 - (8 * j + b - s) % 8 = s + (7 - b) := by omega
    rw [eu, et]
    by_cases hw : 8 * j < img_w
    · rw [if_pos hw]
      by_cases hj : 8 * j = 0
      · rw [if_pos hj, Nat.add_zero, Nat.testBit_shiftRight]
        simp [hw]
      · rw [if_neg hj, merge_testBit _ _ _ _ (by omega) (pgm_read_lt _ _), if_pos (by omega)]
        simp [hw]
    · rw [if_neg hw]
      by_cases hj : 8 * j = 0
      · rw [if_pos hj]; simp [hw]
      · rw [if_neg hj, Nat.zero_add, Nat.testBit_shiftLeft]
        have : ¬ (7 - b ≥ 8 - s) := by omega
        simp [hw, this]
  · rw [if_neg hsb]
    by_cases hj : 8 * j = 0
    · have hj0 : j = 0 := by omega
      rw [if_pos hj]
      by_cases hw : 8 * j < img_w
      · rw [if_pos hw, Nat.add_zero, Nat.testBit_shiftRight]
        have : (pgm_read_byte_near img (j + y * img_wbyte img_w)).testBit (s + (7 - b)) = false :=
          testBit_of_lt_256 _ _ (pgm_read_lt _ _) (by omega)
        simp only [hj0, Nat.zero_add] at this
        simp [hj0, this]
      · rw [if_neg hw]; simp [hj0]
    · rw [if_neg hj]
      have hj0 : j ≠ 0 := by omega
      have eu : (8 * j + b - s) / 8 = j - 1 := by omega
      have et : 7 - (8 * j + b - s) % 8 = 7 - b - (8 - s) := by omega
      rw [eu, et]
      by_cases hw : 8 * j < img_w
      · rw [if_pos hw, merge_testBit _ _ _ _ (by omega) (pgm_read_lt _ _), if_neg (by omega)]
        simp [hj0]
      · rw [if_neg hw, Nat.zero_add, Nat.testBit_shiftLeft]
        have : 7 - b ≥ 8 - s := by omega
        simp [hj0, this]
theorem planeOfCell_eq (img_a img_b img_c img_d : Nat → Nat) (ref : Nat) (img : Nat → Nat)
    (q : Nat) (hq : q < 32)
    (hp : (ref = 128 ∧ img = img_a) ∨ (ref = 160 ∧ img = img_b) ∨ (ref = 192 ∧ img = img_c) ∨
      (ref = 224 ∧ img = img_d)) :
    planeOfCell img_a img_b img_c img_d (ref + q) = img := by
  unfold planeOfCell
  rcases hp with ⟨h1, h2⟩ | ⟨h1, h2⟩ | ⟨h1, h2⟩ | ⟨h1, h2⟩
  · rw [if_pos (by omega), h2]
  · rw [if_neg (by omega), if_pos (by omega), h2]
  · rw [if_neg (by omega), if_neg (by omega), if_pos (by omega), h2]
  · rw [if_neg (by omega), if_neg (by omega), if_neg (by omega), h2]

/-- The frame memory after `vidDrawImage` at `0 ≤ pos_x < 32` in the initial
role assignment, pixel by pixel: in the screen rows covered by the bitmap the
old pixel survives except in the columns from `pos_x` to the end of that byte
(entry mask), and the bitmap pixel is OR-ed in. -/
theorem vidDrawImage_pixel (s : Driver) (hs : InitialRoles s) (g : Locals) (pos_x pos_y : Int)
    (img_w img_h : Nat) (img_a img_b img_c img_d : Nat → Nat)
    (hx0 : 0 ≤ pos_x) (hx32 : pos_x < 32) (ref : Nat) (img : Nat → Nat)
    (hp : (ref = 128 ∧ img = img_a) ∨ (ref = 160 ∧ img = img_b) ∨ (ref = 192 ∧ img = img_c) ∨
      (ref = 224 ∧ img = img_d))
    (c r : Nat) (hc : c < 32) (hr : r < 8) :
    bufferPixel (vidDrawImage s g pos_x pos_y img_w img_h img_a img_b img_c img_d).vid_buffer
        ref c r
      = if pos_y ≤ (r : Int) ∧ (r : Int) - pos_y < (img_h : Int) then
          ((bufferPixel s.vid_buffer ref c r &&
              !decide (pos_x ≤ (c : Int) ∧ (c : Int) < 8 * (pos_x / 8) + 8)) ||
            (decide (pos_x ≤ (c : Int) ∧ (c : Int) / 8 ≤ pos_x / 8 + (colBound img_w / 8 : Nat) ∧
                (pos_x % 8 ≤ (c : Int) % 8 → 8 * ((c : Int) / 8 - pos_x / 8) < (img_w : Int))) &&
              bitmapPixel img img_w ((c : Int) - pos_x).toNat ((r : Int) - pos_y).toNat))
        else bufferPixel s.vid_buffer ref c r := by
  have href : ref % 32 = 0 ∧ 128 ≤ ref ∧ ref ≤ 224 := by
    rcases hp with ⟨h1, -⟩ | ⟨h1, -⟩ | ⟨h1, -⟩ | ⟨h1, -⟩ <;> omega
  have hq : (r * 32 + c) / 8 < 32 := by omega
  have hrow : (ref + (r * 32 + c) / 8) % 32 / 4 = r := by omega
  have hcol : (ref + (r * 32 + c) / 8) % 4 = c / 8 := by omega
  unfold bufferPixel
  rw [vidDrawImage_cell s hs g pos_x pos_y img_w img_h img_a img_b img_c img_d hx0 hx32, hrow]
  by_cases hvis : pos_y ≤ (r : Int) ∧ (r : Int) - pos_y < (img_h : Int)
  · rw [if_pos (by omega), if_pos hvis]
    unfold cellAfterRow
    rw [hrow, hcol, planeOfCell_eq img_a img_b img_c img_d ref img _ hq hp]
    by_cases hhit : (pos_x / 8).toNat ≤ c / 8 ∧ c / 8 ≤ (pos_x / 8).toNat + colBound img_w / 8
    · rw [if_pos (by omega), testBit_mod_256, Nat.testBit_or,
        mergeValue_pixel img pos_x img_w _ _ (c % 8) hx0 (by omega)]
      have h7 : 7 - c % 8 < 8 := by omega
      rw [decide_eq_true h7, Bool.true_and]
      have hmask : ∀ old : Nat,
          (if c / 8 = (pos_x / 8).toNat then (old &&& shift_enter_mask pos_x) % 256
            else old).testBit (7 - c % 8)
            = (old.testBit (7 - c % 8) &&
                !decide (pos_x ≤ (c : Int) ∧ (c : Int) < 8 * (pos_x / 8) + 8)) := by
        intro old
        by_cases hk : c / 8 = (pos_x / 8).toNat
        · rw [if_pos hk, testBit_mod_256, Nat.testBit_and,
            shift_enter_mask_testBit pos_x _ h7, shift_x_nonneg pos_x hx0]
          by_cases hsb : (pos_x % 8).toNat ≤ c % 8
          · rw [decide_eq_false (by omega : ¬ (8 - (pos_x % 8).toNat ≤ 7 - c % 8)),
              decide_eq_true (by omega :
                pos_x ≤ (c : Int) ∧ (c : Int) < 8 * (pos_x / 8) + 8)]
            simp [h7]
          · rw [decide_eq_true (by omega : 8 - (pos_x % 8).toNat ≤ 7 - c % 8),
              decide_eq_false (by omega :
                ¬ (pos_x ≤ (c : Int) ∧ (c : Int) < 8 * (pos_x / 8) + 8))]
            simp [h7]
        · rw [if_neg hk, decide_eq_false (by omega :
                ¬ (pos_x ≤ (c : Int) ∧ (c : Int) < 8 * (pos_x / 8) + 8))]
          simp
      rw [hmask]
      congr 1
      by_cases hsb : (pos_x % 8).toNat ≤ c % 8
      · rw [if_pos hsb]
        have eu : 8 * (c / 8 - (pos_x / 8).toNat) + c % 8 - (pos_x % 8).toNat
            = ((c : Int) - pos_x).toNat := by omega
        rw [eu]
        congr 1
        rw [decide_eq_decide]
        omega
      · rw [if_neg hsb]
        by_cases hk : c / 8 = (pos_x / 8).toNat
        · rw [decide_eq_false (by omega : ¬ (c / 8 - (pos_x / 8).toNat ≠ 0)),
            decide_eq_false (by omega : ¬ (pos_x ≤ (c : Int) ∧
              (c : Int) / 8 ≤ pos_x / 8 + (colBound img_w / 8 : Nat) ∧
              (pos_x % 8 ≤ (c : Int) % 8 →
                8 * ((c : Int) / 8 - pos_x / 8) < (img_w : Int))))]
          simp
        · have eu : 8 * (c / 8 - (pos_x / 8).toNat) + c % 8 - (pos_x % 8).toNat
              = ((c : Int) - pos_x).toNat := by omega
          rw [eu]
          congr 1
          rw [decide_eq_decide]
          omega
    · rw [if_neg (by omega)]
      have e1 : decide (pos_x ≤ (c : Int) ∧ (c : Int) < 8 * (pos_x / 8) + 8) = false := by
        rw [decide_eq_false_iff_not]; omega
      have e2 : decide (pos_x ≤ (c : Int) ∧
          (c : Int) / 8 ≤ pos_x / 8 + (colBound img_w / 8 : Nat) ∧
          (pos_x % 8 ≤ (c : Int) % 8 → 8 * ((c : Int) / 8 - pos_x / 8) < (img_w : Int)))
          = false := by
        rw [decide_eq_false_iff_not]; omega
      rw [e1, e2]
      simp
  · rw [if_neg (by omega), if_neg hvis]
theorem colBound_div (img_w : Nat) : colBound img_w / 8 = (img_w + 7) / 8 := by
  unfold colBound
  simp only [Nat.shiftRight_eq_div_pow, Nat.shiftLeft_eq]
  split <;> omega

theorem img_wbyte_eq (img_w : Nat) (h : img_w < 256) : img_wbyte img_w = (img_w + 7) / 8 := by
  unfold img_wbyte
  simp only [Nat.shiftRight_eq_div_pow]
  split <;> omega

/-- On a zero draw buffer, a draw-plane pixel after `vidDrawImage` at
`0 ≤ pos_x < 32` is the translated bitmap pixel inside the bitmap rectangle
and dark outside it. -/
theorem vidDrawImage_pixel_zero (s : Driver) (hs : InitialRoles s) (g : Locals)
    (pos_x pos_y : Int) (img_w img_h : Nat) (img_a img_b img_c img_d : Nat → Nat)
    (hz : ∀ i, 128 ≤ i → i < 256 → s.vid_buffer i = 0)
    (hw : img_w < 256) (hx0 : 0 ≤ pos_x) (hx32 : pos_x < 32) (ref : Nat) (img : Nat → Nat)
    (hp : (ref = 128 ∧ img = img_a) ∨ (ref = 160 ∧ img = img_b) ∨ (ref = 192 ∧ img = img_c) ∨
      (ref = 224 ∧ img = img_d))
    (hpad : ∀ u v, v < img_h → img_w ≤ u → u < 8 * img_wbyte img_w →
      bitmapPixel img img_w u v = false)
    (c r : Nat) (hc : c < 32) (hr : r < 8) :
    bufferPixel (vidDrawImage s g pos_x pos_y img_w img_h img_a img_b img_c img_d).vid_buffer
        ref c r
      = (decide (pos_x ≤ (c : Int) ∧ (c : Int) - pos_x < (img_w : Int) ∧
            pos_y ≤ (r : Int) ∧ (r : Int) - pos_y < (img_h : Int)) &&
          bitmapPixel img img_w ((c : Int) - pos_x).toNat ((r : Int) - pos_y).toNat) := by
  have href : 128 ≤ ref ∧ ref ≤ 224 := by
    rcases hp with ⟨h1, -⟩ | ⟨h1, -⟩ | ⟨h1, -⟩ | ⟨h1, -⟩ <;> omega
  have h0 : bufferPixel s.vid_buffer ref c r = false := by
    unfold bufferPixel
    rw [hz _ (by omega) (by omega)]
    simp
  have hcb := colBound_div img_w
  have hwb := img_wbyte_eq img_w hw
  rw [vidDrawImage_pixel s hs g pos_x pos_y img_w img_h img_a img_b img_c img_d hx0 hx32 ref img
    hp c r hc hr, h0]
  by_cases hvis : pos_y ≤ (r : Int) ∧ (r : Int) - pos_y < (img_h : Int)
  · rw [if_pos hvis, Bool.false_and, Bool.false_or]
    by_cases hin : pos_x ≤ (c : Int) ∧ (c : Int) - pos_x < (img_w : Int)
    · rw [decide_eq_true (by omega : pos_x ≤ (c : Int) ∧
          (c : Int) / 8 ≤ pos_x / 8 + (colBound img_w / 8 : Nat) ∧
          (pos_x % 8 ≤ (c : Int) % 8 → 8 * ((c : Int) / 8 - pos_x / 8) < (img_w : Int))),
        decide_eq_true (by omega : pos_x ≤ (c : Int) ∧ (c : Int) - pos_x < (img_w : Int) ∧
          pos_y ≤ (r : Int) ∧ (r : Int) - pos_y < (img_h : Int))]
    · rw [decide_eq_false (by omega : ¬ (pos_x ≤ (c : Int) ∧ (c : Int) - pos_x < (img_w : Int) ∧
          pos_y ≤ (r : Int) ∧ (r : Int) - pos_y < (img_h : Int))), Bool.false_and]
      by_cases hcond : pos_x ≤ (c : Int) ∧
          (c : Int) / 8 ≤ pos_x / 8 + (colBound img_w / 8 : Nat) ∧
          (pos_x % 8 ≤ (c : Int) % 8 → 8 * ((c : Int) / 8 - pos_x / 8) < (img_w : Int))
      · rw [decide_eq_true hcond, Bool.true_and]
        exact hpad _ _ (by omega) (by omega) (by omega)
      · rw [decide_eq_false hcond, Bool.false_and]
  · rw [if_neg hvis, decide_eq_false (by omega : ¬ (pos_x ≤ (c : Int) ∧
        (c : Int) - pos_x < (img_w : Int) ∧
        pos_y ≤ (r : Int) ∧ (r : Int) - pos_y < (img_h : Int))), Bool.false_and]

theorem vidPutPixel_other (s : Driver) (x y : Int) (v : Nat) (i : Nat)
    (ha : i ≠ byteOfInt (s.vid_draw_buffer_ref_a + (y * VID_DISPLAY_W + x) / 8))
    (hb : i ≠ byteOfInt (s.vid_draw_buffer_ref_b + (y * VID_DISPLAY_W + x) / 8))
    (hc : i ≠ byteOfInt (s.vid_draw_buffer_ref_c + (y * VID_DISPLAY_W + x) / 8))
    (hd : i ≠ byteOfInt (s.vid_draw_buffer_ref_d + (y * VID_DISPLAY_W + x) / 8)) :
    (vidPutPixel s x y v).vid_buffer i = s.vid_buffer i := by
  simp only [vidPutPixel, store_apply]
  simp [ha, hb, hc, hd]

set_option maxRecDepth 1000000 in
theorem putByte_keep_small : ∀ sh < 8, ∀ t < 2, ∀ b < 256,
    putByte b sh t &&& byteOfNot (1 <<< sh) = b &&& byteOfNot (1 <<< sh) := by
  decide

theorem mask_testBit_small : ∀ sh < 8, ∀ j < 8, j ≠ sh →
    (byteOfNot (1 <<< sh)).testBit j = true := by
  decide

/-- The two statements of `vidPutPixel` on one cell leave every bit below 8
other than bit `sh` as it was. -/
theorem putByte_other_bits (b sh t j : Nat) (hsh : sh < 8) (ht : t < 2) (hj : j < 8)
    (hne : j ≠ sh) : (putByte b sh t).testBit j = b.testBit j := by
  have h1 := putByte_keep_small sh hsh t ht (b % 256) (Nat.mod_lt _ (by norm_num))
  rw [← putByte_mod] at h1
  have h2 := congrArg (fun n => n.testBit j) h1
  simp only [Nat.testBit_and, mask_testBit_small sh hsh j hj hne, Bool.and_true,
    testBit_mod_256, hj, decide_True, Bool.true_and] at h2
  exact h2

theorem busEvents_append (p : Nat) (l1 l2 : List Nat) :
    busEvents p (l1 ++ l2) = busEvents p l1 ++ busEvents (lastPort p l1) l2 := by
  induction l1 generalizing p with
  | nil => rfl
  | cons v l ih => simp [busEvents, lastPort, ih, List.append_assoc]

theorem lastPort_append (p : Nat) (l1 l2 : List Nat) :
    lastPort p (l1 ++ l2) = lastPort (lastPort p l1) l2 := by
  induction l1 generalizing p with
  | nil => rfl
  | cons v l ih => simp [lastPort, ih]

theorem dataSetup_append (p : Nat) (l1 l2 : List Nat) :
    dataSetup p (l1 ++ l2) = (dataSetup p l1 && dataSetup (lastPort p l1) l2) := by
  induction l1 generalizing p with
  | nil => simp [dataSetup, lastPort]
  | cons v l ih => simp [dataSetup, lastPort, ih, Bool.and_assoc]

theorem local_id : Local (fun b => b) := by
  intro b
  simp [trace, lastPort]

theorem local_write (g : Nat → Nat) : Local (fun b => writePORTB b (g b.portb)) := by
  intro b
  simp [trace, writePORTB, lastPort]

theorem trace_write (g : Nat → Nat) (p : Nat) :
    trace (fun b => writePORTB b (g b.portb)) p = [g p % 256] := by
  simp [trace, writePORTB]

theorem trace_comp {f g : Bus → Bus} (hf : Local f) (hg : Local g) (p : Nat) :
    trace (fun b => g (f b)) p = trace f p ++ trace g (lastPort p (trace f p)) := by
  have h1 := hf { portb := p, log := [] }
  have h2 := hg (f { portb := p, log := [] })
  simp only [trace] at *
  rw [h2.1, h1.1, h1.2]
  simp

theorem local_comp {f g : Bus → Bus} (hf : Local f) (hg : Local g) :
    Local (fun b => g (f b)) := by
  intro b
  have h1 := hf b
  have h2 := hg (f b)
  rw [trace_comp hf hg, lastPort_append]
  constructor
  · rw [h2.1, h1.1, h1.2, List.append_assoc]
  · rw [h2.2, h1.2]

theorem clocked_nil (p : Nat) (hp : p < 256) : Clocked p [] [] p := by
  simp [Clocked, busEvents, lastPort, dataSetup, hp]

theorem clocked_append {p q r : Nat} {T1 T2 : List Nat} {b1 b2 : List Bool}
    (h1 : Clocked p T1 b1 q) (h2 : Clocked q T2 b2 r) : Clocked p (T1 ++ T2) (b1 ++ b2) r := by
  obtain ⟨e1, l1, d1, m1, -, k1⟩ := h1
  obtain ⟨e2, l2, d2, m2, q2, k2⟩ := h2
  refine ⟨?_, ?_, ?_, ?_, q2, ?_⟩
  · rw [busEvents_append, l1, e1, e2, List.map_append]
  · rw [lastPort_append, l1, l2]
  · rw [dataSetup_append, l1, d1, d2]; rfl
  · intro v hv
    rcases List.mem_append.mp hv with h | h
    · exact m1 v h
    · exact ⟨(m2 v h).1, by rw [(m2 v h).2, k1]⟩
  · rw [k2, k1]

set_option maxRecDepth 1000000 in
theorem clocked_bit_small : ∀ p < 256, ∀ t < 2,
    busEvents p [(p &&& 0xFA) % 256, (((p &&& 0xFA) % 256) ||| ((t <<< 2) % 256)) % 256,
        (((((p &&& 0xFA) % 256) ||| ((t <<< 2) % 256)) % 256) ||| 1) % 256]
      = [Ev.clk (decide (t = 1))] ∧
    dataSetup p [(p &&& 0xFA) % 256, (((p &&& 0xFA) % 256) ||| ((t <<< 2) % 256)) % 256,
        (((((p &&& 0xFA) % 256) ||| ((t <<< 2) % 256)) % 256) ||| 1) % 256] = true ∧
    ((p &&& 0xFA) % 256) &&& 0xFA = p &&& 0xFA ∧
    ((((p &&& 0xFA) % 256) ||| ((t <<< 2) % 256)) % 256) &&& 0xFA = p &&& 0xFA ∧
    ((((((p &&& 0xFA) % 256) ||| ((t <<< 2) % 256)) % 256) ||| 1) % 256) &&& 0xFA
      = p &&& 0xFA := by
  decide

/-- The three writes that clock in one bit `t`. -/
theorem clocked_bit (p t : Nat) (hp : p < 256) (ht : t < 2) :
    Clocked p [(p &&& 0xFA) % 256, (((p &&& 0xFA) % 256) ||| ((t <<< 2) % 256)) % 256,
        (((((p &&& 0xFA) % 256) ||| ((t <<< 2) % 256)) % 256) ||| 1) % 256]
      [decide (t = 1)]
      ((((((p &&& 0xFA) % 256) ||| ((t <<< 2) % 256)) % 256) ||| 1) % 256) := by
  obtain ⟨h1, h2, h3, h4, h5⟩ := clocked_bit_small p hp t ht
  refine ⟨h1, rfl, h2, ?_, Nat.mod_lt _ (by norm_num), h5⟩
  intro v hv
  simp only [List.mem_cons, List.mem_singleton, List.not_mem_nil, or_false] at hv
  rcases hv with h | h | h
  · rw [h]; exact ⟨Nat.mod_lt _ (by norm_num), h3⟩
  · rw [h]; exact ⟨Nat.mod_lt _ (by norm_num), h4⟩
  · rw [h]; exact ⟨Nat.mod_lt _ (by norm_num), h5⟩

theorem shift_and_one (x i : Nat) :
    (x >>> i) &&& 1 < 2 ∧ decide ((x >>> i) &&& 1 = 1) = x.testBit i := by
  rw [Nat.and_one_is_mod, Nat.shiftRight_eq_div_pow, Nat.testBit_to_div_mod]
  exact ⟨Nat.mod_lt _ (by norm_num), rfl⟩

theorem local_clockBit (t : Nat) : Local (clockBit t) := by
  have h := local_comp (local_comp (local_write (fun p => p &&& 0xFA))
    (local_write (fun p => p ||| ((t <<< 2) % 256)))) (local_write (fun p => p ||| 1))
  exact h

theorem trace_clockBit (t p : Nat) :
    trace (clockBit t) p = [(p &&& 0xFA) % 256, (((p &&& 0xFA) % 256) ||| ((t <<< 2) % 256)) % 256,
        (((((p &&& 0xFA) % 256) ||| ((t <<< 2) % 256)) % 256) ||| 1) % 256] := by
  simp [trace, clockBit, writePORTB]

theorem vidWriteWordLoop_succ (data n i : Nat) (hi : 0 < i) (b : Bus) :
    vidWriteWordLoop data (n + 1) i b
      = vidWriteWordLoop data n (i - 1) (clockBit ((data >>> i) &&& 1) b) := by
  simp only [vidWriteWordLoop, hi, gt_iff_lt, if_true, clockBit]

theorem local_vidWriteWordLoop (data : Nat) (n i : Nat) (hn : n ≤ i) :
    Local (vidWriteWordLoop data n i) := by
  induction n generalizing i with
  | zero => exact local_id
  | succ n ih =>
    have hi : 0 < i := by omega
    have e : vidWriteWordLoop data (n + 1) i
        = fun b => vidWriteWordLoop data n (i - 1) (clockBit ((data >>> i) &&& 1) b) := by
      funext b; exact vidWriteWordLoop_succ data n i hi b
    rw [e]
    exact local_comp (local_clockBit _) (ih (i - 1) (by omega))

theorem clocked_vidWriteWordLoop (data : Nat) (n i p : Nat) (hn : n ≤ i) (hp : p < 256) :
    Clocked p (trace (vidWriteWordLoop data n i) p)
      ((List.range n).map (fun k => data.testBit (i - k)))
      (lastPort p (trace (vidWriteWordLoop data n i) p)) := by
  induction n generalizing i p with
  | zero =>
    have : trace (vidWriteWordLoop data 0 i) p = [] := rfl
    rw [this]
    exact clocked_nil p hp
  | succ n ih =>
    have hi : 0 < i := by omega
    have e : vidWriteWordLoop data (n + 1) i
        = fun b => vidWriteWordLoop data n (i - 1) (clockBit ((data >>> i) &&& 1) b) := by
      funext b; exact vidWriteWordLoop_succ data n i hi b
    rw [e, trace_comp (local_clockBit _) (local_vidWriteWordLoop data n (i - 1) (by omega))]
    obtain ⟨ht, hbit⟩ := shift_and_one data i
    have h1 := clocked_bit p _ hp ht
    rw [← trace_clockBit, hbit] at h1
    have hq := h1.2.2.2.2.1
    have hl := h1.2.1
    rw [hl]
    have h2 := ih (i - 1) _ (by omega) hq
    have h3 := clocked_append h1 h2
    rw [lastPort_append, hl]
    have er : (List.range (n + 1)).map (fun k => data.testBit (i - k))
        = [data.testBit i] ++ (List.range n).map (fun k => data.testBit (i - 1 - k)) := by
      rw [List.range_succ_eq_map, List.map_cons, List.map_map]
      simp only [List.singleton_append, Nat.sub_zero]
      congr 1
      apply List.map_congr_left
      intro k _
      simp only [Function.comp, Nat.succ_eq_add_one]
      congr 1
      omega
    rw [er]
    exact h3

theorem vidWriteWord_eq (data : Nat) :
    vidWriteWord data = fun b =>
      clockBit ((data % 65536) &&& 1) (vidWriteWordLoop (data % 65536) 15 15 b) := rfl

theorem local_vidWriteWord (data : Nat) : Local (vidWriteWord data) := by
  rw [vidWriteWord_eq]
  exact local_comp (local_vidWriteWordLoop _ 15 15 (Nat.le_refl _)) (local_clockBit _)

theorem clocked_vidWriteWord (data p : Nat) (hp : p < 256) :
    Clocked p (trace (vidWriteWord data) p)
      ((List.range 16).map (fun k => data.testBit (15 - k)))
      (lastPort p (trace (vidWriteWord data) p)) := by
  rw [vidWriteWord_eq,
    trace_comp (local_vidWriteWordLoop _ 15 15 (Nat.le_refl _)) (local_clockBit _)]
  have h1 := clocked_vidWriteWordLoop (data % 65536) 15 15 p (Nat.le_refl _) hp
  have hq := h1.2.2.2.2.1
  obtain ⟨ht, hbit⟩ := shift_and_one (data % 65536) 0
  rw [Nat.shiftRight_zero] at ht hbit
  have h2 := clocked_bit _ _ hq ht
  rw [← trace_clockBit, hbit] at h2
  have h3 := clocked_append h1 h2
  have h65536 : (65536 : Nat) = 2 ^ 16 := by norm_num
  have er : (List.range 16).map (fun k => data.testBit (15 - k))
      = (List.range 15).map (fun k => (data % 65536).testBit (15 - k))
        ++ [(data % 65536).testBit 0] := by
    rw [List.range_succ, List.map_append]
    congr 1
    · apply List.map_congr_left
      intro k _
      rw [h65536, Nat.testBit_mod_two_pow]
      have : 15 - k < 16 := by omega
      simp [this]
    · rw [h65536, Nat.testBit_mod_two_pow]
      simp
  rw [er, h3.2.1]
  exact h3

theorem wordEvents_eq (w : Nat) :
    wordEvents w = ((List.range 16).map (fun k => w.testBit (15 - k))).map Ev.clk := by
  unfold wordEvents
  rw [List.map_map]
  rfl

theorem sent_append {p q r : Nat} {T1 T2 : List Nat} {e1 e2 : List Ev}
    (h1 : Sent p T1 e1 q) (h2 : Sent q T2 e2 r) : Sent p (T1 ++ T2) (e1 ++ e2) r := by
  obtain ⟨a1, l1, -⟩ := h1
  obtain ⟨a2, l2, q2⟩ := h2
  exact ⟨by rw [busEvents_append, l1, a1, a2], by rw [lastPort_append, l1, l2], q2⟩

theorem sent_nil (p : Nat) (hp : p < 256) : Sent p [] [] p := ⟨rfl, rfl, hp⟩

theorem cs_small : ∀ p < 256, ∀ q < 256, q &&& 0xFA = p &&& 0xFA → q.testBit 1 = p.testBit 1 := by
  intro p _ q _ h
  have h2 := congrArg (fun n => n.testBit 1) h
  simp only [Nat.testBit_and] at h2
  have : (0xFA : Nat).testBit 1 = true := by decide
  rw [this, Bool.and_true, Bool.and_true] at h2
  exact h2

theorem sent_word (data p : Nat) (hp : p < 256) :
    Sent p (trace (vidWriteWord data) p) (wordEvents data)
        (lastPort p (trace (vidWriteWord data) p)) ∧
      (lastPort p (trace (vidWriteWord data) p)).testBit 1 = p.testBit 1 := by
  obtain ⟨h1, -, -, -, h5, h6⟩ := clocked_vidWriteWord data p hp
  rw [← wordEvents_eq] at h1
  exact ⟨⟨h1, rfl, h5⟩, cs_small p hp _ h5 h6⟩

theorem local_vidStopWrite : Local vidStopWrite := local_write (fun p => p ||| 0x02)

theorem local_vidStartWrite : Local vidStartWrite := local_write (fun p => p &&& 0xFC)

theorem trace_vidStopWrite (p : Nat) : trace vidStopWrite p = [(p ||| 0x02) % 256] :=
  trace_write (fun p => p ||| 0x02) p

theorem trace_vidStartWrite (p : Nat) : trace vidStartWrite p = [(p &&& 0xFC) % 256] :=
  trace_write (fun p => p &&& 0xFC) p

set_option maxRecDepth 1000000 in
theorem stop_small : ∀ p < 256,
    busEvents p [(p ||| 0x02) % 256] = (if p.testBit 1 then [] else [Ev.csHigh]) ∧
    ((p ||| 0x02) % 256).testBit 1 = true := by
  decide

set_option maxRecDepth 1000000 in
theorem start_small : ∀ p < 256,
    busEvents p [(p &&& 0xFC) % 256] = (if p.testBit 1 then [Ev.csLow] else []) ∧
    ((p &&& 0xFC) % 256).testBit 1 = false := by
  decide

theorem sent_stop (p : Nat) (hp : p < 256) :
    Sent p (trace vidStopWrite p) (if p.testBit 1 then [] else [Ev.csHigh]) ((p ||| 0x02) % 256) ∧
      ((p ||| 0x02) % 256).testBit 1 = true := by
  rw [trace_vidStopWrite]
  exact ⟨⟨(stop_small p hp).1, rfl, Nat.mod_lt _ (by norm_num)⟩, (stop_small p hp).2⟩

theorem sent_start (p : Nat) (hp : p < 256) :
    Sent p (trace vidStartWrite p) (if p.testBit 1 then [Ev.csLow] else [])
        ((p &&& 0xFC) % 256) ∧
      ((p &&& 0xFC) % 256).testBit 1 = false := by
  rw [trace_vidStartWrite]
  exact ⟨⟨(start_small p hp).1, rfl, Nat.mod_lt _ (by norm_num)⟩, (start_small p hp).2⟩

/-- The burst delimiter `vidStopWrite; vidStartWrite;`. -/
theorem sent_frame (p : Nat) (hp : p < 256) :
    ∃ q, Sent p (trace (fun b => vidStartWrite (vidStopWrite b)) p)
        ((if p.testBit 1 then [] else [Ev.csHigh]) ++ [Ev.csLow]) q ∧ q.testBit 1 = false := by
  rw [trace_comp local_vidStopWrite local_vidStartWrite]
  obtain ⟨h1, c1⟩ := sent_stop p hp
  obtain ⟨h2, c2⟩ := sent_start _ h1.2.2
  rw [c1] at h2
  rw [h1.2.1] at *
  exact ⟨_, sent_append h1 h2, c2⟩

theorem local_frame : Local (fun b => vidStartWrite (vidStopWrite b)) :=
  local_comp local_vidStopWrite local_vidStartWrite

theorem blitStep_eq (buf : Nat → Nat) (cur i : Nat) :
    blitStep buf cur i = fun b =>
      vidWriteWord ((((i >>> 2) + 1) <<< 8) + (buf (cur + i) % 256))
        ((if i % 4 = 0 then fun b => vidStartWrite (vidStopWrite b) else fun b => b) b) := by
  funext b
  by_cases h : i % 4 = 0 <;> simp [blitStep, h]

theorem local_blitStep (buf : Nat → Nat) (cur i : Nat) : Local (blitStep buf cur i) := by
  rw [blitStep_eq]
  apply local_comp _ (local_vidWriteWord _)
  split
  · exact local_frame
  · exact local_id

theorem word_value (i byte : Nat) : (((i >>> 2) + 1) <<< 8) + byte = (i / 4 + 1) * 256 + byte := by
  rw [Nat.shiftLeft_eq, Nat.shiftRight_eq_div_pow]

theorem sent_blitStep (buf : Nat → Nat) (cur : Nat) (cs0 : Bool) (i p : Nat) (hp : p < 256)
    (hcs : p.testBit 1 = (decide (i = 0) && cs0)) :
    ∃ q, Sent p (trace (blitStep buf cur i) p) (blitFrame buf cur cs0 i) q ∧
      q.testBit 1 = (decide (i % 4 ≠ 0) && p.testBit 1) := by
  rw [blitStep_eq]
  unfold blitFrame
  rw [← word_value]
  by_cases h4 : i % 4 = 0
  · rw [if_pos h4, if_pos h4, trace_comp local_frame (local_vidWriteWord _)]
    obtain ⟨q, h1, c1⟩ := sent_frame p hp
    rw [h1.2.1]
    obtain ⟨h2, c2⟩ := sent_word ((((i >>> 2) + 1) <<< 8) + (buf (cur + i) % 256)) q h1.2.2
    have h3 := sent_append h1 h2
    have e : (if p.testBit 1 then [] else [Ev.csHigh])
        = (if i = 0 ∧ cs0 = true then [] else [Ev.csHigh]) := by
      rw [hcs]
      by_cases h0 : i = 0 <;> cases cs0 <;> simp [h0]
    rw [e] at h3
    exact ⟨_, h3, by rw [c2, c1]; simp [h4]⟩
  · rw [if_neg h4, if_neg h4, trace_comp local_id (local_vidWriteWord _)]
    have e0 : trace (fun b => b) p = [] := rfl
    rw [e0]
    simp only [lastPort, List.nil_append]
    obtain ⟨h2, c2⟩ := sent_word ((((i >>> 2) + 1) <<< 8) + (buf (cur + i) % 256)) p hp
    exact ⟨_, h2, by rw [c2]; simp [h4]⟩

theorem vidBlitLoop_succ (buf : Nat → Nat) (cur n i : Nat) (hi : i < 32) :
    vidBlitLoop buf cur (n + 1) i = fun b => vidBlitLoop buf cur n (i + 1) (blitStep buf cur i b) := by
  funext b
  simp only [vidBlitLoop, hi, if_true, blitStep]

theorem local_vidBlitLoop (buf : Nat → Nat) (cur n i : Nat) (hn : i + n ≤ 32) :
    Local (vidBlitLoop buf cur n i) := by
  induction n generalizing i with
  | zero => exact local_id
  | succ n ih =>
    rw [vidBlitLoop_succ buf cur n i (by omega)]
    exact local_comp (local_blitStep buf cur i) (ih (i + 1) (by omega))

theorem sent_vidBlitLoop (buf : Nat → Nat) (cur : Nat) (cs0 : Bool) (n i p : Nat)
    (hn : i + n ≤ 32) (hp : p < 256) (hcs : p.testBit 1 = (decide (i = 0) && cs0)) :
    ∃ q, Sent p (trace (vidBlitLoop buf cur n i) p)
        ((List.range' i n).flatMap (blitFrame buf cur cs0)) q ∧
      q.testBit 1 = (decide (i + n = 0) && cs0) := by
  induction n generalizing i p with
  | zero =>
    have e0 : trace (vidBlitLoop buf cur 0 i) p = [] := rfl
    rw [e0]
    exact ⟨p, sent_nil p hp, by simpa using hcs⟩
  | succ n ih =>
    rw [vidBlitLoop_succ buf cur n i (by omega),
      trace_comp (local_blitStep buf cur i) (local_vidBlitLoop buf cur n (i + 1) (by omega)),
      List.range'_succ, List.flatMap_cons]
    obtain ⟨q, h1, c1⟩ := sent_blitStep buf cur cs0 i p hp hcs
    rw [h1.2.1]
    have hq : q.testBit 1 = (decide (i + 1 = 0) && cs0) := by
      rw [c1, hcs]
      by_cases h0 : i = 0
      · simp [h0]
      · simp [h0]
    obtain ⟨r, h2, c2⟩ := ih (i + 1) q (by omega) h1.2.2 hq
    refine ⟨r, sent_append h1 h2, ?_⟩
    rw [c2]
    have : i + 1 + n ≠ 0 := by omega
    have : i + (n + 1) ≠ 0 := by omega
    simp [*]

theorem vidBlit_bus (m : Machine) (curbuf0 : Nat) :
    (vidBlit m curbuf0).bus
      = (fun b => vidStopWrite (vidBlitLoop m.drv.vid_buffer (curbuf m curbuf0) 32 0 b)) m.bus :=
  rfl

theorem local_blit (buf : Nat → Nat) (cur : Nat) :
    Local (fun b => vidStopWrite (vidBlitLoop buf cur 32 0 b)) :=
  local_comp (local_vidBlitLoop buf cur 32 0 (by omega)) local_vidStopWrite

/-- The edges of one refresh of the plane at `cur`, from any byte value of the
port: 32 framed words, then chip-select released; chip-select is high
afterwards. -/
theorem sent_blit (buf : Nat → Nat) (cur p : Nat) (hp : p < 256) :
    ∃ q, Sent p (trace (fun b => vidStopWrite (vidBlitLoop buf cur 32 0 b)) p)
        ((List.range 32).flatMap (blitFrame buf cur (p.testBit 1)) ++ [Ev.csHigh]) q ∧
      q.testBit 1 = true := by
  rw [trace_comp (local_vidBlitLoop buf cur 32 0 (by omega)) local_vidStopWrite,
    List.range_eq_range']
  obtain ⟨q, h1, c1⟩ := sent_vidBlitLoop buf cur (p.testBit 1) 32 0 p (by omega) hp (by simp)
  rw [h1.2.1]
  obtain ⟨h2, c2⟩ := sent_stop q h1.2.2
  have hc : q.testBit 1 = false := by rw [c1]; simp
  rw [hc] at h2
  exact ⟨_, sent_append h1 h2, c2⟩

theorem curbuf_bus (m : Machine) (b : Bus) (curbuf0 : Nat) :
    curbuf { m with bus := b } curbuf0 = curbuf m curbuf0 := rfl

theorem vidBlit_fresh (m : Machine) (curbuf0 : Nat) :
    (vidBlit { m with bus := { portb := m.bus.portb, log := [] } } curbuf0).bus.log
      = trace (fun b => vidStopWrite (vidBlitLoop m.drv.vid_buffer (curbuf m curbuf0) 32 0 b))
          m.bus.portb := by
  rw [vidBlit_bus, curbuf_bus]
  unfold trace
  dsimp only

theorem local_burst (w : Nat) : Local (burst w) := by
  have h := local_comp (local_comp (local_comp (local_comp (local_comp local_vidStartWrite
    (local_vidWriteWord w)) (local_vidWriteWord w)) (local_vidWriteWord w))
    (local_vidWriteWord w)) local_vidStopWrite
  exact h

theorem sent_burst (w p : Nat) (hp : p < 256) (hcs : p.testBit 1 = true) :
    ∃ q, Sent p (trace (burst w) p) (burstEvents w) q ∧ q.testBit 1 = true := by
  have l1 := local_comp local_vidStartWrite (local_vidWriteWord w)
  have l2 := local_comp l1 (local_vidWriteWord w)
  have l3 := local_comp l2 (local_vidWriteWord w)
  have l4 := local_comp l3 (local_vidWriteWord w)
  have e : trace (burst w) p
      = trace (fun b => vidStopWrite (vidWriteWord w (vidWriteWord w (vidWriteWord w
          (vidWriteWord w (vidStartWrite b)))))) p := by
    unfold trace burst
    dsimp only
  rw [e, trace_comp l4 local_vidStopWrite, trace_comp l3 (local_vidWriteWord w),
    trace_comp l2 (local_vidWriteWord w), trace_comp l1 (local_vidWriteWord w),
    trace_comp local_vidStartWrite (local_vidWriteWord w)]
  obtain ⟨s0, c0⟩ := sent_start p hp
  rw [hcs, if_pos rfl] at s0
  rw [s0.2.1]
  obtain ⟨s1, c1⟩ := sent_word w _ s0.2.2
  have a1 := sent_append s0 s1
  rw [a1.2.1]
  obtain ⟨s2, c2⟩ := sent_word w _ a1.2.2
  have a2 := sent_append a1 s2
  rw [a2.2.1]
  obtain ⟨s3, c3⟩ := sent_word w _ a2.2.2
  have a3 := sent_append a2 s3
  rw [a3.2.1]
  obtain ⟨s4, c4⟩ := sent_word w _ a3.2.2
  have a4 := sent_append a3 s4
  rw [a4.2.1]
  obtain ⟨s5, c5⟩ := sent_stop _ a4.2.2
  rw [c4, c3, c2, c1, c0] at s5
  exact ⟨_, sent_append a4 s5, c5⟩

theorem constructLoop_apply (n i : Nat) (buf : Nat → Nat) (j : Nat) (hn : i + n = 256) :
    constructLoop n i buf j = if i ≤ j ∧ j < 256 then 0 else buf j := by
  induction n generalizing i buf with
  | zero =>
    simp only [constructLoop]
    have : ¬ (i ≤ j ∧ j < 256) := by omega
    simp [this]
  | succ n ih =>
    have hi : i < VID_BUFSIZE * 8 := by unfold VID_BUFSIZE; omega
    simp only [constructLoop, hi, if_true]
    rw [ih (i + 1) _ (by omega), store_apply]
    by_cases h1 : j = i
    · subst h1
      have h2 : j < 256 := by omega
      simp [h2]
    · by_cases h2 : i ≤ j ∧ j < 256
      · have : i + 1 ≤ j ∧ j < 256 := by omega
        simp [h2, this]
      · have : ¬ (i + 1 ≤ j ∧ j < 256) := by omega
        simp [h1, h2, this]

theorem constructMachine_bus (buf0 : Nat → Nat) (portb0 : Nat) :
    (constructMachine buf0 portb0).bus
      = (fun b => burst 0x0B07 (burst VID_PWR_MAX (burst 0x0900 (burst 0x0F00 (vidStopWrite b)))))
          { portb := portb0, log := [] } := rfl

theorem sent_construct (p : Nat) (hp : p < 256) :
    ∃ q, Sent p
        (trace (fun b => burst 0x0B07 (burst VID_PWR_MAX (burst 0x0900 (burst 0x0F00
          (vidStopWrite b))))) p)
        ((if p.testBit 1 then [] else [Ev.csHigh]) ++ burstEvents 0x0F00 ++ burstEvents 0x0900
          ++ burstEvents VID_PWR_MAX ++ burstEvents 0x0B07) q ∧ q.testBit 1 = true := by
  have l1 := local_comp local_vidStopWrite (local_burst 0x0F00)
  have l2 := local_comp l1 (local_burst 0x0900)
  have l3 := local_comp l2 (local_burst VID_PWR_MAX)
  rw [trace_comp l3 (local_burst 0x0B07), trace_comp l2 (local_burst VID_PWR_MAX),
    trace_comp l1 (local_burst 0x0900), trace_comp local_vidStopWrite (local_burst 0x0F00)]
  obtain ⟨s0, c0⟩ := sent_stop p hp
  rw [s0.2.1]
  obtain ⟨q1, s1, c1⟩ := sent_burst 0x0F00 _ s0.2.2 c0
  have a1 := sent_append s0 s1
  rw [a1.2.1]
  obtain ⟨q2, s2, c2⟩ := sent_burst 0x0900 _ a1.2.2 c1
  have a2 := sent_append a1 s2
  rw [a2.2.1]
  obtain ⟨q3, s3, c3⟩ := sent_burst VID_PWR_MAX _ a2.2.2 c2
  have a3 := sent_append a2 s3
  rw [a3.2.1]
  obtain ⟨q4, s4, c4⟩ := sent_burst 0x0B07 _ a3.2.2 c3
  exact ⟨_, sent_append a3 s4, c4⟩

set_option maxRecDepth 100000 in
theorem constructMachine_buffer (buf0 : Nat → Nat) (portb0 : Nat) :
    (constructMachine buf0 portb0).drv.vid_buffer = constructLoop (VID_BUFSIZE * 8) 0 buf0 := by
  unfold constructMachine vidSetPower
  rfl

theorem vidBlit_tick (m : Machine) (curbuf0 : Nat) :
    (vidBlit m curbuf0).vid_tick = Int.tmod (m.vid_tick + 1) 4 := rfl

theorem vidBlit_drv (m : Machine) (curbuf0 : Nat) : (vidBlit m curbuf0).drv = m.drv := rfl

theorem vidBlit_portb_lt (m : Machine) (curbuf0 : Nat) : (vidBlit m curbuf0).bus.portb < 256 := by
  rw [vidBlit_bus]
  exact Nat.mod_lt _ (by norm_num)

theorem burst_portb_lt (w : Nat) (b : Bus) : (burst w b).portb < 256 :=
  Nat.mod_lt _ (by norm_num)

theorem vidSetPower_bus (m : Machine) (intensity : Nat) (pausetimer : Bool) :
    (vidSetPower m intensity pausetimer).bus = burst intensity m.bus := rfl

theorem vidSetPower_tick (m : Machine) (intensity : Nat) (pausetimer : Bool) :
    (vidSetPower m intensity pausetimer).vid_tick = m.vid_tick := rfl

theorem constructMachine_portb_lt (buf0 : Nat → Nat) (portb0 : Nat) :
    (constructMachine buf0 portb0).bus.portb < 256 := by
  rw [constructMachine_bus]
  exact burst_portb_lt _ _

theorem constructMachine_tick (buf0 : Nat → Nat) (portb0 : Nat) :
    (constructMachine buf0 portb0).vid_tick = 0 := rfl

/-- From construction on, `vid_tick` is the number of refreshes modulo 4 and
`PORTB` holds a byte. -/
theorem runs_inv (n : Nat) (m : Machine) (h : Runs n m) :
    m.vid_tick = ((n % 4 : Nat) : Int) ∧ m.bus.portb < 256 := by
  induction h with
  | init buf0 portb0 => exact ⟨constructMachine_tick _ _, constructMachine_portb_lt _ _⟩
  | clear _ ih => exact ih
  | putPixel _ _ _ _ ih => exact ih
  | drawImage _ _ _ _ _ _ _ _ _ _ ih => exact ih
  | switchBuffers _ ih => exact ih
  | setPower intensity pausetimer _ ih =>
    refine ⟨?_, ?_⟩
    · rw [vidSetPower_tick]; exact ih.1
    · rw [vidSetPower_bus]; exact burst_portb_lt _ _
  | blit curbuf0 _ ih =>
    refine ⟨?_, vidBlit_portb_lt _ _⟩
    rw [vidBlit_tick, ih.1, Int.tmod_eq_emod (by omega) (by norm_num)]
    omega

theorem curbuf_tick (m : Machine) (curbuf0 : Nat) :
    (m.vid_tick = 0 → curbuf m curbuf0 = m.drv.vid_blit_buffer_ref_a) ∧
    (m.vid_tick = 1 → curbuf m curbuf0 = m.drv.vid_blit_buffer_ref_b) ∧
    (m.vid_tick = 2 → curbuf m curbuf0 = m.drv.vid_blit_buffer_ref_c) ∧
    (m.vid_tick = 3 → curbuf m curbuf0 = m.drv.vid_blit_buffer_ref_d) := by
  unfold curbuf
  refine ⟨fun h => ?_, fun h => ?_, fun h => ?_, fun h => ?_⟩ <;> simp [h]

/-- The planes selected by four consecutive refreshes that start at tick `k`. -/
theorem four_ticks (m : Machine) (k : Nat) (hk : k < 4) (ht : m.vid_tick = (k : Int))
    (c0 c1 c2 c3 : Nat) :
    [curbuf m c0, curbuf (vidBlit m c0) c1, curbuf (vidBlit (vidBlit m c0) c1) c2,
        curbuf (vidBlit (vidBlit (vidBlit m c0) c1) c2) c3]
      = (blitPlanes m.drv).rotate k := by
  have t1 : (vidBlit m c0).vid_tick = (((k + 1) % 4 : Nat) : Int) := by
    rw [vidBlit_tick, ht, Int.tmod_eq_emod (by omega) (by norm_num)]; omega
  have t2 : (vidBlit (vidBlit m c0) c1).vid_tick = (((k + 2) % 4 : Nat) : Int) := by
    rw [vidBlit_tick, t1, Int.tmod_eq_emod (by omega) (by norm_num)]; omega
  have t3 : (vidBlit (vidBlit (vidBlit m c0) c1) c2).vid_tick = (((k + 3) % 4 : Nat) : Int) := by
    rw [vidBlit_tick, t2, Int.tmod_eq_emod (by omega) (by norm_num)]; omega
  obtain ⟨a0, b0, e0, d0⟩ := curbuf_tick m c0
  obtain ⟨a1, b1, e1, d1⟩ := curbuf_tick (vidBlit m c0) c1
  obtain ⟨a2, b2, e2, d2⟩ := curbuf_tick (vidBlit (vidBlit m c0) c1) c2
  obtain ⟨a3, b3, e3, d3⟩ := curbuf_tick (vidBlit (vidBlit (vidBlit m c0) c1) c2) c3
  simp only [vidBlit_drv] at a1 b1 e1 d1 a2 b2 e2 d2 a3 b3 e3 d3
  have hk4 : k = 0 ∨ k = 1 ∨ k = 2 ∨ k = 3 := by omega
  rcases hk4 with h | h | h | h <;> subst h
  · rw [a0 ht, b1 t1, e2 t2, d3 t3]; rfl
  · rw [b0 ht, e1 t1, d2 t2, a3 t3]; rfl
  · rw [e0 ht, d1 t1, a2 t2, b3 t3]; rfl
  · rw [d0 ht, a1 t1, b2 t2, e3 t3]; rfl

theorem rotate_sz (font : Font) (sc : Scroller) (g : Nat → Locals) :
    (vidPrintRotate font sc g)._vpr_sz = sc._vpr_sz := rfl

theorem rotate_x (font : Font) (sc : Scroller) (g : Nat → Locals) :
    (vidPrintRotate font sc g)._vpr_x
      = if int16 (sc._vpr_x - 1) < int16 (-(sc._vpr_sz)) then 32 else int16 (sc._vpr_x - 1) := rfl

theorem rotateTimes_succ (font : Font) (g : Nat → Locals) (n : Nat) (sc : Scroller) :
    vidPrintRotateTimes font g (n + 1) sc
      = vidPrintRotate font (vidPrintRotateTimes font g n sc) g := by
  induction n generalizing sc with
  | zero => rfl
  | succ n ih =>
    have e : vidPrintRotateTimes font g (n + 1 + 1) sc
        = vidPrintRotateTimes font g (n + 1) (vidPrintRotate font sc g) := rfl
    rw [e, ih]
    rfl

/-- While the offset has not passed `-_vpr_sz`, each call of `vidPrintRotate`
decrements it. -/
theorem rotateTimes_x (font : Font) (g : Nat → Locals) (k : Nat) (sc : Scroller) (L : Nat)
    (hsz : sc._vpr_sz = (L : Int)) (hL : L + 33 ≤ 32767) (hx : sc._vpr_x ≤ 32)
    (hk : (k : Int) ≤ sc._vpr_x + L) :
    (vidPrintRotateTimes font g k sc)._vpr_x = sc._vpr_x - k ∧
    (vidPrintRotateTimes font g k sc)._vpr_sz = (L : Int) := by
  induction k with
  | zero => exact ⟨by simp [vidPrintRotateTimes], hsz⟩
  | succ k ih =>
    obtain ⟨ihx, ihs⟩ := ih (by omega)
    rw [rotateTimes_succ, rotate_x, rotate_sz, ihx, ihs]
    refine ⟨?_, rfl⟩
    have e1 : int16 (sc._vpr_x - (k : Int) - 1) = sc._vpr_x - (k : Int) - 1 := by
      unfold int16; omega
    have e2 : int16 (-(L : Int)) = -(L : Int) := by unfold int16; omega
    rw [e1, e2, if_neg (by omega)]
    push_cast
    omega

/-- The call of `vidPrintRotate` at offset `-_vpr_sz` resets the offset. -/
theorem rotate_reset (font : Font) (g : Nat → Locals) (sc : Scroller) (L : Nat)
    (hsz : sc._vpr_sz = (L : Int)) (hL : L + 33 ≤ 32767) (hx : sc._vpr_x = -(L : Int)) :
    (vidPrintRotate font sc g)._vpr_x = 32 := by
  rw [rotate_x, hsz, hx]
  have e1 : int16 (-(L : Int) - 1) = -(L : Int) - 1 := by unfold int16; omega
  have e2 : int16 (-(L : Int)) = -(L : Int) := by unfold int16; omega
  rw [e1, e2, if_pos (by omega)]

theorem init_fields (sc : Scroller) (text : List Int) (h : 8 * letters text + 33 ≤ 32767) :
    (vidPrintRotateInit sc text)._vpr_x = 32 ∧
    (vidPrintRotateInit sc text)._vpr_sz = ((8 * letters text : Nat) : Int) := by
  refine ⟨rfl, ?_⟩
  show int16 ((letters text : Int) * 8) = _
  unfold int16
  omega

theorem vidPrintTextLoop_timer (font : Font) (g : Nat → Locals) (posY : Int) (text : List Int)
    (i : Nat) (posX : Int) (s : Driver) :
    (vidPrintTextLoop font g posY text i posX s).timer_running = s.timer_running := by
  induction text generalizing i posX s with
  | nil => rfl
  | cons ch rest ih =>
    simp only [vidPrintTextLoop]
    split
    · rfl
    · split
      · split <;> rfl
      · rw [ih]
        split <;> rfl

theorem vidPrintText_timer (font : Font) (s : Driver) (g : Nat → Locals) (text : List Int)
    (posX posY : Int) :
    (vidPrintText font s g text posX posY).timer_running = s.timer_running :=
  vidPrintTextLoop_timer font g posY text 0 posX s

theorem vidSetPower_timer (m : Machine) (intensity : Nat) (pausetimer : Bool) :
    (vidSetPower m intensity pausetimer).drv.timer_running
      = (pausetimer || m.drv.timer_running) := by
  cases pausetimer <;> rfl

theorem vidOn_timer (m : Machine) : (vidOn m).drv.timer_running = true := rfl

theorem vidOff_timer (m : Machine) : (vidOff m).drv.timer_running = false := rfl

theorem vidSwitchBuffers_timer (s : Driver) : (vidSwitchBuffers s).timer_running = true := rfl

theorem vidPrintRotate_timer (font : Font) (sc : Scroller) (g : Nat → Locals) :
    (vidPrintRotate font sc g).drv.timer_running = true := rfl

theorem exec_quiet (font : Font) (op : Op) (d : Device) (h : op.quiet = true) :
    (exec font op d).machine.drv.timer_running = d.machine.drv.timer_running := by
  cases op with
  | vidSetPower intensity pausetimer =>
    have hp : pausetimer = false := by simpa [Op.quiet] using h
    show (vidSetPower d.machine intensity pausetimer).drv.timer_running = _
    rw [vidSetPower_timer, hp]
    rfl
  | vidOn => exact absurd h (by decide)
  | vidOff => exact absurd h (by decide)
  | vidClear => rfl
  | vidSwitchBuffers => exact absurd h (by decide)
  | vidDrawImage g pos_x pos_y img_w img_h img_a img_b img_c img_d => rfl
  | vidPrintText g text posX posY => exact vidPrintText_timer font _ g text posX posY
  | vidPrintRotateInit text => rfl
  | vidPrintRotate g => exact absurd h (by simp [Op.quiet])
  | vidPutPixel pos_x pos_y pixel => rfl

theorem exec_starts (font : Font) (op : Op) (d : Device) (h : op.starts = true) :
    (exec font op d).machine.drv.timer_running = true := by
  cases op with
  | vidSetPower intensity pausetimer =>
    have hp : pausetimer = true := by simpa [Op.starts] using h
    show (vidSetPower d.machine intensity pausetimer).drv.timer_running = _
    rw [vidSetPower_timer, hp]
    rfl
  | vidOn => rfl
  | vidOff => exact absurd h (by decide)
  | vidClear => exact absurd h (by decide)
  | vidSwitchBuffers => rfl
  | vidDrawImage g pos_x pos_y img_w img_h img_a img_b img_c img_d =>
    exact absurd h (by simp [Op.starts])
  | vidPrintText g text posX posY => exact absurd h (by simp [Op.starts])
  | vidPrintRotateInit text => exact absurd h (by simp [Op.starts])
  | vidPrintRotate g => rfl
  | vidPutPixel pos_x pos_y pixel => exact absurd h (by simp [Op.starts])

theorem run_quiet (font : Font) (ops : List Op) (d : Device)
    (h : ∀ op ∈ ops, op.quiet = true) :
    (run font ops d).machine.drv.timer_running = d.machine.drv.timer_running := by
  induction ops generalizing d with
  | nil => rfl
  | cons op ops ih =>
    show (run font ops (exec font op d)).machine.drv.timer_running = _
    rw [ih _ (fun o ho => h o (List.mem_cons_of_mem _ ho)),
      exec_quiet font op d (h op (List.mem_cons_self _ _))]

theorem run_append (font : Font) (ops1 ops2 : List Op) (d : Device) :
    run font (ops1 ++ ops2) d = run font ops2 (run font ops1 d) := by
  induction ops1 generalizing d with
  | nil => rfl
  | cons op ops ih => exact ih (exec font op d)

theorem op_classes (op : Op) :
    (op.quiet = true ∧ op.starts = false) ∨ (op.quiet = false ∧ op.starts = true) ∨
      (op.quiet = false ∧ op.starts = false ∧ ∀ (font : Font) (d : Device),
        exec font op d = exec font Op.vidOff d) := by
  cases op with
  | vidSetPower intensity pausetimer => cases pausetimer <;> simp [Op.quiet, Op.starts]
  | vidOn => right; left; exact ⟨rfl, rfl⟩
  | vidOff => right; right; exact ⟨rfl, rfl, fun _ _ => rfl⟩
  | vidClear => left; exact ⟨rfl, rfl⟩
  | vidSwitchBuffers => right; left; exact ⟨rfl, rfl⟩
  | vidDrawImage g pos_x pos_y img_w img_h img_a img_b img_c img_d => left; exact ⟨rfl, rfl⟩
  | vidPrintText g text posX posY => left; exact ⟨rfl, rfl⟩
  | vidPrintRotateInit text => left; exact ⟨rfl, rfl⟩
  | vidPrintRotate g => right; left; exact ⟨rfl, rfl⟩
  | vidPutPixel pos_x pos_y pixel => left; exact ⟨rfl, rfl⟩
/-! ## The claims -/

/-- C10: in every state reachable from construction by drawing operations and
buffer swaps, `vidClear` sets every byte of the four draw planes to 0, so that
every pixel read from the draw planes is 0, and leaves every byte of the four
display planes unchanged. -/
theorem vidClear_zeroes_draw_planes_only (s : Driver) (h : Reachable s) :
    (∀ i, i < 32 →
      (vidClear s).vid_buffer ((vidClear s).vid_draw_buffer_ref_a + i) = 0 ∧
      (vidClear s).vid_buffer ((vidClear s).vid_draw_buffer_ref_b + i) = 0 ∧
      (vidClear s).vid_buffer ((vidClear s).vid_draw_buffer_ref_c + i) = 0 ∧
      (vidClear s).vid_buffer ((vidClear s).vid_draw_buffer_ref_d + i) = 0) ∧
    (∀ x y : Int, 0 ≤ x → x < 32 → 0 ≤ y → y < 8 →
      vidGetPixel x y 32 8
        (planeAt (vidClear s).vid_buffer (vidClear s).vid_draw_buffer_ref_a)
        (planeAt (vidClear s).vid_buffer (vidClear s).vid_draw_buffer_ref_b)
        (planeAt (vidClear s).vid_buffer (vidClear s).vid_draw_buffer_ref_c)
        (planeAt (vidClear s).vid_buffer (vidClear s).vid_draw_buffer_ref_d) = 0) ∧
    (∀ i, i < 32 →
      (vidClear s).vid_buffer (s.vid_blit_buffer_ref_a + i) = s.vid_buffer (s.vid_blit_buffer_ref_a + i) ∧
      (vidClear s).vid_buffer (s.vid_blit_buffer_ref_b + i) = s.vid_buffer (s.vid_blit_buffer_ref_b + i) ∧
      (vidClear s).vid_buffer (s.vid_blit_buffer_ref_c + i) = s.vid_buffer (s.vid_blit_buffer_ref_c + i) ∧
      (vidClear s).vid_buffer (s.vid_blit_buffer_ref_d + i) = s.vid_buffer (s.vid_blit_buffer_ref_d + i)) := by
  have hr := reachable_roleCycle s h
  have hdraw : ∀ i, i < 32 →
      (vidClear s).vid_buffer (s.vid_draw_buffer_ref_a + i) = 0 ∧
      (vidClear s).vid_buffer (s.vid_draw_buffer_ref_b + i) = 0 ∧
      (vidClear s).vid_buffer (s.vid_draw_buffer_ref_c + i) = 0 ∧
      (vidClear s).vid_buffer (s.vid_draw_buffer_ref_d + i) = 0 := by
    intro i hi
    simp only [vidClear_buffer]
    unfold RoleCycle InitialRoles at hr
    simp only [VID_BUF_0a, VID_BUF_0b, VID_BUF_0c, VID_BUF_0d,
      VID_BUF_1a, VID_BUF_1b, VID_BUF_1c, VID_BUF_1d] at hr
    rcases hr with ⟨-, -, -, -, ha, hb, hc, hd⟩ | ⟨-, -, -, -, ha, hb, hc, hd⟩ |
      ⟨-, -, -, -, ha, hb, hc, hd⟩ <;>
    · rw [ha, hb, hc, hd]
      refine ⟨?_, ?_, ?_, ?_⟩ <;> rw [if_pos] <;> omega
  refine ⟨hdraw, ?_, ?_⟩
  · intro x y hx0 hx1 hy0 hy1
    have hoff : (x / 8 + y * ((img_wbyte 32 : Nat) : Int)).toNat < 32 := by
      rw [img_wbyte_32]; omega
    obtain ⟨h1, h2, h3, h4⟩ := hdraw _ hoff
    exact vidGetPixel_zero x y 32 8 _ _ _ _ h1 h2 h3 h4
  · intro i hi
    simp only [vidClear_buffer]
    unfold RoleCycle InitialRoles at hr
    simp only [VID_BUF_0a, VID_BUF_0b, VID_BUF_0c, VID_BUF_0d,
      VID_BUF_1a, VID_BUF_1b, VID_BUF_1c, VID_BUF_1d] at hr
    rcases hr with ⟨ha, hb, hc, hd, he, -, -, -⟩ | ⟨ha, hb, hc, hd, he, -, -, -⟩ |
      ⟨ha, hb, hc, hd, he, -, -, -⟩ <;>
    · rw [ha, hb, hc, hd, he]
      refine ⟨?_, ?_, ?_, ?_⟩ <;> rw [if_neg] <;> omega

/-- Witness for C10 at the freshly constructed driver. -/
theorem vidClear_zeroes_draw_planes_only_witness :
    Reachable construct ∧
    (vidClear construct).vid_buffer ((vidClear construct).vid_draw_buffer_ref_d + 31) = 0 :=
  ⟨Reachable.init, ((vidClear_zeroes_draw_planes_only construct Reachable.init).1 31 (by decide)).2.2.2⟩

/-- C3 (evaluation at the failing input): on the freshly constructed driver
`vidSwitchBuffers` gives display plane C the former draw reference of plane D
(224) instead of that of plane C (192), and draw plane C the former display
reference of plane D (96) instead of that of plane C (64); a pixel of value 2
(plane C only) put at (0,0) before the swap reads 2 from the draw planes
before the swap and 0 from the display planes after it. -/
theorem vidSwitchBuffers_plane_c_not_exchanged :
    construct.vid_draw_buffer_ref_c = 192 ∧
    (vidSwitchBuffers construct).vid_blit_buffer_ref_c = 224 ∧
    construct.vid_blit_buffer_ref_c = 64 ∧
    (vidSwitchBuffers construct).vid_draw_buffer_ref_c = 96 ∧
    vidGetPixel 0 0 32 8
      (planeAt (vidPutPixel construct 0 0 2).vid_buffer (vidPutPixel construct 0 0 2).vid_draw_buffer_ref_a)
      (planeAt (vidPutPixel construct 0 0 2).vid_buffer (vidPutPixel construct 0 0 2).vid_draw_buffer_ref_b)
      (planeAt (vidPutPixel construct 0 0 2).vid_buffer (vidPutPixel construct 0 0 2).vid_draw_buffer_ref_c)
      (planeAt (vidPutPixel construct 0 0 2).vid_buffer (vidPutPixel construct 0 0 2).vid_draw_buffer_ref_d) = 2 ∧
    vidGetPixel 0 0 32 8
      (planeAt (vidSwitchBuffers (vidPutPixel construct 0 0 2)).vid_buffer
        (vidSwitchBuffers (vidPutPixel construct 0 0 2)).vid_blit_buffer_ref_a)
      (planeAt (vidSwitchBuffers (vidPutPixel construct 0 0 2)).vid_buffer
        (vidSwitchBuffers (vidPutPixel construct 0 0 2)).vid_blit_buffer_ref_b)
      (planeAt (vidSwitchBuffers (vidPutPixel construct 0 0 2)).vid_buffer
        (vidSwitchBuffers (vidPutPixel construct 0 0 2)).vid_blit_buffer_ref_c)
      (planeAt (vidSwitchBuffers (vidPutPixel construct 0 0 2)).vid_buffer
        (vidSwitchBuffers (vidPutPixel construct 0 0 2)).vid_blit_buffer_ref_d) = 0 := by
  decide

/-- C4 (counterexample): on the constructed driver, after
`vidPutPixel(5, 3, 11)` bit 2 of byte 12 of draw plane A is set (bit 3 of 11),
but `vidGetPixel(5, 3, 32, 8, ..)` called with the addresses of the four draw
planes reads program memory, not `vid_buffer`: with `vid_buffer` at address
`0x100` and a program memory that holds 0 at the addresses read, it returns 0,
not 11; and whatever the program memory holds, the call returns the same value
after `vidPutPixel(5, 3, 0)` and after `vidPutPixel(5, 3, 15)`. -/
theorem vidGetPixel_reads_program_memory :
    ((vidPutPixel construct 5 3 11).vid_buffer (128 + 12)).testBit 2 = true ∧
    vidGetPixelAtDrawPlanes (fun _ => 0) 0x100 (vidPutPixel construct 5 3 11) 5 3 = 0 ∧
    (∀ (flash : Nat → Nat) (vid_buffer_addr : Nat),
      vidGetPixelAtDrawPlanes flash vid_buffer_addr (vidPutPixel construct 5 3 0) 5 3
        = vidGetPixelAtDrawPlanes flash vid_buffer_addr (vidPutPixel construct 5 3 15) 5 3) :=
  ⟨by decide, by decide, fun _ _ => rfl⟩

/-- C4 (amended): in the initial role assignment, for every buffer content,
every `0 ≤ x < 32`, `0 ≤ y < 8` and every `v < 16`, after
`vidPutPixel(x, y, v)` the bit at position `7 - x % 8` of byte `(y*32 + x) >> 3`
is bit 3 of `v` in draw plane A, bit 2 in plane B, bit 1 in plane C and bit 0
in plane D; `vidGetPixel(x, y, 32, 8, ..)` returns `v` when it is applied to
four bitmap planes (in program memory) whose 32 bytes equal the bytes of the
four draw planes; applied to the addresses of the draw planes themselves it
reads program memory, and its result is the same as before the
`vidPutPixel`. -/
theorem vidPutPixel_vidGetPixel_roundtrip (s : Driver) (hs : InitialRoles s)
    (x y : Int) (v : Nat) (hx0 : 0 ≤ x) (hx1 : x < 32) (hy0 : 0 ≤ y) (hy1 : y < 8)
    (hv : v < 16) (img_a img_b img_c img_d : Nat → Nat)
    (ha : ∀ off, off < 32 →
      img_a off = (vidPutPixel s x y v).vid_buffer (s.vid_draw_buffer_ref_a + off))
    (hb : ∀ off, off < 32 →
      img_b off = (vidPutPixel s x y v).vid_buffer (s.vid_draw_buffer_ref_b + off))
    (hc : ∀ off, off < 32 →
      img_c off = (vidPutPixel s x y v).vid_buffer (s.vid_draw_buffer_ref_c + off))
    (hd : ∀ off, off < 32 →
      img_d off = (vidPutPixel s x y v).vid_buffer (s.vid_draw_buffer_ref_d + off)) :
    vidGetPixel x y 32 8 img_a img_b img_c img_d = v ∧
    ((vidPutPixel s x y v).vid_buffer
        (s.vid_draw_buffer_ref_a + ((y * 32 + x) / 8).toNat)).testBit (7 - (x % 8).toNat)
      = v.testBit 3 ∧
    ((vidPutPixel s x y v).vid_buffer
        (s.vid_draw_buffer_ref_b + ((y * 32 + x) / 8).toNat)).testBit (7 - (x % 8).toNat)
      = v.testBit 2 ∧
    ((vidPutPixel s x y v).vid_buffer
        (s.vid_draw_buffer_ref_c + ((y * 32 + x) / 8).toNat)).testBit (7 - (x % 8).toNat)
      = v.testBit 1 ∧
    ((vidPutPixel s x y v).vid_buffer
        (s.vid_draw_buffer_ref_d + ((y * 32 + x) / 8).toNat)).testBit (7 - (x % 8).toNat)
      = v.testBit 0 ∧
    (∀ (flash : Nat → Nat) (vid_buffer_addr : Nat),
      vidGetPixelAtDrawPlanes flash vid_buffer_addr (vidPutPixel s x y v) x y
        = vidGetPixelAtDrawPlanes flash vid_buffer_addr s x y) := by
  obtain ⟨-, -, -, -, ra, rb, rc, rd⟩ := hs
  simp only [VID_BUF_1a, VID_BUF_1b, VID_BUF_1c, VID_BUF_1d] at ra rb rc rd
  have hk : (x / 8 + y * ((img_wbyte 32 : Nat) : Int)).toNat = ((y * 32 + x) / 8).toNat := by
    rw [img_wbyte_32]; omega
  have hoff : ((y * 32 + x) / 8).toNat < 32 := by omega
  have hsh : byteOfInt (7 - Int.tmod x 8) = 7 - (x % 8).toNat := by
    rw [Int.tmod_eq_emod hx0 (by norm_num)]; unfold byteOfInt; omega
  have hsh8 : 7 - (x % 8).toNat < 8 := by omega
  obtain ⟨ca, cb, cc, cd⟩ := vidPutPixel_cells s x y v
    (s.vid_draw_buffer_ref_a + ((y * 32 + x) / 8).toNat)
    (s.vid_draw_buffer_ref_b + ((y * 32 + x) / 8).toNat)
    (s.vid_draw_buffer_ref_c + ((y * 32 + x) / 8).toNat)
    (s.vid_draw_buffer_ref_d + ((y * 32 + x) / 8).toNat)
    (by rw [ra]; unfold byteOfInt VID_DISPLAY_W; omega)
    (by rw [rb]; unfold byteOfInt VID_DISPLAY_W; omega)
    (by rw [rc]; unfold byteOfInt VID_DISPLAY_W; omega)
    (by rw [rd]; unfold byteOfInt VID_DISPLAY_W; omega)
    (by omega) (by omega) (by omega) (by omega) (by omega) (by omega)
  obtain ⟨ta, tb, tc, td, hsum, ba, bb, bc, bd⟩ := pixel_bits_small v hv
  rw [hsh] at ca cb cc cd
  obtain ⟨a8, -, -, -, abit⟩ := putByte_read (s.vid_buffer
    (s.vid_draw_buffer_ref_a + ((y * 32 + x) / 8).toNat)) _ _ hsh8 ta
  obtain ⟨-, b4, -, -, bbit⟩ := putByte_read (s.vid_buffer
    (s.vid_draw_buffer_ref_b + ((y * 32 + x) / 8).toNat)) _ _ hsh8 tb
  obtain ⟨-, -, c2, -, cbit⟩ := putByte_read (s.vid_buffer
    (s.vid_draw_buffer_ref_c + ((y * 32 + x) / 8).toNat)) _ _ hsh8 tc
  obtain ⟨-, -, -, d1, dbit⟩ := putByte_read (s.vid_buffer
    (s.vid_draw_buffer_ref_d + ((y * 32 + x) / 8).toNat)) _ _ hsh8 td
  refine ⟨?_, ?_, ?_, ?_, ?_, fun _ _ => rfl⟩
  · simp only [vidGetPixel, pgm_read_byte_near, hk, hsh, ha _ hoff, hb _ hoff, hc _ hoff,
      hd _ hoff, ca, cb, cc, cd, a8, b4, c2, d1]
    omega
  · rw [ca, abit, ba]
  · rw [cb, bbit, bb]
  · rw [cc, cbit, bc]
  · rw [cd, dbit, bd]

/-- Witness for C4 (amended): value 11 at (5, 3) on the freshly constructed
driver; the draw planes A, C and D then hold `0b00000100` in byte 12 and plane
B holds 0, and `vidGetPixel` on bitmap planes with these bytes returns 11. -/
theorem vidPutPixel_vidGetPixel_roundtrip_witness :
    vidGetPixel 5 3 32 8 (planeByte 12 4) plane0 (planeByte 12 4) (planeByte 12 4) = 11 :=
  (vidPutPixel_vidGetPixel_roundtrip construct
    ⟨rfl, rfl, rfl, rfl, rfl, rfl, rfl, rfl⟩ 5 3 11
    (by decide) (by decide) (by decide) (by decide) (by decide)
    (planeByte 12 4) plane0 (planeByte 12 4) (planeByte 12 4)
    (by decide) (by decide) (by decide) (by decide)).1

/-- C2 (evaluation at the failing input): on the freshly constructed driver
(all-zero draw buffer, initial roles) a 16x1 bitmap whose plane A row is
`0xFF 0x00` drawn at `pos_x = -8` leaves `0xFF` in byte 0 of draw plane A
(columns 0-7), although the bitmap pixels 8-15 that belong there are all 0:
`shift_x` is 8 instead of 0, and the bitmap appears at column 0 as if drawn at
`pos_x = 0`.  At `pos_x = -4` an 8-wide bitmap `0xB7` does put its right half
on columns 0-3 and nothing on columns 4-7. -/
theorem vidDrawImage_left_clip_multiple_of_eight :
    shift_x (-8) = 8 ∧
    pgm_read_byte_near (plane2 0xFF 0) 1 = 0 ∧
    (vidDrawImage construct locals0 (-8) 0 16 1 (plane2 0xFF 0) plane0 plane0 plane0).vid_buffer 128
      = 0xFF ∧
    (vidDrawImage construct locals0 (-4) 0 8 1 (plane2 0xB7 0) plane0 plane0 plane0).vid_buffer 128
      = 0x70 := by
  decide

/-- C5 (evaluation at the failing input): after `vidPutPixel(0, 0, 15)` and
`vidSwitchBuffers()` on the constructed driver, display plane A starts at 128
and its byte 0 holds `0x80`; `vidDrawImage(32, 0, 8, 8, ..)`, a bitmap wholly
right of the screen, then clears that byte of the display plane: in row 7 the
entry mask is applied at `vid_draw_buffer_ref_d + 32 = 128`. -/
theorem vidDrawImage_offscreen_right_writes_display :
    Reachable (vidSwitchBuffers (vidPutPixel construct 0 0 15)) ∧
    (vidSwitchBuffers (vidPutPixel construct 0 0 15)).vid_blit_buffer_ref_a = 128 ∧
    (vidSwitchBuffers (vidPutPixel construct 0 0 15)).vid_draw_buffer_ref_d = 96 ∧
    (vidSwitchBuffers (vidPutPixel construct 0 0 15)).vid_buffer 128 = 0x80 ∧
    (vidDrawImage (vidSwitchBuffers (vidPutPixel construct 0 0 15)) locals0 32 0 8 8
      (plane2 0xFF 0) plane0 plane0 plane0).vid_buffer 128 = 0 :=
  ⟨Reachable.switchBuffers (Reachable.putPixel 0 0 15 Reachable.init),
    by decide, by decide, by decide, by decide⟩

/-- C6 (evaluation at the failing inputs): with pixel (0, 1) lit, a bitmap
drawn at `pos_x = 32` (wholly right of the screen) in row 0 clears byte 0 of
row 1 of draw plane A (index 128 + 4) through the entry mask; and an 8-wide
bitmap drawn at `pos_x = -8` (wholly left of the screen, `pos_x + w = 0`)
writes its byte into columns 0-7. -/
theorem vidDrawImage_offscreen_writes :
    (vidPutPixel construct 0 1 15).vid_buffer 132 = 0x80 ∧
    (vidDrawImage (vidPutPixel construct 0 1 15) locals0 32 0 8 1
      (plane2 0xFF 0) plane0 plane0 plane0).vid_buffer 132 = 0 ∧
    construct.vid_buffer 128 = 0 ∧
    (vidDrawImage construct locals0 (-8) 0 8 1 (plane2 0xFF 0) plane0 plane0 plane0).vid_buffer 128
      = 0xFF := by
  decide

/-- C7 (evaluation at the failing input): with pixel (1, 0) lit in the draw
buffer, drawing the 1x1 bitmap `0x80` (padding bits 0) at (0, 0) leaves `0x80`
in byte 0 of draw plane A: pixel (1, 0), outside the 1x1 rectangle, went from
lit (`0xC0` would keep it) to dark.  The exit mask `0x7F` is computed but the
restore is applied to byte 1, from a value read after the entry mask. -/
theorem vidDrawImage_narrow_bitmap_clears_right_neighbours :
    (vidPutPixel construct 1 0 15).vid_buffer 128 = 0x40 ∧
    shift_enter_mask 0 = 0 ∧ shift_leave_mask 0 1 = 0x7F ∧
    (vidDrawImage (vidPutPixel construct 1 0 15) locals0 0 0 1 1
      (plane2 0x80 0) plane0 plane0 plane0).vid_buffer 128 = 0x80 := by
  decide

/-- C9: `vidDrawImage` is idempotent.  For every driver state (any buffer
content and any plane references), every bitmap and every position with
`pos_x < 32` and `0 < pos_x + img_w` (the bitmap is at least partly inside the
columns of the screen; any `pos_y`), a second call with the same arguments
leaves the state that the first call left, whatever the uninitialised locals
of either call hold. -/
theorem vidDrawImage_idempotent (s : Driver) (g g' : Locals) (pos_x pos_y : Int)
    (img_w img_h : Nat) (img_a img_b img_c img_d : Nat → Nat)
    (hx : pos_x < 32) (hw : 0 < pos_x + (img_w : Int)) :
    vidDrawImage (vidDrawImage s g pos_x pos_y img_w img_h img_a img_b img_c img_d) g'
        pos_x pos_y img_w img_h img_a img_b img_c img_d
      = vidDrawImage s g pos_x pos_y img_w img_h img_a img_b img_c img_d := by
  obtain ⟨F, hF, hEq⟩ :=
    vidDrawImage_bitwise s pos_x pos_y img_w img_h img_a img_b img_c img_d hx hw
  have h1 := hEq s.vid_buffer g
  have h1' : vidDrawImage s g pos_x pos_y img_w img_h img_a img_b img_c img_d
      = { s with vid_buffer := F s.vid_buffer } := h1
  rw [h1']
  have h2 := hEq (F s.vid_buffer) g'
  rw [h2, bitwise_idem hF]

/-- Witness for C9: an 8x1 bitmap drawn twice at (3, 0) on the constructed
driver. -/
theorem vidDrawImage_idempotent_witness :
    vidDrawImage (vidDrawImage construct locals0 3 0 8 1 (plane2 0xB0 0) plane0 plane0 plane0)
        locals0 3 0 8 1 (plane2 0xB0 0) plane0 plane0 plane0
      = vidDrawImage construct locals0 3 0 8 1 (plane2 0xB0 0) plane0 plane0 plane0 :=
  vidDrawImage_idempotent construct locals0 locals0 3 0 8 1 (plane2 0xB0 0) plane0 plane0 plane0
    (by decide) (by decide)

/-- C1: in the initial role assignment and on an all-zero draw buffer, for
every bitmap of byte width `img_w` and height `img_h` whose row padding bits
are 0 in each plane, every `0 ≤ pos_x < 32` and every `pos_y`, each draw-buffer
pixel `(c, r)` with `c < 32`, `r < 8` after `vidDrawImage` equals, plane by
plane, the bitmap pixel `(c - pos_x, r - pos_y)` when that lies inside the
`img_w x img_h` bitmap and is 0 otherwise. -/
theorem vidDrawImage_translates_bitmap (s : Driver) (g : Locals) (pos_x pos_y : Int)
    (img_w img_h : Nat) (img_a img_b img_c img_d : Nat → Nat)
    (hs : InitialRoles s)
    (hz : ∀ i, 128 ≤ i → i < 256 → s.vid_buffer i = 0)
    (hw : img_w < 256) (hx0 : 0 ≤ pos_x) (hx32 : pos_x < 32)
    (hpad : ∀ img, img = img_a ∨ img = img_b ∨ img = img_c ∨ img = img_d →
      ∀ u v, v < img_h → img_w ≤ u → u < 8 * img_wbyte img_w →
        bitmapPixel img img_w u v = false)
    (c r : Nat) (hc : c < 32) (hr : r < 8) :
    bufferPixel (vidDrawImage s g pos_x pos_y img_w img_h img_a img_b img_c img_d).vid_buffer
        VID_BUF_1a c r
      = (decide (pos_x ≤ (c : Int) ∧ (c : Int) - pos_x < (img_w : Int) ∧
            pos_y ≤ (r : Int) ∧ (r : Int) - pos_y < (img_h : Int)) &&
          bitmapPixel img_a img_w ((c : Int) - pos_x).toNat ((r : Int) - pos_y).toNat) ∧
    bufferPixel (vidDrawImage s g pos_x pos_y img_w img_h img_a img_b img_c img_d).vid_buffer
        VID_BUF_1b c r
      = (decide (pos_x ≤ (c : Int) ∧ (c : Int) - pos_x < (img_w : Int) ∧
            pos_y ≤ (r : Int) ∧ (r : Int) - pos_y < (img_h : Int)) &&
          bitmapPixel img_b img_w ((c : Int) - pos_x).toNat ((r : Int) - pos_y).toNat) ∧
    bufferPixel (vidDrawImage s g pos_x pos_y img_w img_h img_a img_b img_c img_d).vid_buffer
        VID_BUF_1c c r
      = (decide (pos_x ≤ (c : Int) ∧ (c : Int) - pos_x < (img_w : Int) ∧
            pos_y ≤ (r : Int) ∧ (r : Int) - pos_y < (img_h : Int)) &&
          bitmapPixel img_c img_w ((c : Int) - pos_x).toNat ((r : Int) - pos_y).toNat) ∧
    bufferPixel (vidDrawImage s g pos_x pos_y img_w img_h img_a img_b img_c img_d).vid_buffer
        VID_BUF_1d c r
      = (decide (pos_x ≤ (c : Int) ∧ (c : Int) - pos_x < (img_w : Int) ∧
            pos_y ≤ (r : Int) ∧ (r : Int) - pos_y < (img_h : Int)) &&
          bitmapPixel img_d img_w ((c : Int) - pos_x).toNat ((r : Int) - pos_y).toNat) :=
  ⟨vidDrawImage_pixel_zero s hs g pos_x pos_y img_w img_h img_a img_b img_c img_d hz hw hx0 hx32
      128 img_a (Or.inl ⟨rfl, rfl⟩) (hpad img_a (Or.inl rfl)) c r hc hr,
    vidDrawImage_pixel_zero s hs g pos_x pos_y img_w img_h img_a img_b img_c img_d hz hw hx0 hx32
      160 img_b (Or.inr (Or.inl ⟨rfl, rfl⟩)) (hpad img_b (Or.inr (Or.inl rfl))) c r hc hr,
    vidDrawImage_pixel_zero s hs g pos_x pos_y img_w img_h img_a img_b img_c img_d hz hw hx0 hx32
      192 img_c (Or.inr (Or.inr (Or.inl ⟨rfl, rfl⟩))) (hpad img_c (Or.inr (Or.inr (Or.inl rfl))))
      c r hc hr,
    vidDrawImage_pixel_zero s hs g pos_x pos_y img_w img_h img_a img_b img_c img_d hz hw hx0 hx32
      224 img_d (Or.inr (Or.inr (Or.inr ⟨rfl, rfl⟩))) (hpad img_d (Or.inr (Or.inr (Or.inr rfl))))
      c r hc hr⟩

/-- Witness for C1: the 8x1 bitmap whose plane A byte is `0b10110000`, drawn
at (3, 0) on the constructed driver; pixel (5, 0) of draw plane A is bitmap
pixel (2, 0).  The bytes of the first row are `0b00010110` and `0`; drawn at
(0, 0) the first byte is `0b10110000`. -/
theorem vidDrawImage_translates_bitmap_witness :
    bufferPixel (vidDrawImage construct locals0 3 0 8 1 (plane2 0xB0 0) plane0 plane0
        plane0).vid_buffer VID_BUF_1a 5 0 = true ∧
    (vidDrawImage construct locals0 3 0 8 1 (plane2 0xB0 0) plane0 plane0 plane0).vid_buffer 128
      = 0x16 ∧
    (vidDrawImage construct locals0 3 0 8 1 (plane2 0xB0 0) plane0 plane0 plane0).vid_buffer 129
      = 0 ∧
    (vidDrawImage construct locals0 0 0 8 1 (plane2 0xB0 0) plane0 plane0 plane0).vid_buffer 128
      = 0xB0 :=
  ⟨((vidDrawImage_translates_bitmap construct locals0 3 0 8 1 (plane2 0xB0 0) plane0 plane0
      plane0 ⟨rfl, rfl, rfl, rfl, rfl, rfl, rfl, rfl⟩ (fun _ _ _ => rfl) (by decide) (by decide)
      (by decide)
      (fun img _ u v _ h1 h2 => absurd h2 (by
        have : img_wbyte 8 = 1 := by decide
        omega))
      5 0 (by decide) (by decide)).1).trans (by decide),
    by decide, by decide, by decide⟩

/-- C11 (evaluation at the failing input): on the freshly constructed driver
two consecutive `vidSwitchBuffers` calls restore the references of planes A, B
and D and leave the frame memory as it was, but draw plane C ends at 224 (it
was 192) and display plane C ends at 96 (it was 64). -/
theorem vidSwitchBuffers_twice_loses_plane_c :
    construct.vid_draw_buffer_ref_c = 192 ∧ construct.vid_blit_buffer_ref_c = 64 ∧
    (vidSwitchBuffers (vidSwitchBuffers construct)).vid_draw_buffer_ref_c = 224 ∧
    (vidSwitchBuffers (vidSwitchBuffers construct)).vid_blit_buffer_ref_c = 96 ∧
    (vidSwitchBuffers (vidSwitchBuffers construct)).vid_draw_buffer_ref_a = 128 ∧
    (vidSwitchBuffers (vidSwitchBuffers construct)).vid_draw_buffer_ref_b = 160 ∧
    (vidSwitchBuffers (vidSwitchBuffers construct)).vid_draw_buffer_ref_d = 224 ∧
    (vidSwitchBuffers (vidSwitchBuffers construct)).vid_blit_buffer_ref_a = 0 ∧
    (vidSwitchBuffers (vidSwitchBuffers construct)).vid_blit_buffer_ref_b = 32 ∧
    (vidSwitchBuffers (vidSwitchBuffers construct)).vid_blit_buffer_ref_d = 96 ∧
    (vidSwitchBuffers (vidSwitchBuffers construct)).vid_buffer = construct.vid_buffer := by
  refine ⟨?_, ?_, ?_, ?_, ?_, ?_, ?_, ?_, ?_, ?_, rfl⟩ <;> decide

/-- C17 (evaluation at the failing input): at the negative multiples of 8 the
value stored in `shift_x` is 8, outside `[0, 8)`; at `pos_x = -3` it is 5 and
at `pos_x = 11` it is 3. -/
theorem shift_x_eight_at_negative_multiples :
    shift_x (-8) = 8 ∧ shift_x (-16) = 8 ∧ shift_x (-3) = 5 ∧ shift_x 11 = 3 := by
  decide

/-- C19: in the initial role assignment, for every buffer content, every
`0 ≤ x < 32`, `0 ≤ y < 8` and every `v < 16`, `vidPutPixel(x, y, v)` leaves
every byte of `vid_buffer` other than byte `(y*32 + x) >> 3` of the four draw
planes as it was, and in every byte it leaves each of the eight bits other
than bit `7 - x % 8` as it was; the plane references are not changed. -/
theorem vidPutPixel_changes_only_addressed_bits (s : Driver) (hs : InitialRoles s)
    (x y : Int) (v : Nat) (hx0 : 0 ≤ x) (hx1 : x < 32) (hy0 : 0 ≤ y) (hy1 : y < 8)
    (hv : v < 16) :
    (∀ i, i ≠ VID_BUF_1a + ((y * 32 + x) / 8).toNat → i ≠ VID_BUF_1b + ((y * 32 + x) / 8).toNat →
      i ≠ VID_BUF_1c + ((y * 32 + x) / 8).toNat → i ≠ VID_BUF_1d + ((y * 32 + x) / 8).toNat →
      (vidPutPixel s x y v).vid_buffer i = s.vid_buffer i) ∧
    (∀ i t, t < 8 → t ≠ 7 - (x % 8).toNat →
      ((vidPutPixel s x y v).vid_buffer i).testBit t = (s.vid_buffer i).testBit t) ∧
    InitialRoles (vidPutPixel s x y v) := by
  have hroles : InitialRoles (vidPutPixel s x y v) := hs
  obtain ⟨-, -, -, -, ra, rb, rc, rd⟩ := hs
  simp only [VID_BUF_1a, VID_BUF_1b, VID_BUF_1c, VID_BUF_1d] at ra rb rc rd ⊢
  have hsh : byteOfInt (7 - Int.tmod x 8) = 7 - (x % 8).toNat := by
    rw [Int.tmod_eq_emod hx0 (by norm_num)]; unfold byteOfInt; omega
  have hsh8 : 7 - (x % 8).toNat < 8 := by omega
  have ka : byteOfInt (s.vid_draw_buffer_ref_a + (y * VID_DISPLAY_W + x) / 8)
      = 128 + ((y * 32 + x) / 8).toNat := by
    rw [ra]; unfold byteOfInt VID_DISPLAY_W; omega
  have kb : byteOfInt (s.vid_draw_buffer_ref_b + (y * VID_DISPLAY_W + x) / 8)
      = 128 + 32 + ((y * 32 + x) / 8).toNat := by
    rw [rb]; unfold byteOfInt VID_DISPLAY_W; omega
  have kc : byteOfInt (s.vid_draw_buffer_ref_c + (y * VID_DISPLAY_W + x) / 8)
      = 128 + 64 + ((y * 32 + x) / 8).toNat := by
    rw [rc]; unfold byteOfInt VID_DISPLAY_W; omega
  have kd : byteOfInt (s.vid_draw_buffer_ref_d + (y * VID_DISPLAY_W + x) / 8)
      = 128 + 96 + ((y * 32 + x) / 8).toNat := by
    rw [rd]; unfold byteOfInt VID_DISPLAY_W; omega
  have hother : ∀ i, i ≠ 128 + ((y * 32 + x) / 8).toNat →
      i ≠ 128 + 32 + ((y * 32 + x) / 8).toNat →
      i ≠ 128 + 64 + ((y * 32 + x) / 8).toNat → i ≠ 128 + 96 + ((y * 32 + x) / 8).toNat →
      (vidPutPixel s x y v).vid_buffer i = s.vid_buffer i := by
    intro i h1 h2 h3 h4
    exact vidPutPixel_other s x y v i (by rw [ka]; exact h1) (by rw [kb]; exact h2)
      (by rw [kc]; exact h3) (by rw [kd]; exact h4)
  refine ⟨hother, ?_, ?_⟩
  · intro i t ht hne
    obtain ⟨ca, cb, cc, cd⟩ := vidPutPixel_cells s x y v _ _ _ _ ka kb kc kd
      (by omega) (by omega) (by omega) (by omega) (by omega) (by omega)
    obtain ⟨ta, tb, tc, td, -⟩ := pixel_bits_small v hv
    rw [hsh] at ca cb cc cd
    by_cases h1 : i = 128 + ((y * 32 + x) / 8).toNat
    · rw [h1, ca, putByte_other_bits _ _ _ _ hsh8 ta ht hne]
    by_cases h2 : i = 128 + 32 + ((y * 32 + x) / 8).toNat
    · rw [h2, cb, putByte_other_bits _ _ _ _ hsh8 tb ht hne]
    by_cases h3 : i = 128 + 64 + ((y * 32 + x) / 8).toNat
    · rw [h3, cc, putByte_other_bits _ _ _ _ hsh8 tc ht hne]
    by_cases h4 : i = 128 + 96 + ((y * 32 + x) / 8).toNat
    · rw [h4, cd, putByte_other_bits _ _ _ _ hsh8 td ht hne]
    rw [hother i h1 h2 h3 h4]
  · exact hroles

/-- Witness for C19: value 11 put at (5, 3) on the constructed driver leaves
byte 0 of the display buffer and bit 7 of byte 140 as they were. -/
theorem vidPutPixel_changes_only_addressed_bits_witness :
    (vidPutPixel construct 5 3 11).vid_buffer 0 = construct.vid_buffer 0 ∧
    ((vidPutPixel construct 5 3 11).vid_buffer 140).testBit 7
      = (construct.vid_buffer 140).testBit 7 :=
  ⟨(vidPutPixel_changes_only_addressed_bits construct ⟨rfl, rfl, rfl, rfl, rfl, rfl, rfl, rfl⟩
      5 3 11 (by decide) (by decide) (by decide) (by decide) (by decide)).1 0
      (by decide) (by decide) (by decide) (by decide),
    (vidPutPixel_changes_only_addressed_bits construct ⟨rfl, rfl, rfl, rfl, rfl, rfl, rfl, rfl⟩
      5 3 11 (by decide) (by decide) (by decide) (by decide) (by decide)).2.1 140 7
      (by decide) (by decide)⟩

/-- C20: in every state reachable from construction by drawing operations and
buffer swaps, each of the eight plane references is a multiple of 32 below
256; the four draw references lie in one 128-byte half of `vid_buffer`, with
draw plane A at the start of that half, and the four display references lie
in the other half; the 128 bytes that `vidClear` zeroes are exactly that half,
so every byte of every draw plane is zeroed and every byte of every display
plane is kept. -/
theorem reachable_plane_layout (s : Driver) (h : Reachable s) :
    (s.vid_blit_buffer_ref_a % 32 = 0 ∧ s.vid_blit_buffer_ref_a < 256 ∧
      s.vid_blit_buffer_ref_b % 32 = 0 ∧ s.vid_blit_buffer_ref_b < 256 ∧
      s.vid_blit_buffer_ref_c % 32 = 0 ∧ s.vid_blit_buffer_ref_c < 256 ∧
      s.vid_blit_buffer_ref_d % 32 = 0 ∧ s.vid_blit_buffer_ref_d < 256 ∧
      s.vid_draw_buffer_ref_a % 32 = 0 ∧ s.vid_draw_buffer_ref_a < 256 ∧
      s.vid_draw_buffer_ref_b % 32 = 0 ∧ s.vid_draw_buffer_ref_b < 256 ∧
      s.vid_draw_buffer_ref_c % 32 = 0 ∧ s.vid_draw_buffer_ref_c < 256 ∧
      s.vid_draw_buffer_ref_d % 32 = 0 ∧ s.vid_draw_buffer_ref_d < 256) ∧
    ((s.vid_draw_buffer_ref_a = 0 ∧ s.vid_draw_buffer_ref_b < 128 ∧
        s.vid_draw_buffer_ref_c < 128 ∧ s.vid_draw_buffer_ref_d < 128 ∧
        128 ≤ s.vid_blit_buffer_ref_a ∧ 128 ≤ s.vid_blit_buffer_ref_b ∧
        128 ≤ s.vid_blit_buffer_ref_c ∧ 128 ≤ s.vid_blit_buffer_ref_d) ∨
      (s.vid_draw_buffer_ref_a = 128 ∧ 128 ≤ s.vid_draw_buffer_ref_b ∧
        128 ≤ s.vid_draw_buffer_ref_c ∧ 128 ≤ s.vid_draw_buffer_ref_d ∧
        s.vid_blit_buffer_ref_a < 128 ∧ s.vid_blit_buffer_ref_b < 128 ∧
        s.vid_blit_buffer_ref_c < 128 ∧ s.vid_blit_buffer_ref_d < 128)) ∧
    (∀ j, (vidClear s).vid_buffer j =
        if s.vid_draw_buffer_ref_a ≤ j ∧ j < s.vid_draw_buffer_ref_a + 128 then 0
        else s.vid_buffer j) ∧
    (∀ ref, ref = s.vid_draw_buffer_ref_a ∨ ref = s.vid_draw_buffer_ref_b ∨
        ref = s.vid_draw_buffer_ref_c ∨ ref = s.vid_draw_buffer_ref_d →
      ∀ i, i < 32 → (vidClear s).vid_buffer (ref + i) = 0) ∧
    (∀ ref, ref = s.vid_blit_buffer_ref_a ∨ ref = s.vid_blit_buffer_ref_b ∨
        ref = s.vid_blit_buffer_ref_c ∨ ref = s.vid_blit_buffer_ref_d →
      ∀ i, i < 32 → (vidClear s).vid_buffer (ref + i) = s.vid_buffer (ref + i)) := by
  have hr := reachable_roleCycle s h
  unfold RoleCycle InitialRoles at hr
  simp only [VID_BUF_0a, VID_BUF_0b, VID_BUF_0c, VID_BUF_0d,
    VID_BUF_1a, VID_BUF_1b, VID_BUF_1c, VID_BUF_1d] at hr
  refine ⟨?_, ?_, vidClear_buffer s, ?_, ?_⟩
  · rcases hr with ⟨h1, h2, h3, h4, h5, h6, h7, h8⟩ | ⟨h1, h2, h3, h4, h5, h6, h7, h8⟩ |
      ⟨h1, h2, h3, h4, h5, h6, h7, h8⟩ <;>
    · rw [h1, h2, h3, h4, h5, h6, h7, h8]; decide
  · rcases hr with ⟨h1, h2, h3, h4, h5, h6, h7, h8⟩ | ⟨h1, h2, h3, h4, h5, h6, h7, h8⟩ |
      ⟨h1, h2, h3, h4, h5, h6, h7, h8⟩ <;>
    · rw [h1, h2, h3, h4, h5, h6, h7, h8]; decide
  · intro ref href i hi
    rw [vidClear_buffer]
    rcases hr with ⟨h1, h2, h3, h4, h5, h6, h7, h8⟩ | ⟨h1, h2, h3, h4, h5, h6, h7, h8⟩ |
      ⟨h1, h2, h3, h4, h5, h6, h7, h8⟩ <;>
    · rw [h5, h6, h7, h8] at href
      rw [h5, if_pos]
      rcases href with e | e | e | e <;> omega
  · intro ref href i hi
    rw [vidClear_buffer]
    rcases hr with ⟨h1, h2, h3, h4, h5, h6, h7, h8⟩ | ⟨h1, h2, h3, h4, h5, h6, h7, h8⟩ |
      ⟨h1, h2, h3, h4, h5, h6, h7, h8⟩ <;>
    · rw [h1, h2, h3, h4] at href
      rw [h5, if_neg]
      rcases href with e | e | e | e <;> omega

/-- Witness for C20: the state after one swap (draw planes at 0, 32, 96, 96,
display planes at 128, 160, 224, 224). -/
theorem reachable_plane_layout_witness :
    Reachable (vidSwitchBuffers construct) ∧
    (vidSwitchBuffers construct).vid_draw_buffer_ref_a = 0 ∧
    (vidClear (vidSwitchBuffers construct)).vid_buffer
        ((vidSwitchBuffers construct).vid_draw_buffer_ref_d + 31) = 0 :=
  ⟨Reachable.switchBuffers Reachable.init, by decide,
    (reachable_plane_layout (vidSwitchBuffers construct)
      (Reachable.switchBuffers Reachable.init)).2.2.2.1 _ (Or.inr (Or.inr (Or.inr rfl))) 31
      (by decide)⟩

/-- C14: for every word `data` (the function keeps its low 16 bits) and every
byte value of the port, the writes of `vidWriteWord(data)` make exactly the 16
rising clock edges of `wordEvents data` and no chip-select edge: the data line
sampled at the k-th rising edge of bit 0 is bit `15 - k` of `data`; the data
line changes only in writes that leave the clock low; every value written
keeps all bits of `PORTB` other than bits 0 and 2, and so does the final
value.  The writes are appended to those made before the call. -/
theorem vidWriteWord_clocks_word_msb_first (data : Nat) (b : Bus) (hp : b.portb < 256) :
    (vidWriteWord data b).log
        = b.log ++ (vidWriteWord data { portb := b.portb, log := [] }).log ∧
    busEvents b.portb (vidWriteWord data { portb := b.portb, log := [] }).log
        = wordEvents data ∧
    (busEvents b.portb (vidWriteWord data { portb := b.portb, log := [] }).log).length = 16 ∧
    dataSetup b.portb (vidWriteWord data { portb := b.portb, log := [] }).log = true ∧
    (∀ v ∈ (vidWriteWord data { portb := b.portb, log := [] }).log,
      v &&& 0xFA = b.portb &&& 0xFA) ∧
    (vidWriteWord data b).portb &&& 0xFA = b.portb &&& 0xFA := by
  have hl := local_vidWriteWord data b
  obtain ⟨h1, h2, h3, h4, -, h6⟩ := clocked_vidWriteWord data b.portb hp
  rw [← wordEvents_eq] at h1
  refine ⟨hl.1, h1, ?_, h3, fun v hv => (h4 v hv).2, ?_⟩
  · show (busEvents b.portb (trace (vidWriteWord data) b.portb)).length = 16
    rw [h1]; rfl
  · rw [hl.2]; exact h6

/-- Witness for C14: the word `0x0A08` sent from the port value `0x02`
(chip-select high, clock and data low). -/
theorem vidWriteWord_clocks_word_msb_first_witness :
    busEvents 0x02 (vidWriteWord 0x0A08 { portb := 0x02, log := [] }).log
      = [Ev.clk false, Ev.clk false, Ev.clk false, Ev.clk false,
         Ev.clk true, Ev.clk false, Ev.clk true, Ev.clk false,
         Ev.clk false, Ev.clk false, Ev.clk false, Ev.clk false,
         Ev.clk true, Ev.clk false, Ev.clk false, Ev.clk false] :=
  (vidWriteWord_clocks_word_msb_first 0x0A08 { portb := 0x02, log := [] }
    (by decide)).2.1.trans (by decide)

/-- C12: one invocation of `vidBlit`, from any byte value of the port,
appends to the writes made so far a sequence of writes that the chips see as
32 words in index order `i = 0..31`, word `i` being
`(i / 4 + 1) * 256 + vid_buffer[curbuf + i]` (high byte the row address
`i / 4 + 1` in 1..8, low byte the byte `i` of the plane selected by
`vid_tick`), sent most significant bit first; chip-select is released and
asserted again before the words 0, 4, .., 28 (before word 0 it is only
asserted when it is already high) and released after word 31; the driver
state, and so `vid_buffer`, is not modified. -/
theorem vidBlit_streams_selected_plane (m : Machine) (curbuf0 : Nat)
    (hp : m.bus.portb < 256) :
    (vidBlit m curbuf0).drv = m.drv ∧
    (vidBlit m curbuf0).bus.log
      = m.bus.log ++
        (vidBlit { m with bus := { portb := m.bus.portb, log := [] } } curbuf0).bus.log ∧
    busEvents m.bus.portb
        (vidBlit { m with bus := { portb := m.bus.portb, log := [] } } curbuf0).bus.log
      = (List.range 32).flatMap
          (blitFrame m.drv.vid_buffer (curbuf m curbuf0) (m.bus.portb.testBit 1))
        ++ [Ev.csHigh] ∧
    (∀ i, i < 32 →
      ((i / 4 + 1) * 256 + m.drv.vid_buffer (curbuf m curbuf0 + i) % 256) / 256 = i / 4 + 1 ∧
      ((i / 4 + 1) * 256 + m.drv.vid_buffer (curbuf m curbuf0 + i) % 256) % 256
        = m.drv.vid_buffer (curbuf m curbuf0 + i) % 256 ∧
      1 ≤ i / 4 + 1 ∧ i / 4 + 1 ≤ 8) := by
  rw [vidBlit_fresh]
  refine ⟨rfl, ?_, ?_, ?_⟩
  · rw [vidBlit_bus]
    exact (local_blit m.drv.vid_buffer (curbuf m curbuf0) m.bus).1
  · obtain ⟨q, h, -⟩ := sent_blit m.drv.vid_buffer (curbuf m curbuf0) m.bus.portb hp
    exact h.1
  · intro i hi
    omega

/-- Witness for C12: a refresh of `machine0` (bit 7 of byte 0 of display plane
A set, tick 0, chip-select high): the chips see chip-select asserted and then
the word `0x0180` first. -/
theorem vidBlit_streams_selected_plane_witness :
    busEvents machine0.bus.portb
        (vidBlit { machine0 with bus := { portb := machine0.bus.portb, log := [] } } 0).bus.log
      = (List.range 32).flatMap
          (blitFrame machine0.drv.vid_buffer (curbuf machine0 0) (machine0.bus.portb.testBit 1))
        ++ [Ev.csHigh] ∧
    ((List.range 32).flatMap
          (blitFrame machine0.drv.vid_buffer (curbuf machine0 0) (machine0.bus.portb.testBit 1))
        ++ [Ev.csHigh]).take 17 = Ev.csLow :: wordEvents 0x0180 :=
  ⟨(vidBlit_streams_selected_plane machine0 0 (by decide)).2.2.1, by decide⟩

/-- C13: the constructor, run on any frame memory content and from any byte
value of the port, makes the chips see (after chip-select is released, if it
was low) exactly four bursts of four equal words, in this order: `0x0F00`
(test mode off), `0x0900` (no decode), `0x0A08` (intensity 8) and `0x0B07`
(scan limit), each burst between one assertion and one release of
chip-select.  The intensity byte is `0x08`, not `0x0F`; none of the words is
a shutdown-register word `0x0Cxx`; afterwards the 256 bytes of `vid_buffer`
are 0, the plane references hold their initial values, `vid_tick` is 0 and
the timer is not running. -/
theorem constructMachine_sends_setup_words (buf0 : Nat → Nat) (portb0 : Nat)
    (hp : portb0 < 256) :
    busEvents portb0 (constructMachine buf0 portb0).bus.log
      = (if portb0.testBit 1 then [] else [Ev.csHigh]) ++ burstEvents 0x0F00 ++
          burstEvents 0x0900 ++ burstEvents 0x0A08 ++ burstEvents 0x0B07 ∧
    VID_PWR_MAX % 256 = 0x08 ∧
    (∀ w ∈ [0x0F00, 0x0900, VID_PWR_MAX, 0x0B07], w / 256 ≠ 0x0C) ∧
    (∀ i, i < 256 → (constructMachine buf0 portb0).drv.vid_buffer i = 0) ∧
    InitialRoles (constructMachine buf0 portb0).drv ∧
    (constructMachine buf0 portb0).vid_tick = 0 ∧
    (constructMachine buf0 portb0).drv.timer_running = false := by
  refine ⟨?_, by decide, by decide, ?_, ⟨rfl, rfl, rfl, rfl, rfl, rfl, rfl, rfl⟩, rfl, rfl⟩
  · obtain ⟨q, h, -⟩ := sent_construct portb0 hp
    rw [constructMachine_bus]
    exact h.1
  · intro i hi
    rw [constructMachine_buffer, constructLoop_apply _ _ _ _ (by norm_num [VID_BUFSIZE]), if_pos ⟨Nat.zero_le _, hi⟩]

/-- Witness for C13: construction from the port value 0 (all lines low) on a
frame memory that holds `0xFF` everywhere. -/
theorem constructMachine_sends_setup_words_witness :
    busEvents 0 (constructMachine (fun _ => 0xFF) 0).bus.log
      = (if (0 : Nat).testBit 1 then [] else [Ev.csHigh]) ++ burstEvents 0x0F00 ++
          burstEvents 0x0900 ++ burstEvents 0x0A08 ++ burstEvents 0x0B07 ∧
    (constructMachine (fun _ => 0xFF) 0).drv.vid_buffer 255 = 0 :=
  ⟨(constructMachine_sends_setup_words (fun _ => 0xFF) 0 (by decide)).1,
    (constructMachine_sends_setup_words (fun _ => 0xFF) 0 (by decide)).2.2.2.1 255 (by decide)⟩

/-- C18: in every machine state reached from construction after `n`
invocations of `vidBlit` (interleaved in any way with drawing operations,
buffer swaps and intensity changes), `vid_tick` is `n % 4`, so it stays in
`{0, 1, 2, 3}`; the next invocation (the `n`-th, counting from 0) selects the
display plane reference A, B, C or D according to `n % 4 = 0, 1, 2, 3` and
streams the 32 bytes of that plane; four consecutive invocations select the
four display plane references in rotation, each once, and leave the driver
state as it is, so that for every byte index `i` and bit `t` the number of
these four refreshes whose byte `i` has bit `t` set is the number of display
planes whose byte `i` has bit `t` set. -/
theorem vidBlit_rotates_over_planes (n : Nat) (m : Machine) (h : Runs n m)
    (c0 c1 c2 c3 : Nat) :
    m.vid_tick = ((n % 4 : Nat) : Int) ∧
    (m.vid_tick = 0 ∨ m.vid_tick = 1 ∨ m.vid_tick = 2 ∨ m.vid_tick = 3) ∧
    (blitPlanes m.drv)[n % 4]? = some (curbuf m c0) ∧
    busEvents m.bus.portb
        (vidBlit { m with bus := { portb := m.bus.portb, log := [] } } c0).bus.log
      = (List.range 32).flatMap
          (blitFrame m.drv.vid_buffer (curbuf m c0) (m.bus.portb.testBit 1))
        ++ [Ev.csHigh] ∧
    [curbuf m c0, curbuf (vidBlit m c0) c1, curbuf (vidBlit (vidBlit m c0) c1) c2,
        curbuf (vidBlit (vidBlit (vidBlit m c0) c1) c2) c3]
      = (blitPlanes m.drv).rotate (n % 4) ∧
    (vidBlit (vidBlit (vidBlit (vidBlit m c0) c1) c2) c3).drv = m.drv ∧
    (∀ i t : Nat,
      ([curbuf m c0, curbuf (vidBlit m c0) c1, curbuf (vidBlit (vidBlit m c0) c1) c2,
          curbuf (vidBlit (vidBlit (vidBlit m c0) c1) c2) c3].filter
        (fun c => (m.drv.vid_buffer (c + i) % 256).testBit t)).length
      = ((blitPlanes m.drv).filter
        (fun c => (m.drv.vid_buffer (c + i) % 256).testBit t)).length) := by
  obtain ⟨ht, hp⟩ := runs_inv n m h
  have hk : n % 4 < 4 := Nat.mod_lt _ (by norm_num)
  have h4 := four_ticks m (n % 4) hk ht c0 c1 c2 c3
  refine ⟨ht, by omega, ?_, ?_, h4, rfl, ?_⟩
  · obtain ⟨a0, b0, e0, d0⟩ := curbuf_tick m c0
    have hk4 : n % 4 = 0 ∨ n % 4 = 1 ∨ n % 4 = 2 ∨ n % 4 = 3 := by omega
    rcases hk4 with e | e | e | e <;> rw [e] at ht ⊢
    · rw [a0 ht]; rfl
    · rw [b0 ht]; rfl
    · rw [e0 ht]; rfl
    · rw [d0 ht]; rfl
  · rw [vidBlit_fresh]
    obtain ⟨q, hs, -⟩ := sent_blit m.drv.vid_buffer (curbuf m c0) m.bus.portb hp
    exact hs.1
  · intro i t
    rw [h4]
    exact ((List.rotate_perm _ _).filter _).length_eq

/-- Witness for C18: the state after construction and one refresh; `vid_tick`
is 1. -/
theorem vidBlit_rotates_over_planes_witness :
    Runs 1 (vidBlit (constructMachine (fun _ => 0) 0) 0) ∧
    (vidBlit (constructMachine (fun _ => 0) 0) 0).vid_tick = ((1 % 4 : Nat) : Int) :=
  ⟨Runs.blit 0 (Runs.init _ _),
    (vidBlit_rotates_over_planes 1 (vidBlit (constructMachine (fun _ => 0) 0) 0)
      (Runs.blit 0 (Runs.init _ _)) 0 0 0 0).1⟩

/-- C15 (counterexample): for the one-character text `A` (`L = 8`), after
`vidPrintRotateInit` and exactly `L + 32 = 40` calls of `vidPrintRotate` the
offset `_vpr_x` is `-8`, not 32; it is 32 again after 41 calls. -/
theorem vidPrintRotate_offset_after_L_plus_32 :
    (vidPrintRotateTimes fontOnes (fun _ => locals0) 40
        (vidPrintRotateInit scroller0 [65]))._vpr_x = -8 ∧
    (vidPrintRotateTimes fontOnes (fun _ => locals0) 41
        (vidPrintRotateInit scroller0 [65]))._vpr_x = 32 := by
  constructor
  · exact (rotateTimes_x fontOnes (fun _ => locals0) 40 (vidPrintRotateInit scroller0 [65]) 8
      rfl (by decide) (by decide) (by decide)).1
  · rw [rotateTimes_succ]
    exact rotate_reset fontOnes (fun _ => locals0) _ 8
      (rotateTimes_x fontOnes (fun _ => locals0) 40 (vidPrintRotateInit scroller0 [65]) 8
        rfl (by decide) (by decide) (by decide)).2 (by decide)
      (rotateTimes_x fontOnes (fun _ => locals0) 40 (vidPrintRotateInit scroller0 [65]) 8
        rfl (by decide) (by decide) (by decide)).1

/-- C15 (amended): for every font, every text of `n` characters with
`L = 8 * n` and `L + 33 ≤ 32767` (no `int` overflow), after
`vidPrintRotateInit(text)` the offset `_vpr_x` is `32 - k` after `k` calls of
`vidPrintRotate` for every `k ≤ L + 32`, so it is `-L` after exactly `L + 32`
calls, and it has returned to its initial value 32 after exactly `L + 33`
calls. -/
theorem vidPrintRotate_period (font : Font) (g : Nat → Locals) (sc : Scroller)
    (text : List Int) (h : 8 * letters text + 33 ≤ 32767) :
    (∀ k : Nat, k ≤ 8 * letters text + 32 →
      (vidPrintRotateTimes font g k (vidPrintRotateInit sc text))._vpr_x = 32 - (k : Int)) ∧
    (vidPrintRotateTimes font g (8 * letters text + 32) (vidPrintRotateInit sc text))._vpr_x
      = -((8 * letters text : Nat) : Int) ∧
    (vidPrintRotateTimes font g (8 * letters text + 33) (vidPrintRotateInit sc text))._vpr_x
      = 32 := by
  obtain ⟨hx, hsz⟩ := init_fields sc text h
  have hk : ∀ k : Nat, k ≤ 8 * letters text + 32 →
      (vidPrintRotateTimes font g k (vidPrintRotateInit sc text))._vpr_x = 32 - (k : Int) ∧
      (vidPrintRotateTimes font g k (vidPrintRotateInit sc text))._vpr_sz
        = ((8 * letters text : Nat) : Int) := by
    intro k hk
    have := rotateTimes_x font g k (vidPrintRotateInit sc text) (8 * letters text) hsz h
      (by rw [hx]) (by rw [hx]; omega)
    rw [hx] at this
    exact this
  refine ⟨fun k hk' => (hk k hk').1, ?_, ?_⟩
  · rw [(hk _ (Nat.le_refl _)).1]; omega
  · rw [rotateTimes_succ]
    exact rotate_reset font g _ (8 * letters text) (hk _ (Nat.le_refl _)).2 h
      (by rw [(hk _ (Nat.le_refl _)).1]; omega)

/-- Witness for C15 (amended): the text `AB` (`L = 16`): the offset is 32
again after 49 calls. -/
theorem vidPrintRotate_period_witness :
    (vidPrintRotateTimes fontOnes (fun _ => locals0) (8 * letters [65, 66] + 33)
        (vidPrintRotateInit scroller0 [65, 66]))._vpr_x = 32 :=
  (vidPrintRotate_period fontOnes (fun _ => locals0) scroller0 [65, 66] (by decide)).2.2

set_option maxRecDepth 1000000 in
/-- C16 (evaluation at the failing input): with the 8x8 font whose plane A
glyphs are all ones, on the constructed driver, the five-character text
`AAAAA` printed at (0, 0) leaves 0 in byte 4 of draw plane A (row 1, columns
0-7), whereas its first four characters, and the four `vidDrawImage` calls
for the glyphs at columns 0, 8, 16 and 24, leave `0xFF` there: the loop
breaks only when `posX > 32`, so the fifth glyph is drawn at column 32, and
the entry mask of that call clears the first byte of the next row. -/
theorem vidPrintText_draws_glyph_at_column_32 :
    (vidPrintText fontOnes construct (fun _ => locals0) [65, 65, 65, 65, 65] 0 0).vid_buffer 132
      = 0 ∧
    (vidPrintText fontOnes construct (fun _ => locals0) [65, 65, 65, 65] 0 0).vid_buffer 132
      = 0xFF ∧
    (vidDrawImage (vidDrawImage (vidDrawImage (vidDrawImage construct
        locals0 0 0 8 8 (fun _ => 0xFF) plane0 plane0 plane0)
        locals0 8 0 8 8 (fun _ => 0xFF) plane0 plane0 plane0)
        locals0 16 0 8 8 (fun _ => 0xFF) plane0 plane0 plane0)
        locals0 24 0 8 8 (fun _ => 0xFF) plane0 plane0 plane0).vid_buffer 132 = 0xFF ∧
    (vidPrintText fontOnes construct (fun _ => locals0) [65, 65, 65, 65, 65] 0 0).vid_buffer 132
      = (vidDrawImage (vidPrintText fontOnes construct (fun _ => locals0) [65, 65, 65, 65] 0 0)
          locals0 32 0 8 8 (fun _ => 0xFF) plane0 plane0 plane0).vid_buffer 132 := by
  decide

/-- C21 (counterexample): right after construction the timer is stopped, yet
it is running after a single `vidSwitchBuffers`; it is running after `vidOff`
followed by `vidSwitchBuffers`, after `vidOff` followed by `vidPrintRotate`,
and after `vidOff` followed by `vidSetPower(0x0A04, true)`, although in each
case the last power operation was not `vidOn`. -/
theorem timer_running_after_vidOff :
    device0.machine.drv.timer_running = false ∧
    (run fontOnes [Op.vidSwitchBuffers] device0).machine.drv.timer_running = true ∧
    (run fontOnes [Op.vidOn, Op.vidOff] device0).machine.drv.timer_running = false ∧
    (run fontOnes [Op.vidOn, Op.vidOff, Op.vidSwitchBuffers] device0).machine.drv.timer_running
      = true ∧
    (run fontOnes [Op.vidOn, Op.vidOff, Op.vidPrintRotate (fun _ => locals0)]
      device0).machine.drv.timer_running = true ∧
    (run fontOnes [Op.vidOn, Op.vidOff, Op.vidSetPower 0x0A04 true]
      device0).machine.drv.timer_running = true :=
  ⟨rfl, rfl, rfl, rfl, rfl, rfl⟩

/-- C21 (amended): with the refresh timer as a running/stopped flag, for every
font and every state: `vidOn`, `vidSwitchBuffers`, `vidPrintRotate` and
`vidSetPower(.., pausetimer = true)` leave the timer running whatever it was
before; `vidOff` leaves it stopped; `vidClear`, `vidPutPixel`, `vidDrawImage`,
`vidPrintText`, `vidPrintRotateInit` and `vidSetPower(.., pausetimer = false)`
leave it as it was, and so does every sequence of them.  Hence after any
sequence of calls that ends with a call of the first two kinds followed by
calls of the third kind only, the timer is running if and only if that call
was not `vidOff`. -/
theorem timer_running_after_calls (font : Font) (d : Device) :
    (∀ op : Op, op.starts = true → (exec font op d).machine.drv.timer_running = true) ∧
    (exec font Op.vidOff d).machine.drv.timer_running = false ∧
    (∀ ops : List Op, (∀ op ∈ ops, op.quiet = true) →
      (run font ops d).machine.drv.timer_running = d.machine.drv.timer_running) ∧
    (∀ (pre : List Op) (op : Op) (suf : List Op), op.quiet = false →
      (∀ o ∈ suf, o.quiet = true) →
      (run font (pre ++ op :: suf) d).machine.drv.timer_running = op.starts) := by
  refine ⟨fun op h => exec_starts font op d h, rfl, fun ops h => run_quiet font ops d h, ?_⟩
  intro pre op suf hq hsuf
  rw [run_append]
  show (run font suf (exec font op (run font pre d))).machine.drv.timer_running = _
  rw [run_quiet font suf _ hsuf]
  rcases op_classes op with ⟨h1, -⟩ | ⟨-, h2⟩ | ⟨-, h2, h3⟩
  · rw [h1] at hq; exact absurd hq (by decide)
  · rw [h2]; exact exec_starts font op _ h2
  · rw [h2, h3]; rfl

/-- Witness for C21 (amended): after construction, `vidOn`, `vidOff` and then
`vidClear` and `vidPutPixel(0, 0, 15)` the timer is stopped; after `vidOn`,
`vidOff`, `vidSwitchBuffers` and `vidClear` it is running. -/
theorem timer_running_after_calls_witness :
    (run fontOnes ([Op.vidOn] ++ Op.vidOff :: [Op.vidClear, Op.vidPutPixel 0 0 15])
      device0).machine.drv.timer_running = Op.vidOff.starts ∧
    (run fontOnes ([Op.vidOn, Op.vidOff] ++ Op.vidSwitchBuffers :: [Op.vidClear])
      device0).machine.drv.timer_running = Op.vidSwitchBuffers.starts :=
  ⟨(timer_running_after_calls fontOnes device0).2.2.2 [Op.vidOn] Op.vidOff
      [Op.vidClear, Op.vidPutPixel 0 0 15] rfl
      (by intro o ho; simp at ho; rcases ho with rfl | rfl <;> rfl),
    (timer_running_after_calls fontOnes device0).2.2.2 [Op.vidOn, Op.vidOff] Op.vidSwitchBuffers
      [Op.vidClear] rfl
      (by intro o ho; simp at ho; rw [ho]; rfl)⟩

end VidMax7219
